import Mathlib

/-!
# rteval-parserd: the submission pipeline

A shallow embedding of the report ingestion daemon of rteval
(`server/parser/parsethread.c`, `pgsql.c`, `rteval-parserd.c`, `statuses.h`).

External collaborators (the PostgreSQL server, the file system, libxml2, the
POSIX message queue) do not run here.  Every call into one of them takes its
outcome from an explicit environment value, and every function returns, next
to its C return value, the list of calls it made, in order.  Log output
(`writelog`) is not part of the model.
-/

namespace RtevalParserd

/-! ## statuses.h -/

/-- New, unparsed report in the submission queue. -/
abbrev STAT_NEW : Int := 0
/-- Submission is assigned to a parser. -/
abbrev STAT_ASSIGNED : Int := 1
/-- Parsing has started. -/
abbrev STAT_INPROG : Int := 2
/-- Report parsed successfully. -/
abbrev STAT_SUCCESS : Int := 3
/-- Unknown failure. -/
abbrev STAT_UNKNFAIL : Int := 4
/-- Failed to parse the report XML file. -/
abbrev STAT_XMLFAIL : Int := 5
/-- System registration failed. -/
abbrev STAT_SYSREG : Int := 6
/-- Failed to get a new rterid value for the rteval run. -/
abbrev STAT_RTERIDREG : Int := 7
/-- General database error. -/
abbrev STAT_GENDB : Int := 8
/-- Registering rteval run information failed. -/
abbrev STAT_RTEVRUNS : Int := 9
/-- Registering cyclictest results failed. -/
abbrev STAT_CYCLIC : Int := 10
/-- Failed to move the report file. -/
abbrev STAT_REPMOVE : Int := 11
/-- Report is too big (config parameter max_report_size). -/
abbrev STAT_FTOOBIG : Int := 12

/-! ## C strings and machine integers -/

/-- A C string: the bytes before the terminating NUL. -/
abbrev cstr := List Char

/-- The value of a 32-bit two's complement `int` holding the low 32 bits of `v`. -/
def to_int32 (v : Int) : Int :=
  let m := v % 4294967296
  if m < 2147483648 then m else m - 4294967296

/-- What the conversion `%i` prints for an `unsigned int` argument: the
argument's 32 bits read as an `int`. -/
def int_of_unsigned (u : Nat) : Int := to_int32 (u : Int)

/-- The conversion `%i` of `printf` for an `int`. -/
def fmt_i (v : Int) : String := toString v

/-! ## libpq results -/

/-- Result status of a libpq command (`ExecStatusType`). -/
inductive ExecStatusType
  | PGRES_EMPTY_QUERY
  | PGRES_COMMAND_OK
  | PGRES_TUPLES_OK
  | PGRES_COPY_OUT
  | PGRES_COPY_IN
  | PGRES_BAD_RESPONSE
  | PGRES_NONFATAL_ERROR
  | PGRES_FATAL_ERROR
  deriving DecidableEq, Repr

/-- What `PQexec` hands back: `none` is the NULL pointer, `some s` a result
whose status is `s`. -/
abbrev PGresult := Option ExecStatusType

/-- Function `PQresultStatus` of libpq: a NULL result reads as `PGRES_FATAL_ERROR`. -/
def PQresultStatus : PGresult → ExecStatusType
  | none => ExecStatusType.PGRES_FATAL_ERROR
  | some s => s

/-- Which timestamp column an UPDATE of the queue table sets to `NOW()`. -/
inductive Stamp
  | nostamp
  | parsestart
  | parseend
  deriving DecidableEq, Repr

/-- The SQL statements the pipeline sends with `PQexec`. -/
inductive SqlCmd
  | BEGIN
  | COMMIT
  | ROLLBACK
  | NEXTVAL_RTERID
  | SELECT_NEW (status : Int)
  | UPDATE_QUEUE (status : Int) (stamp : Stamp) (submid : Int)
  deriving DecidableEq, Repr

/-- The text of a statement, as the format strings of pgsql.c produce it. -/
def SqlCmd.text : SqlCmd → String
  | .BEGIN => "BEGIN"
  | .COMMIT => "COMMIT"
  | .ROLLBACK => "ROLLBACK"
  | .NEXTVAL_RTERID => "SELECT nextval('rtevalruns_rterid_seq')"
  | .SELECT_NEW status =>
      "SELECT submid, filename, clientid  FROM submissionqueue WHERE status = "
        ++ fmt_i status ++ " ORDER BY submid LIMIT 1"
  | .UPDATE_QUEUE status .nostamp submid =>
      "UPDATE submissionqueue SET status = " ++ fmt_i status
        ++ " WHERE submid = " ++ fmt_i submid
  | .UPDATE_QUEUE status .parsestart submid =>
      "UPDATE submissionqueue SET status = " ++ fmt_i status
        ++ ", parsestart = NOW() WHERE submid = " ++ fmt_i submid
  | .UPDATE_QUEUE status .parseend submid =>
      "UPDATE submissionqueue SET status = " ++ fmt_i status
        ++ ", parseend = NOW() WHERE submid = " ++ fmt_i submid

/-! ## Calls made to the collaborators -/

/-- One call into a collaborator, with what it returned where the caller
looks at it. -/
inductive Event
  | PQexec (cmd : SqlCmd) (res : PGresult)
  | stat (path : cstr)
  | xmlParseFile (path : cstr)
  | xmlFreeDoc
  | mutex_lock_sysreg
  | mutex_unlock_sysreg
  | mutex_lock_submq
  | mutex_unlock_submq
  | db_register_system (syskey : Int)
  | db_register_rtevalrun (submid : Nat) (syskey rterid : Int) (report_fname : cstr)
  | db_register_cyclictest (rterid : Int)
  | pgsql_INSERT (table : String)
  | make_report_dir (fname : cstr)
  | mkdir (depth : Nat)
  | rename (src dst : cstr)
  | db_ping
  | mq_receive
  | kill_SIGUSR1
  | PQexec_sql (sql : cstr) (res : PGresult)
  | PQprepare (sql : cstr) (nparams : Nat) (res : PGresult)
  | PQexecPrepared (args : List (Option cstr)) (res : PGresult)
  deriving DecidableEq, Repr

/-- Is the call a COMMIT sent to the server? -/
def Event.is_commit : Event → Bool
  | Event.PQexec SqlCmd.COMMIT _ => true
  | _ => false

/-- Is the call a ROLLBACK sent to the server? -/
def Event.is_rollback : Event → Bool
  | Event.PQexec SqlCmd.ROLLBACK _ => true
  | _ => false

/-- Is the call a BEGIN sent to the server? -/
def Event.is_begin : Event → Bool
  | Event.PQexec SqlCmd.BEGIN _ => true
  | _ => false

/-- Is the call an UPDATE of the queue table sent to the server? -/
def Event.is_queue_update : Event → Bool
  | Event.PQexec (SqlCmd.UPDATE_QUEUE _ _ _) _ => true
  | _ => false

/-- Is the call the parsing of the report file? -/
def Event.is_xmlParseFile : Event → Bool
  | Event.xmlParseFile _ => true
  | _ => false

/-- Is the call the one to `db_register_system`? -/
def Event.is_register_system : Event → Bool
  | Event.db_register_system _ => true
  | _ => false

/-- Is the call the one to `db_get_new_rterid` (its nextval query)? -/
def Event.is_get_new_rterid : Event → Bool
  | Event.PQexec SqlCmd.NEXTVAL_RTERID _ => true
  | _ => false

/-- Is the call the one to `db_register_rtevalrun`? -/
def Event.is_register_rtevalrun : Event → Bool
  | Event.db_register_rtevalrun _ _ _ _ => true
  | _ => false

/-- Is the call the one to `db_register_cyclictest`? -/
def Event.is_register_cyclictest : Event → Bool
  | Event.db_register_cyclictest _ => true
  | _ => false

/-- Is the call an insert of a plan (`pgsql_INSERT`) made by one of the two
registration functions of the transaction? -/
def Event.is_insert : Event → Bool
  | Event.pgsql_INSERT _ => true
  | _ => false

/-- Is the call the one to `make_report_dir`? -/
def Event.is_make_report_dir : Event → Bool
  | Event.make_report_dir _ => true
  | _ => false

/-- Is the call a `mkdir`? -/
def Event.is_mkdir : Event → Bool
  | Event.mkdir _ => true
  | _ => false

/-- Is the call the `rename` of the report file? -/
def Event.is_rename : Event → Bool
  | Event.rename _ _ => true
  | _ => false

/-- Is the call the `stat` of the report file? -/
def Event.is_stat : Event → Bool
  | Event.stat _ => true
  | _ => false

/-- Is the call the preparation of a statement? -/
def Event.is_prepare : Event → Bool
  | Event.PQprepare _ _ _ => true
  | _ => false

/-- Is the call the execution of the prepared statement for a record? -/
def Event.is_exec_prepared : Event → Bool
  | Event.PQexecPrepared _ _ => true
  | _ => false

/-- Is the call a statement sent as text with `PQexec`? -/
def Event.is_exec_sql : Event → Bool
  | Event.PQexec_sql _ _ => true
  | _ => false

/-! ## pgsql.c: transactions -/

/-- Start an SQL transaction.  Returns 1 on success, otherwise -1. -/
def db_begin (dbres : PGresult) : Int :=
  if PQresultStatus dbres ≠ ExecStatusType.PGRES_COMMAND_OK then -1 else 1

/-- Commit an SQL transaction.  Returns 1 on success, otherwise -1. -/
def db_commit (dbres : PGresult) : Int :=
  if PQresultStatus dbres ≠ ExecStatusType.PGRES_COMMAND_OK then -1 else 1

/-- Abort an SQL transaction.  Returns 1 on success, otherwise -1. -/
def db_rollback (dbres : PGresult) : Int :=
  if PQresultStatus dbres ≠ ExecStatusType.PGRES_COMMAND_OK then -1 else 1

/-! ## pgsql.c: the queue-table status update -/

/-- The switch of `db_update_submissionqueue`: the statement built for a
status, `none` for the `default:` / `STAT_NEW` arm, which returns 0 before
any statement is sent. -/
def db_update_submissionqueue_sql (submid : Nat) (status : Int) : Option SqlCmd :=
  if status = STAT_ASSIGNED ∨ status = STAT_RTERIDREG ∨ status = STAT_REPMOVE
      ∨ status = STAT_XMLFAIL ∨ status = STAT_FTOOBIG then
    some (SqlCmd.UPDATE_QUEUE status Stamp.nostamp (int_of_unsigned submid))
  else if status = STAT_INPROG then
    some (SqlCmd.UPDATE_QUEUE status Stamp.parsestart (int_of_unsigned submid))
  else if status = STAT_SUCCESS ∨ status = STAT_UNKNFAIL ∨ status = STAT_SYSREG
      ∨ status = STAT_GENDB ∨ status = STAT_RTEVRUNS ∨ status = STAT_CYCLIC then
    some (SqlCmd.UPDATE_QUEUE status Stamp.parseend (int_of_unsigned submid))
  else
    none

/-- Updates the submission queue table with the new status and the
appropriate timestamps.  Returns 1 on success, 0 on invalid status ID and -1
on database errors.  `res` is what `PQexec` answers if a statement is sent. -/
def db_update_submissionqueue (submid : Nat) (status : Int) (res : PGresult) :
    Int × List Event :=
  match db_update_submissionqueue_sql submid status with
  | none => (0, [])
  | some sql =>
    match res with
    | none => (-1, [Event.PQexec sql res])
    | some st =>
      if st ≠ ExecStatusType.PGRES_COMMAND_OK then (-1, [Event.PQexec sql res])
      else (1, [Event.PQexec sql res])

/-! ## pgsql.c: run id, run registration, measurements -/

/-- Answer of the server to `SELECT nextval('rtevalruns_rterid_seq')`: the
result, its number of tuples, and `atoi_nullsafe(PQgetvalue(dbres, 0, 0))`. -/
structure NextvalEnv where
  dbres : PGresult
  ntuples : Nat
  value : Int
  deriving DecidableEq, Repr

/-- Retrieves the next available rteval run ID (rterid).  Documented as: a
value > 0 on success, otherwise -1. -/
def db_get_new_rterid (e : NextvalEnv) : Int :=
  if PQresultStatus e.dbres ≠ ExecStatusType.PGRES_TUPLES_OK ∨ e.ntuples ≠ 1 then -1
  else e.value

/-- The condition `rterid < 1` under which `db_get_new_rterid` logs
"Failed to retrieve a new rterid value" before it returns `rterid`. -/
def db_get_new_rterid_logs_failure (rterid : Int) : Bool := decide (rterid < 1)

/-- Outcomes inside `db_register_rtevalrun`: whether `parseToSQLdata` produced
each of the two plans, and what `pgsql_INSERT` returned for it (`none` is
NULL, `some n` a value list with `eCount` n). -/
structure RunEnv where
  rtevalrun_d : Bool
  ins_run : Option Nat
  rtevalrundets_d : Bool
  ins_dets : Option Nat
  deriving DecidableEq, Repr

/-- Registers information into the rtevalruns and rtevalruns_details tables.
Returns 1 on success, otherwise -1. -/
def db_register_rtevalrun (e : RunEnv) : Int × List Event :=
  if !e.rtevalrun_d then (-1, [])
  else
    match e.ins_run with
    | none => (-1, [Event.pgsql_INSERT "rtevalruns"])
    | some n =>
      if n ≠ 1 then (-1, [Event.pgsql_INSERT "rtevalruns"])
      else if !e.rtevalrundets_d then (-1, [Event.pgsql_INSERT "rtevalruns"])
      else
        match e.ins_dets with
        | none =>
          (-1, [Event.pgsql_INSERT "rtevalruns", Event.pgsql_INSERT "rtevalruns_details"])
        | some _ =>
          -- if( eCount(dbdata) != 1 ) { ret = -1; }  is followed by an unconditional  ret = 1;
          (1, [Event.pgsql_INSERT "rtevalruns", Event.pgsql_INSERT "rtevalruns_details"])

/-- Outcomes for one measurement table inside `db_register_cyclictest`:
whether the plan exists and has children, and what `pgsql_INSERT` returned. -/
structure CyclicTableEnv where
  plan_nonempty : Bool
  ins : Option Nat
  deriving DecidableEq, Repr

/-- The table list `cyclictables[]`. -/
def cyclictables : List String := ["cyclic_statistics", "cyclic_histogram", "cyclic_rawdata"]

/-- The `for` loop of `db_register_cyclictest`; `none` is the `goto exit`
taken with result -1, `some c` the value of `cyclicdata` after the loop. -/
def db_register_cyclictest_loop :
    List (String × CyclicTableEnv) → Int → List Event → Option Int × List Event
  | [], cyclicdata, evs => (some cyclicdata, evs)
  | (table, e) :: rest, cyclicdata, evs =>
    if e.plan_nonempty then
      match e.ins with
      | none => (none, evs ++ [Event.pgsql_INSERT table])
      | some _ =>
        -- if (eCount(dbdata) > 0) cyclicdata++;  followed by  cyclicdata = 1;
        db_register_cyclictest_loop rest 1 (evs ++ [Event.pgsql_INSERT table])
    else db_register_cyclictest_loop rest cyclicdata evs

/-- Registers data returned from cyclictest into the database.  Returns 1 on
success, otherwise -1.  `es` holds the outcomes for the three tables in the
order of `cyclictables`. -/
def db_register_cyclictest (es : CyclicTableEnv × CyclicTableEnv × CyclicTableEnv) :
    Int × List Event :=
  match db_register_cyclictest_loop (cyclictables.zip [es.1, es.2.1, es.2.2]) 0 [] with
  | (none, evs) => (-1, evs)
  | (some cyclicdata, evs) => if cyclicdata > 1 then (-1, evs) else (1, evs)

/-! ## parsethread.h, threadinfo.h -/

/-- Whether a job descriptor carries a job. -/
inductive jobStatus
  | jbNONE
  | jbAVAIL
  deriving DecidableEq, Repr

/-- The parse job information sent over the message queue. -/
structure parseJob_t where
  status : jobStatus
  submid : Nat
  clientid : cstr
  filename : cstr
  deriving DecidableEq, Repr

/-- The settings of `threadData_t` the pipeline reads. -/
structure threadData_t where
  id : Nat
  destdir : cstr
  max_report_size : Nat
  deriving DecidableEq, Repr

/-! ## parsethread.c: helpers of the per-job transaction -/

/-- What `stat` and `mkdir` answer for one directory level of the path in
`make_report_dir`. -/
inductive DirProbe
  | present
  | absent_mkdir_ok
  | absent_mkdir_fails
  | stat_error
  deriving DecidableEq, Repr

/-- The `while( tok )` loop of `make_report_dir` over the directory levels;
`depth` counts the levels already walked. -/
def make_report_dir_loop : List DirProbe → Nat → List Event → Int × List Event
  | [], _, evs => (1, evs)
  | DirProbe.present :: rest, depth, evs => make_report_dir_loop rest (depth + 1) evs
  | DirProbe.absent_mkdir_ok :: rest, depth, evs =>
    make_report_dir_loop rest (depth + 1) (evs ++ [Event.mkdir depth])
  | DirProbe.absent_mkdir_fails :: _, depth, evs => (-1, evs ++ [Event.mkdir depth])
  | DirProbe.stat_error :: _, _, evs => (-1, evs)

/-- Does the same job as mkdir -p on the directory of `fname`.  Returns 1 on
success, otherwise -1 (0 for a NULL file name).  `probes` lists, per level of
the directory path, what the file system answers. -/
def make_report_dir (fname : Option cstr) (probes : List DirProbe) : Int × List Event :=
  match fname with
  | none => (0, [])
  | some _ => make_report_dir_loop probes 0 []

/-- Builds up the full path of where to save the report:
`snprintf(newfname, retlen, "%s/%s/report-%i.xml", destdir, job->clientid, rterid)`
with `retlen = strlen(clientid) + strlen(destdir) + 24`.  NULL (`none`) when
there is no job or `rterid < 0`. -/
def get_destination_path (destdir : cstr) (job : Option parseJob_t) (rterid : Int) :
    Option cstr :=
  match job with
  | none => none
  | some j =>
    if rterid < 0 then none
    else
      let retlen := j.clientid.length + destdir.length + 24
      some ((destdir ++ "/".toList ++ j.clientid ++ "/report-".toList
              ++ (fmt_i rterid).toList ++ ".xml".toList).take (retlen - 1))

/-- Checks if the file size of the given file is below the given max size
value.  Returns 1 if the file is within the limit, otherwise 0; on errors -1.
`st` is the answer of `stat`: `none` when it fails, else `st_size`. -/
def check_filesize (max_report_size : Nat) (fname : Option cstr) (st : Option Nat) : Int :=
  match fname with
  | none => 0
  | some _ =>
    match st with
    | none => -1
    | some st_size => if st_size ≤ max_report_size then 1 else 0

/-! ## parsethread.c: the per-job transaction -/

/-- Everything the collaborators answer during one run of `parse_report`. -/
structure ParseEnv where
  /-- Answer of `stat(job->filename)`: `none` when it fails, else `st_size`. -/
  st : Option Nat
  /-- Whether `xmlParseFile` returned a document. -/
  repxml : Bool
  /-- Return value of `db_register_system`. -/
  syskey : Int
  /-- Answer to the nextval query of `db_get_new_rterid`. -/
  nextval : NextvalEnv
  /-- Answer to BEGIN. -/
  begin_res : PGresult
  /-- Outcomes inside `db_register_rtevalrun`. -/
  run : RunEnv
  /-- Outcomes inside `db_register_cyclictest`, per table. -/
  cyclic : CyclicTableEnv × CyclicTableEnv × CyclicTableEnv
  /-- File system answers inside `make_report_dir`. -/
  dirs : List DirProbe
  /-- Return value of `rename`: 0 on success, -1 on error. -/
  rename_rc : Int
  /-- Answer to ROLLBACK. -/
  rollback_res : PGresult
  /-- Answer to COMMIT. -/
  commit_res : PGresult
  deriving DecidableEq, Repr

/-- The part of `parse_report` after BEGIN succeeded and the destination file
name was built: register the run and the measurements, move the file, commit.
`evs` are the calls made so far. -/
def parse_report_transaction (job : parseJob_t) (env : ParseEnv) (syskey rterid : Int)
    (destfname : cstr) (evs : List Event) : Int × List Event :=
  let run := db_register_rtevalrun env.run
  let evs := evs ++ [Event.db_register_rtevalrun job.submid syskey rterid destfname] ++ run.2
  if run.1 < 0 then
    (STAT_RTEVRUNS, evs ++ [Event.PQexec SqlCmd.ROLLBACK env.rollback_res, Event.xmlFreeDoc])
  else
    let cyc := db_register_cyclictest env.cyclic
    let evs := evs ++ [Event.db_register_cyclictest rterid] ++ cyc.2
    if cyc.1 ≠ 1 then
      (STAT_CYCLIC, evs ++ [Event.PQexec SqlCmd.ROLLBACK env.rollback_res, Event.xmlFreeDoc])
    else
      let mk := make_report_dir (some destfname) env.dirs
      let evs := evs ++ [Event.make_report_dir destfname] ++ mk.2
      if mk.1 < 1 then
        (STAT_REPMOVE, evs ++ [Event.PQexec SqlCmd.ROLLBACK env.rollback_res, Event.xmlFreeDoc])
      else
        let evs := evs ++ [Event.rename job.filename destfname]
        if env.rename_rc < 0 then
          (STAT_REPMOVE,
            evs ++ [Event.PQexec SqlCmd.ROLLBACK env.rollback_res, Event.xmlFreeDoc])
        else
          -- rc = STAT_SUCCESS; db_commit(thrdata->dbc);  the value of db_commit is not read
          (STAT_SUCCESS, evs ++ [Event.PQexec SqlCmd.COMMIT env.commit_res, Event.xmlFreeDoc])

/-- The core parse function.  Parses an XML file and stores it in the
database.  Returns the status for the submission and the calls made. -/
def parse_report (thrdata : threadData_t) (job : parseJob_t) (env : ParseEnv) :
    Int × List Event :=
  if check_filesize thrdata.max_report_size (some job.filename) env.st = 0 then
    (STAT_FTOOBIG, [Event.stat job.filename])
  else if !env.repxml then
    (STAT_XMLFAIL, [Event.stat job.filename, Event.xmlParseFile job.filename])
  else
    let syskey := env.syskey
    if syskey < 0 then
      (STAT_SYSREG,
        [Event.stat job.filename, Event.xmlParseFile job.filename, Event.mutex_lock_sysreg,
          Event.db_register_system syskey, Event.xmlFreeDoc])
    else
      let rterid := db_get_new_rterid env.nextval
      if rterid < 0 then
        (STAT_RTERIDREG,
          [Event.stat job.filename, Event.xmlParseFile job.filename, Event.mutex_lock_sysreg,
            Event.db_register_system syskey,
            Event.PQexec SqlCmd.NEXTVAL_RTERID env.nextval.dbres, Event.xmlFreeDoc])
      else
        let evs :=
          [Event.stat job.filename, Event.xmlParseFile job.filename, Event.mutex_lock_sysreg,
            Event.db_register_system syskey,
            Event.PQexec SqlCmd.NEXTVAL_RTERID env.nextval.dbres, Event.mutex_unlock_sysreg,
            Event.PQexec SqlCmd.BEGIN env.begin_res]
        if db_begin env.begin_res < 1 then (STAT_GENDB, evs ++ [Event.xmlFreeDoc])
        else
          match get_destination_path thrdata.destdir (some job) rterid with
          | none =>
            (STAT_UNKNFAIL,
              evs ++ [Event.PQexec SqlCmd.ROLLBACK env.rollback_res, Event.xmlFreeDoc])
          | some destfname => parse_report_transaction job env syskey rterid destfname evs

/-- The destination file name `parse_report` computes for a job, as handed to
`db_register_rtevalrun`, `make_report_dir` and `rename`. -/
def parse_report_destfname (thrdata : threadData_t) (job : parseJob_t) (env : ParseEnv) :
    Option cstr :=
  get_destination_path thrdata.destdir (some job) (db_get_new_rterid env.nextval)

/-- The calls `parse_report` has made once BEGIN was answered. -/
def parse_report_begin_events (job : parseJob_t) (env : ParseEnv) : List Event :=
  [Event.stat job.filename, Event.xmlParseFile job.filename, Event.mutex_lock_sysreg,
    Event.db_register_system env.syskey,
    Event.PQexec SqlCmd.NEXTVAL_RTERID env.nextval.dbres, Event.mutex_unlock_sysreg,
    Event.PQexec SqlCmd.BEGIN env.begin_res]

/-! ## The submissionqueue table -/

/-- A row of the submissionqueue table, with the columns the parser touches. -/
structure QueueRow where
  submid : Int
  filename : cstr
  clientid : cstr
  status : Int
  parsestart : Option Nat
  parseend : Option Nat
  deriving DecidableEq, Repr

/-- The rows the server returns for
`SELECT submid, filename, clientid FROM submissionqueue WHERE status = 0 ORDER BY submid LIMIT 1`:
the row of least submid among those whose status is `STAT_NEW`, if any (of
rows with equal submid the first one). -/
def select_new : List QueueRow → Option QueueRow
  | [] => none
  | r :: rest =>
    match select_new rest with
    | none => if r.status = STAT_NEW then some r else none
    | some m => if r.status = STAT_NEW ∧ r.submid ≤ m.submid then some r else some m

/-- The effect of `UPDATE submissionqueue SET status = .. [, parsestart|parseend = NOW()]
WHERE submid = ..` on one row; `now` is the value of `NOW()`. -/
def update_row (status : Int) (stamp : Stamp) (submid : Int) (now : Nat) (r : QueueRow) :
    QueueRow :=
  if r.submid = submid then
    match stamp with
    | Stamp.nostamp => { r with status := status }
    | Stamp.parsestart => { r with status := status, parsestart := some now }
    | Stamp.parseend => { r with status := status, parseend := some now }
  else r

/-- The table after the server has answered a statement with `res`: an UPDATE
answered with `PGRES_COMMAND_OK` has been applied to every row it selects,
anything else leaves the table as it was. -/
def exec_on_queue (cmd : SqlCmd) (res : PGresult) (now : Nat) (q : List QueueRow) :
    List QueueRow :=
  match cmd, res with
  | SqlCmd.UPDATE_QUEUE status stamp submid, some ExecStatusType.PGRES_COMMAND_OK =>
    q.map (update_row status stamp submid now)
  | _, _ => q

/-- The table after every statement of a list of calls has been answered. -/
def run_on_queue (now : Nat) : List Event → List QueueRow → List QueueRow
  | [], q => q
  | Event.PQexec cmd res :: evs, q => run_on_queue now evs (exec_on_queue cmd res now q)
  | _ :: evs, q => run_on_queue now evs q

/-! ## pgsql.c: claiming a job -/

/-- The zeroed descriptor `malloc_nullsafe` hands out, marked `jbNONE`. -/
def empty_job : parseJob_t :=
  { status := jobStatus.jbNONE, submid := 0, clientid := [], filename := [] }

/-- Retrieve the first available submitted report.  Returns the parse job
(`none` for NULL), the table afterwards and the calls made.  `select_res` and
`update_res` are the answers of the server to the SELECT and to the UPDATE. -/
def db_get_submissionqueue_job (q : List QueueRow) (now : Nat)
    (select_res update_res : PGresult) :
    Option parseJob_t × List QueueRow × List Event :=
  let sel := Event.PQexec (SqlCmd.SELECT_NEW STAT_NEW) select_res
  if PQresultStatus select_res ≠ ExecStatusType.PGRES_TUPLES_OK then
    (none, q, [Event.mutex_lock_submq, sel, Event.mutex_unlock_submq])
  else
    match select_new q with
    | some row =>
      -- PQntuples(res) == 1
      let job : parseJob_t :=
        { status := jobStatus.jbAVAIL
          -- atoi_nullsafe, stored into an unsigned int
          submid := (row.submid % 4294967296).toNat
          -- snprintf(job->filename, 4095, "%.4094s", ...)
          filename := row.filename.take 4094
          -- snprintf(job->clientid, 255, "%.254s", ...)
          clientid := row.clientid.take 254 }
      let upd := db_update_submissionqueue job.submid STAT_ASSIGNED update_res
      let evs := [Event.mutex_lock_submq, sel] ++ upd.2 ++ [Event.mutex_unlock_submq]
      if upd.1 < 1 then (none, run_on_queue now upd.2 q, evs)
      else (some job, run_on_queue now upd.2 q, evs)
    | none =>
      (some empty_job, q, [Event.mutex_lock_submq, sel, Event.mutex_unlock_submq])

/-! ## pgsql.c: ping -/

/-- Pings the database connection: `status_ok` is whether `PQstatus` reads
`CONNECTION_OK` after the empty query, `reset_ok` whether it does after
`PQreset`.  Returns 1 if the connection is alive, otherwise 0. -/
def db_ping (status_ok reset_ok : Bool) : Int :=
  if !status_ok then
    if !reset_ok then 0 else 1
  else 1

/-! ## parsethread.c: the worker thread -/

/-- Values of `errno` after `mq_receive`; `E0` is the 0 stored before the call. -/
inductive Errno
  | E0
  | EAGAIN
  | EBADF
  | EINTR
  | EINVAL
  | EMSGSIZE
  | ETIMEDOUT
  deriving DecidableEq, Repr

/-- Everything the outside world answers during one iteration of the polling
loop of `parsethread`. -/
structure IterEnv where
  /-- Value of the shutdown flag read by the `while` condition. -/
  shutdown_top : Int
  /-- Connection state seen by `db_ping`. -/
  ping_status_ok : Bool
  /-- Connection state after the reset inside `db_ping`. -/
  ping_reset_ok : Bool
  /-- Return value of `mq_receive`. -/
  len : Int
  /-- Value of `errno` after `mq_receive`. -/
  errno : Errno
  /-- Buffer `jobinfo` after `mq_receive`. -/
  jobinfo : parseJob_t
  /-- Value of the shutdown flag read after `mq_receive`. -/
  shutdown_recv : Int
  /-- Answer to the UPDATE that marks the job as in progress. -/
  inprog_res : PGresult
  /-- Answers during `parse_report`. -/
  parse : ParseEnv
  /-- Answer to the UPDATE that stores the final status. -/
  final_res : PGresult
  deriving DecidableEq, Repr

/-- How one iteration of the polling loop ends. -/
inductive LoopStep
  /-- The loop body ran to its end; the `while` condition is read again. -/
  | next
  /-- The loop is left (condition false, or `break`); control reaches `exit:`. -/
  | leave
  /-- Jump `goto exit` with the given exit code. -/
  | goto_exit (exitcode : Int)
  /-- Call of `pthread_exit` inside the loop: the thread ends there. -/
  | pthread_exit (exitcode : Int)
  deriving DecidableEq, Repr

/-- One iteration of the polling loop of `parsethread`, the `while` condition
included.  `threadcount` is the value of `*(args->threadcount)` read in the
ping failure branch. -/
def parsethread_iteration (args : threadData_t) (threadcount : Int) (it : IterEnv) :
    LoopStep × List Event :=
  if it.shutdown_top ≠ 0 then (LoopStep.leave, [])
  else if db_ping it.ping_status_ok it.ping_reset_ok ≠ 1 then
    (LoopStep.goto_exit 1,
      if threadcount ≤ 1 then [Event.db_ping, Event.kill_SIGUSR1] else [Event.db_ping])
  else if it.len < 0 ∧ it.errno ≠ Errno.EAGAIN then
    (LoopStep.pthread_exit 1, [Event.db_ping, Event.mq_receive])
  else if it.shutdown_recv ≠ 0 then (LoopStep.leave, [Event.db_ping, Event.mq_receive])
  else if it.errno ≠ Errno.EAGAIN ∧ it.len > 0 then
    let upd := db_update_submissionqueue it.jobinfo.submid STAT_INPROG it.inprog_res
    if upd.1 ≠ 0 then
      let res := parse_report args it.jobinfo it.parse
      let fin := db_update_submissionqueue it.jobinfo.submid res.1 it.final_res
      (LoopStep.next, [Event.db_ping, Event.mq_receive] ++ upd.2 ++ res.2 ++ fin.2)
    else (LoopStep.next, [Event.db_ping, Event.mq_receive] ++ upd.2)
  else (LoopStep.next, [Event.db_ping, Event.mq_receive])

/-- How a worker thread ended: the value passed to `pthread_exit`, the value
of the shared worker counter afterwards, and the calls made. -/
structure WorkerResult where
  exitcode : Int
  threadcount : Int
  events : List Event
  deriving DecidableEq, Repr

/-- The polling loop of `parsethread` followed by the code at `exit:`.  One
element of the list is consumed per iteration; `none` when the list ends
before the thread does. -/
def parsethread_loop (args : threadData_t) (threadcount : Int) :
    List IterEnv → List Event → Option WorkerResult
  | [], _ => none
  | it :: rest, evs =>
    match parsethread_iteration args threadcount it with
    | (LoopStep.next, e) => parsethread_loop args threadcount rest (evs ++ e)
    | (LoopStep.leave, e) =>
      some { exitcode := 0, threadcount := threadcount - 1, events := evs ++ e }
    | (LoopStep.goto_exit code, e) =>
      some { exitcode := code, threadcount := threadcount - 1, events := evs ++ e }
    | (LoopStep.pthread_exit code, e) =>
      some { exitcode := code, threadcount := threadcount, events := evs ++ e }

/-- The parser thread: counts itself in `*(args->threadcount)`, polls the
message queue until shutdown, counts itself out.  `threadcount` is the value
of the counter when the thread starts; the other threads are not modelled. -/
def parsethread (args : threadData_t) (threadcount : Int) (iters : List IterEnv) :
    Option WorkerResult :=
  parsethread_loop args (threadcount + 1) iters []

/-! ## Status updates in a list of calls -/

/-- The statuses of the UPDATE statements sent for the queue row `submid`, in
the order they were sent. -/
def status_updates (submid : Int) : List Event → List Int
  | [] => []
  | Event.PQexec (SqlCmd.UPDATE_QUEUE status _ key) _ :: evs =>
    if key = submid then status :: status_updates submid evs else status_updates submid evs
  | _ :: evs => status_updates submid evs

/-- A terminal status: `STAT_SUCCESS` or one of the failure statuses. -/
def is_terminal (status : Int) : Bool :=
  decide (STAT_SUCCESS ≤ status ∧ status ≤ STAT_FTOOBIG)

/-! ## libc: character classes, atoi, strncat -/

/-- The C locale `isspace`: space, and the control characters 9 to 13. -/
def isspace (c : Char) : Bool :=
  decide (c.toNat = 32) || (decide (9 ≤ c.toNat) && decide (c.toNat ≤ 13))

/-- The value of a run of leading decimal digits, added to `acc`. -/
def atoi_digits : cstr → Int → Int
  | [], acc => acc
  | c :: cs, acc =>
    if c.isDigit then atoi_digits cs (acc * 10 + ((c.toNat : Int) - 48)) else acc

/-- The libc `atoi`: leading white space, an optional sign, decimal digits;
anything after them is ignored.  Values that do not fit an `int` keep their low
32 bits. -/
def atoi (s : cstr) : Int :=
  match s.dropWhile isspace with
  | '-' :: r => to_int32 (- atoi_digits r 0)
  | '+' :: r => to_int32 (atoi_digits r 0)
  | r => to_int32 (atoi_digits r 0)

/-- The macro `atoi_nullsafe(str)`: `(str != NULL ? atoi(str) : 0)`. -/
def atoi_nullsafe (s : Option cstr) : Int :=
  match s with
  | none => 0
  | some s => atoi s

/-- The macro `strlen_nullsafe(str)`: `(str != NULL ? strlen(str) : 0)`. -/
def strlen_nullsafe (s : Option cstr) : Nat :=
  match s with
  | none => 0
  | some s => s.length

/-- The macro `append_str(dest, src, size)`, which is
`strncat(dest, src, (size - strlen_nullsafe(dest)))`: at most `size - strlen(dest)`
bytes of `src` are appended.  The difference is unsigned: when `dest` is
already longer than `size` it wraps around and nothing is cut. -/
def append_str (dest src : cstr) (size : Nat) : cstr :=
  if dest.length ≤ size then dest ++ src.take (size - dest.length) else dest ++ src

/-! ## libxml2 trees and eurephia_xml.c -/

/-- The node types of libxml2 that occur in a parsed document. -/
inductive xmlElementType
  | XML_ELEMENT_NODE
  | XML_TEXT_NODE
  | XML_CDATA_SECTION_NODE
  | XML_COMMENT_NODE
  deriving DecidableEq, Repr

/-- An attribute: its name and the content of its text child (NULL when the
attribute has no child). -/
structure xmlAttr where
  name : cstr
  value : Option cstr
  deriving DecidableEq, Repr

/-- A node of a libxml2 tree: type, name, attributes, content (of a text
node) and children. -/
inductive xmlNode
  | mk (type : xmlElementType) (name : cstr) (properties : List xmlAttr)
      (content : Option cstr) (children : List xmlNode)

/-- Field `type` of a node. -/
def xmlNode.type : xmlNode → xmlElementType
  | xmlNode.mk t _ _ _ _ => t

/-- Field `name` of a node. -/
def xmlNode.name : xmlNode → cstr
  | xmlNode.mk _ n _ _ _ => n

/-- Field `properties` of a node. -/
def xmlNode.properties : xmlNode → List xmlAttr
  | xmlNode.mk _ _ p _ _ => p

/-- Field `content` of a node. -/
def xmlNode.content : xmlNode → Option cstr
  | xmlNode.mk _ _ _ c _ => c

/-- Field `children` of a node, as the list the `next` pointers chain. -/
def xmlNode.children : xmlNode → List xmlNode
  | xmlNode.mk _ _ _ _ ch => ch

/-- Retrieves a given XML node attribute: the value of the first attribute of
that name, NULL if there is none. -/
def xmlGetAttrValue : List xmlAttr → cstr → Option cstr
  | [], _ => none
  | a :: rest, key => if a.name = key then a.value else xmlGetAttrValue rest key

/-- Loops through the children of a node to look for a given tag; the search
is not recursive. -/
def xmlFindNode (node : Option xmlNode) (key : cstr) : Option xmlNode :=
  match node with
  | none => none
  | some n => n.children.find? (fun c => decide (c.name = key))

/-- Return the text content of a given xmlNode: the content of its first child. -/
def xmlExtractContent (n : Option xmlNode) : Option cstr :=
  match n with
  | none => none
  | some n =>
    match n.children with
    | [] => none
    | c :: _ => c.content

/-- An element node with attributes and children; an attribute written with an
empty value has no text child. -/
def xml_element (name : String) (attrs : List (String × String)) (children : List xmlNode) :
    xmlNode :=
  xmlNode.mk xmlElementType.XML_ELEMENT_NODE name.toList
    (attrs.map (fun a =>
      { name := a.1.toList, value := if a.2 = "" then none else some a.2.toList })) none children

/-- A text node. -/
def xml_text (content : String) : xmlNode :=
  xmlNode.mk xmlElementType.XML_TEXT_NODE "text".toList [] (some content.toList) []

/-! ## xmlparser.c: values of an sqldata document -/

/-- The library functions the value extraction calls: the libxml2 serialiser
behind `xmlNodeToString` (NULL when it fails), the SHA-1 of sha1.h rendered
with `%02x` per byte, and what `strtod` leaves unparsed of a string. -/
structure Libs where
  xmlNodeToString : xmlNode → Option cstr
  sha1_hex : cstr → cstr
  strtod_rest : cstr → cstr

/-- Simple function to determine if the given string is a number or not:
returns 0 if not a number and a non-null value if it is a number. -/
def isNumber (lib : Libs) (str : Option cstr) : Int :=
  match str with
  | none => 0
  | some [] => 0
  | some (c :: cs) =>
    if isspace c then 0
    else if lib.strtod_rest (c :: cs) = [] then 1 else 0

/-- Internal xmlparser function.  Extracts the value from a value node and
hashes the value if the hash attribute is set.  `parent` is the name of the
parent node. -/
def sqldataValueHash (lib : Libs) (parent : cstr) (sql_n : xmlNode) : Option cstr :=
  if ¬ ((sql_n.name = "value".toList ∧ parent = "record".toList)
      ∨ parent = "value".toList) then none
  else
    if xmlGetAttrValue sql_n.properties "isnull".toList = some "1".toList then none
    else
      match xmlGetAttrValue sql_n.properties "hash".toList with
      | none => xmlExtractContent (some sql_n)
      | some hash =>
        if hash.map Char.toLower = "sha1".toList then
          some (lib.sha1_hex ((xmlExtractContent (some sql_n)).getD []))
        else some "<Unsupported hashing algorithm>".toList

/-- The loop of `pgsql_BuildArray` over the children of the array cell:
every non-NULL inner value is appended to `ret`, in single quotes unless
`isNumber` accepts it, and followed by a comma. -/
def pgsql_BuildArray_loop (lib : Libs) (parent : cstr) : List xmlNode → cstr → cstr
  | [], ret => ret
  | node :: rest, ret =>
    if node.type ≠ xmlElementType.XML_ELEMENT_NODE ∨ node.name ≠ "value".toList then
      pgsql_BuildArray_loop lib parent rest ret
    else
      match sqldataValueHash lib parent node with
      | none => pgsql_BuildArray_loop lib parent rest ret
      | some ptr =>
        if isNumber lib (some ptr) = 0 then
          pgsql_BuildArray_loop lib parent rest (ret ++ "'".toList ++ ptr ++ "',".toList)
        else
          pgsql_BuildArray_loop lib parent rest (ret ++ ptr ++ ",".toList)

/-- Formats the inner values of an array cell as a PostgreSQL array.  After
the loop the last byte of the string is overwritten with the closing brace
("Replace the last comma with a close-array marker").  The sizes handed to
`realloc` are not part of the model. -/
def pgsql_BuildArray (lib : Libs) (sql_n : xmlNode) : Option cstr :=
  let ret := pgsql_BuildArray_loop lib sql_n.name sql_n.children "\x7b".toList
  some (ret.dropLast ++ "\x7d".toList)

/-- Extract the content of a value node of a record.  It considers both the
hash and type attributes of the value tag.  `dbhelpers` is the global
`xmlparser_dbhelpers->dbh_FormatArray` (`none` before `init_xmlparser`),
`parent` the name of the parent node. -/
def sqldataExtractContent (lib : Libs) (dbhelpers : Option (xmlNode → Option cstr))
    (parent : cstr) (sql_n : xmlNode) : Option cstr :=
  match dbhelpers with
  | none => none
  | some dbh_FormatArray =>
    if sql_n.name ≠ "value".toList ∨ parent ≠ "record".toList then none
    else
      let valtype := xmlGetAttrValue sql_n.properties "type".toList
      if valtype = some "xmlblob".toList then
        -- Go to next "real" tag, skipping non-element nodes
        match sql_n.children.find?
            (fun c => decide (c.type = xmlElementType.XML_ELEMENT_NODE)) with
        | none => none
        | some chld_n => lib.xmlNodeToString chld_n
      else if valtype = some "array".toList then dbh_FormatArray sql_n
      else sqldataValueHash lib parent sql_n

/-- The required schema version of an sqldata document: the schemaver
attribute read as major*100 + minor, 100 if it is not defined, -1 for an
invalid document node or an uninitialised xmlparser. -/
def sqldataGetRequiredSchemaVer (initialised : Bool) (sqldata_root : Option xmlNode) : Int :=
  if !initialised then -1
  else
    match sqldata_root with
    | none => -1
    | some root =>
      if root.name ≠ "sqldata".toList then -1
      else
        match xmlGetAttrValue root.properties "schemaver".toList with
        | none => 100
        | some schver =>
          if schver.contains '.' then
            -- strpbrk(cp, "."): the text before the first dot, and the text after it
            let majv := atoi (schver.takeWhile (fun c => c ≠ '.'))
            let minv := atoi ((schver.dropWhile (fun c => c ≠ '.')).drop 1)
            to_int32 (majv * 100 + minv)
          else
            let majv := atoi schver
            to_int32 (majv * 100 + 0)

/-! ## eurephia_values.c -/

/-- One element of an eurephiaVALUES pointer chain; a chain is the list of its
elements, the header first, and a NULL pointer is `none`. -/
structure eurephiaVALUES where
  evgid : Nat
  evid : Nat
  key : Option cstr
  val : Option cstr
  deriving DecidableEq, Repr

/-- Creates a new eurephiaVALUES stack: one zeroed element with the group ID. -/
def eCreate_value_space (evgid : Nat) : List eurephiaVALUES :=
  [{ evgid := evgid, evid := 0, key := none, val := none }]

/-- The largest `evid` among the elements after the header, as the loop of
`eAdd_valuestruct` computes it (0 for none). -/
def eAdd_valuestruct_vid : List eurephiaVALUES → Nat → Nat
  | [], vid => vid
  | e :: rest, vid => eAdd_valuestruct_vid rest (if vid > e.evid then vid else e.evid)

/-- Adds a new element to a chain.  An empty header record (no key, no value,
no successor, evid 0) is overwritten with the key and value of `newval`;
otherwise `newval` is appended with the next `evid` and the group ID of the
last element. -/
def eAdd_valuestruct (vls : List eurephiaVALUES) (newval : eurephiaVALUES) :
    List eurephiaVALUES :=
  match vls with
  | [] => []
  | hd :: tl =>
    if hd.key = none ∧ hd.val = none ∧ tl = [] ∧ hd.evid = 0 then
      [{ hd with key := newval.key, val := newval.val, evid := 0 }]
    else
      vls ++ [{ newval with
                evid := eAdd_valuestruct_vid tl 0 + 1
                evgid := ((hd :: tl).getLast (List.cons_ne_nil hd tl)).evgid }]

/-- Adds a new key/value pair to an eurephiaVALUES stack. -/
def eAdd_value (vls : List eurephiaVALUES) (key val : Option cstr) : List eurephiaVALUES :=
  match vls with
  | [] => []
  | hd :: tl =>
    eAdd_valuestruct (hd :: tl) { evgid := hd.evgid, evid := 0, key := key, val := val }

/-- Counts number of elements in an eurephiaVALUES chain (0 for NULL). -/
def eCount (vls : Option (List eurephiaVALUES)) : Nat :=
  match vls with
  | none => 0
  | some l => l.length

/-! ## pgsql.c: inserting an sqldata document -/

/-- What the server answers to `PQexecPrepared` for one record: the result,
`PQgetvalue(dbres, 0, 0)` and `PQoidValue(dbres)`. -/
structure ExecAnswer where
  dbres : PGresult
  value : cstr
  oid : Nat
  deriving DecidableEq, Repr

/-- What the server answers during one call of `pgsql_INSERT`: the result of
`PQprepare`, and the answer to the execution for the n-th record (from 0). -/
structure InsertEnv where
  prepare_res : PGresult
  exec : Nat → ExecAnswer

/-- The place holder `snprintf(tmp, 6, "$%i", i+1)` leaves in `tmp`: at most
five bytes. -/
def pgsql_INSERT_placeholder (i : Nat) : cstr :=
  ("$".toList ++ (fmt_i (int_of_unsigned (i + 1))).toList).take 5

/-- The loop of `pgsql_INSERT` that generates the strings with field names
and value place holders; the state is `(fields, values)`.  `none` when a
field has no name, which hands NULL to `strcat`. -/
def pgsql_INSERT_build (fieldcnt : Nat) :
    List (Option cstr) → Nat → cstr × cstr → Option (cstr × cstr)
  | [], _, st => some st
  | name :: rest, i, (fields, values) =>
    let values := append_str values (pgsql_INSERT_placeholder i) (6 * fieldcnt)
    match name with
    | none => none
    | some f =>
      if i < fieldcnt - 1 then
        pgsql_INSERT_build fieldcnt rest (i + 1) (fields ++ f ++ ",".toList, values ++ ",".toList)
      else pgsql_INSERT_build fieldcnt rest (i + 1) (fields ++ f, values)

/-- The SQL query `pgsql_INSERT` builds from the table name, the field names
in declaration order and the key attribute. -/
def pgsql_INSERT_sql (table : cstr) (field_ar : List (Option cstr)) (key : Option cstr) :
    Option cstr :=
  match pgsql_INSERT_build field_ar.length field_ar 0 ("(".toList, "(".toList) with
  | none => none
  | some (fields, values) =>
    let sql := "INSERT INTO ".toList ++ table ++ " ".toList ++ (fields ++ ")".toList)
      ++ " VALUES ".toList ++ (values ++ ")".toList)
    match key with
    | none => some sql
    | some k => some (sql ++ " RETURNING ".toList ++ k)

/-- The loop of `pgsql_INSERT` over the value nodes of one record: the i-th
value node that has a non-negative fid is stored at `value_ar[field_idx[i]]`.
`none` when that index lies outside the `fieldcnt` elements of `value_ar`. -/
def pgsql_INSERT_values (lib : Libs) (fieldcnt : Nat) (field_idx : List Nat) (parent : cstr) :
    List xmlNode → Nat → List (Option cstr) → Option (List (Option cstr))
  | [], _, value_ar => some value_ar
  | val_n :: rest, i, value_ar =>
    if i > fieldcnt then some value_ar
    else if val_n.type ≠ xmlElementType.XML_ELEMENT_NODE then
      pgsql_INSERT_values lib fieldcnt field_idx parent rest i value_ar
    else
      let fid_s := xmlGetAttrValue val_n.properties "fid".toList
      let fid := atoi_nullsafe fid_s
      if fid_s = none ∨ fid < 0 then
        pgsql_INSERT_values lib fieldcnt field_idx parent rest i value_ar
      else
        let idx := field_idx.getD i 0
        if idx < fieldcnt then
          pgsql_INSERT_values lib fieldcnt field_idx parent rest (i + 1)
            (value_ar.set idx
              (sqldataExtractContent lib (some (pgsql_BuildArray lib)) parent val_n))
        else none

/-- What `pgsql_INSERT` returns: NULL, a value list, or nothing defined when
the C code has written outside `value_ar` or handed NULL to `strcat`. -/
inductive InsertResult
  | undefined
  | null
  | values (res : List eurephiaVALUES)
  deriving DecidableEq, Repr

/-- The loop of `pgsql_INSERT` over the record nodes; `n` counts the records
executed so far, `res` is the value list, `evs` the calls made so far. -/
def pgsql_INSERT_records (lib : Libs) (key : Option cstr) (fieldcnt : Nat)
    (field_idx : List Nat) (exec : Nat → ExecAnswer) :
    List xmlNode → Nat → List eurephiaVALUES → List Event → InsertResult × List Event
  | [], _, res, evs => (InsertResult.values res, evs)
  | ptr_n :: rest, n, res, evs =>
    if ptr_n.type ≠ xmlElementType.XML_ELEMENT_NODE then
      pgsql_INSERT_records lib key fieldcnt field_idx exec rest n res evs
    else
      match pgsql_INSERT_values lib fieldcnt field_idx ptr_n.name ptr_n.children 0
          (List.replicate fieldcnt none) with
      | none => (InsertResult.undefined, evs)
      | some value_ar =>
        let ans := exec n
        let evs := evs ++ [Event.PQexecPrepared value_ar ans.dbres]
        if PQresultStatus ans.dbres ≠
            (if key.isSome then ExecStatusType.PGRES_TUPLES_OK
              else ExecStatusType.PGRES_COMMAND_OK) then
          -- eFree_values(res); res = NULL; goto exit;
          (InsertResult.null, evs)
        else
          match key with
          | some k =>
            pgsql_INSERT_records lib key fieldcnt field_idx exec rest (n + 1)
              (eAdd_value res (some k) (some ans.value)) evs
          | none =>
            pgsql_INSERT_records lib key fieldcnt field_idx exec rest (n + 1)
              (eAdd_value res (some "oid".toList) (some (fmt_i (ans.oid : Int)).toList)) evs

/-- The element nodes among the children of a node. -/
def element_children (n : xmlNode) : List xmlNode :=
  n.children.filter (fun c => decide (c.type = xmlElementType.XML_ELEMENT_NODE))

/-- The index mapping table `field_idx` of `pgsql_INSERT`: the fid attribute
of every field, read with `atoi_nullsafe` into an unsigned int, followed by
the extra zeroed element `calloc(fieldcnt+1, ..)` leaves. -/
def pgsql_INSERT_field_idx (fields_n : xmlNode) : List Nat :=
  (element_children fields_n).map
      (fun f => ((atoi_nullsafe (xmlGetAttrValue f.properties "fid".toList)) % 4294967296).toNat)
    ++ [0]

/-- The list `field_ar` of `pgsql_INSERT`: the text content of every field. -/
def pgsql_INSERT_field_ar (fields_n : xmlNode) : List (Option cstr) :=
  (element_children fields_n).map (fun f => xmlExtractContent (some f))

/-- Does INSERT SQL queries based on an XML document (sqldata) which contains
all information about table, fields and records to be inserted, using a
prepared statement.  `sqldoc` is the root element of the document,
`sqlschemaver` the schema version of the connection.  Returns the value list
and the calls made. -/
def pgsql_INSERT (lib : Libs) (sqlschemaver : Nat) (sqldoc : Option xmlNode) (env : InsertEnv) :
    InsertResult × List Event :=
  match sqldoc with
  | none => (InsertResult.null, [])
  | some root_n =>
    if root_n.name ≠ "sqldata".toList then (InsertResult.null, [])
    else
      match xmlGetAttrValue root_n.properties "table".toList with
      | none => (InsertResult.null, [])
      | some table =>
        let schemaver := ((sqldataGetRequiredSchemaVer true (some root_n)) % 4294967296).toNat
        if schemaver < 100 then (InsertResult.null, [])
        else if schemaver > sqlschemaver then (InsertResult.null, [])
        else
          let key := xmlGetAttrValue root_n.properties "key".toList
          match xmlFindNode (some root_n) "fields".toList,
              xmlFindNode (some root_n) "records".toList with
          | some fields_n, some recs_n =>
            let fieldcnt := (element_children fields_n).length
            match pgsql_INSERT_sql table (pgsql_INSERT_field_ar fields_n) key with
            | none => (InsertResult.undefined, [])
            | some sql =>
              let evs := [Event.PQprepare sql fieldcnt env.prepare_res]
              if PQresultStatus env.prepare_res ≠ ExecStatusType.PGRES_COMMAND_OK then
                (InsertResult.null, evs)
              else
                pgsql_INSERT_records lib key fieldcnt (pgsql_INSERT_field_idx fields_n)
                  env.exec recs_n.children 0 (eCreate_value_space 1) evs
          | _, _ => (InsertResult.null, [])

/-! ## The statement text in the words of the specification -/

/-- The strings of a list, separated by single commas. -/
def join_commas : List cstr → cstr
  | [] => []
  | [x] => x
  | x :: y :: rest => x ++ ",".toList ++ join_commas (y :: rest)

/-- The place holders `$1`, .., `$n`. -/
def spec_placeholders (n : Nat) : List cstr :=
  (List.range' 0 n).map (fun i => "$".toList ++ (Nat.repr (i + 1)).toList)

/-- The statement of the specification for table `t`, field names `f1..fn` in
declaration order and an optional key `k`:
`INSERT INTO t (f1,...,fn) VALUES ($1,...,$n)`, followed by ` RETURNING k`
when there is a key. -/
def spec_INSERT_sql (table : cstr) (names : List cstr) (key : Option cstr) : cstr :=
  "INSERT INTO ".toList ++ table ++ " (".toList ++ join_commas names ++ ") VALUES (".toList
    ++ join_commas (spec_placeholders names.length) ++ ")".toList
    ++ (match key with
        | none => []
        | some k => " RETURNING ".toList ++ k)

/-- The checks `pgsql_INSERT` makes on a document before it builds the
statement: the root is an sqldata element with a table attribute, the
required schema version is at least 100 and not above that of the
connection, and the root has a fields and a records child. -/
structure sqldata_accepted (sqlschemaver : Nat) (root_n : xmlNode) (table : cstr)
    (fields_n recs_n : xmlNode) : Prop where
  root : root_n.name = "sqldata".toList
  table : xmlGetAttrValue root_n.properties "table".toList = some table
  ver_min : ¬ ((sqldataGetRequiredSchemaVer true (some root_n)) % 4294967296).toNat < 100
  ver_max : ¬ ((sqldataGetRequiredSchemaVer true (some root_n)) % 4294967296).toNat
              > sqlschemaver
  fields : xmlFindNode (some root_n) "fields".toList = some fields_n
  records : xmlFindNode (some root_n) "records".toList = some recs_n

/-! ## The entries of the result list in the words of the specification -/

/-- The entry the specification names for one inserted record: the key name
with the returned key value when the plan has a key, otherwise `oid` with the
OID of the record in decimal (`0` when the table has no OIDs). -/
def result_entry (key : Option cstr) (ans : ExecAnswer) : Option cstr × Option cstr :=
  match key with
  | some k => (some k, some ans.value)
  | none => (some "oid".toList, some (Nat.repr ans.oid).toList)

/-- The key and the value of an element of a value chain. -/
def eurephiaVALUES.entry (e : eurephiaVALUES) : Option cstr × Option cstr :=
  (e.key, e.val)

/-! ## The array literal in the words of the specification -/

/-- One inner value as the specification renders it: unquoted when `isNumber`
accepts it, wrapped in single quotes otherwise. -/
def spec_array_item (lib : Libs) (v : cstr) : cstr :=
  if isNumber lib (some v) = 0 then "'".toList ++ v ++ "'".toList else v

/-- The array literal of the specification for the inner values `vs`: an
opening brace, the rendered values separated by single commas, a closing
brace. -/
def spec_array (lib : Libs) (vs : List cstr) : cstr :=
  "\x7b".toList ++ join_commas (vs.map (spec_array_item lib)) ++ "\x7d".toList

/-! ## xmlparser.c: the transformation and the values of a document -/

/-- An XML document: its root element, if it has one. -/
structure xmlDoc where
  root : Option xmlNode

/-- The parameters sent to the XSLT template (`parseParams`); a table that is
not set is `none`. -/
structure parseParams where
  table : Option cstr
  submid : Nat
  syskey : Nat
  report_filename : Option cstr
  rterid : Nat

/-- Simple strdup() function which encapsulates the string in single quotes. -/
def encapsString (str : cstr) : cstr :=
  "'".toList ++ str ++ "'".toList

/-- Converts an integer to a string and encapsulates the value in single
quotes; the unsigned value is printed with `%i`. -/
def encapsInt (val : Nat) : cstr :=
  "'".toList ++ (fmt_i (int_of_unsigned val)).toList ++ "'".toList

/-- Parses an input document into the sqldata format.  `xsltApplyStylesheet`
is the transformation of the report by the template, as a function of the
parameter list handed to it; it gives NULL (`none`) when it fails.  A
parameter that is 0 or not set is not handed over. -/
def parseToSQLdata (initialised : Bool)
    (xsltApplyStylesheet : List (cstr × cstr) → Option xmlDoc) (params : parseParams) :
    Option xmlDoc :=
  if !initialised then none
  else
    match params.table with
    | none => none
    | some table =>
      xsltApplyStylesheet
        ([("table".toList, encapsString table)]
          ++ (if params.submid > 0 then [("submid".toList, encapsInt params.submid)] else [])
          ++ (if params.syskey > 0 then [("syskey".toList, encapsInt params.syskey)] else [])
          ++ (if params.rterid > 0 then [("rterid".toList, encapsInt params.rterid)] else [])
          ++ (match params.report_filename with
              | some f => [("report_filename".toList, encapsString f)]
              | none => []))

/-- The loop of `sqldataGetFid` over the children of the fields node: the fid
of the first field with the name `fname`, -2 if that field has no fid
attribute, -1 if no field has the name.  A field without text, which hands
NULL to `strcmp`, is passed over. -/
def sqldataGetFid_loop (fname : cstr) : List xmlNode → Int
  | [] => -1
  | f_n :: rest =>
    if f_n.type ≠ xmlElementType.XML_ELEMENT_NODE ∨ f_n.name ≠ "field".toList then
      sqldataGetFid_loop fname rest
    else if xmlExtractContent (some f_n) = some fname then
      match xmlGetAttrValue f_n.properties "fid".toList with
      | none => -2
      | some fid => atoi fid
    else sqldataGetFid_loop fname rest

/-- Return the fid value of a given field in an sqldata document: a value of
at least 0 on success, -1 if the field is not found, -2 if there are problems
with the document. -/
def sqldataGetFid (initialised : Bool) (sql_n : Option xmlNode) (fname : cstr) : Int :=
  if !initialised then -2
  else
    match sql_n with
    | none => -2
    | some root =>
      if root.name ≠ "sqldata".toList then -2
      else
        match xmlFindNode (some root) "fields".toList with
        | none => -2
        | some f_n =>
          if f_n.children.isEmpty then -2 else sqldataGetFid_loop fname f_n.children

/-- The inner loop of `sqldataGetValue` over the value nodes of the record
found: the content of the first value node whose fid attribute reads as
`fid`; `none` when there is no such node. -/
def sqldataGetValue_cells (lib : Libs) (parent : cstr) (fid : Int) :
    List xmlNode → Option (Option cstr)
  | [] => none
  | v_n :: rest =>
    if v_n.type ≠ xmlElementType.XML_ELEMENT_NODE ∨ v_n.name ≠ "value".toList then
      sqldataGetValue_cells lib parent fid rest
    else
      match xmlGetAttrValue v_n.properties "fid".toList with
      | none => sqldataGetValue_cells lib parent fid rest
      | some fid_s =>
        if fid = atoi fid_s then
          some (sqldataExtractContent lib (some (pgsql_BuildArray lib)) parent v_n)
        else sqldataGetValue_cells lib parent fid rest

/-- The outer loop of `sqldataGetValue` over the record nodes; `rc` counts the
records passed. -/
def sqldataGetValue_records (lib : Libs) (fid recid : Int) : List xmlNode → Int → Option cstr
  | [], _ => none
  | r_n :: rest, rc =>
    if r_n.type ≠ xmlElementType.XML_ELEMENT_NODE ∨ r_n.name ≠ "record".toList then
      sqldataGetValue_records lib fid recid rest rc
    else if rc = recid then
      match sqldataGetValue_cells lib r_n.name fid r_n.children with
      | some v => v
      | none => sqldataGetValue_records lib fid recid rest (rc + 1)
    else sqldataGetValue_records lib fid recid rest (rc + 1)

/-- Retrieves the value of a particular field in an sqldata document, for the
record with the ID `recid` (from 0).  On errors, or if `recid` is higher than
the available records, NULL is returned. -/
def sqldataGetValue (lib : Libs) (initialised : Bool) (sqld : xmlDoc) (fname : cstr)
    (recid : Int) : Option cstr :=
  if !initialised then none
  else if recid < 0 then none
  else
    match sqld.root with
    | none => none
    | some r_n =>
      if r_n.name ≠ "sqldata".toList then none
      else
        let fid := sqldataGetFid initialised (some r_n) fname
        if fid < 0 then none
        else
          match xmlFindNode (some r_n) "records".toList with
          | none => none
          | some recs_n =>
            if recs_n.children.isEmpty then none
            else sqldataGetValue_records lib fid recid recs_n.children 0

/-- Helper function to parse an sqldata document for the systems_hostname
table.  It also returns the hostname and the IP address of the host, each of
which is NULL when the document does not give it.  NULL (`none`) when the
transformation fails. -/
def sqldataGetHostInfo (lib : Libs) (initialised : Bool)
    (xsltApplyStylesheet : List (cstr × cstr) → Option xmlDoc) (syskey : Int) :
    Option (xmlDoc × Option cstr × Option cstr) :=
  if !initialised then none
  else
    match parseToSQLdata initialised xsltApplyStylesheet
        { table := some "systems_hostname".toList, submid := 0
          syskey := (syskey % 4294967296).toNat, report_filename := none, rterid := 0 } with
    | none => none
    | some hostinfo_d =>
      some (hostinfo_d, sqldataGetValue lib initialised hostinfo_d "hostname".toList 0,
        sqldataGetValue lib initialised hostinfo_d "ipaddr".toList 0)

/-! ## The tables systems and systems_hostname at the server -/

/-- A row of the table systems, reduced to the columns `db_register_system`
asks for: the text of syskey and the sysid. -/
structure SystemsRow where
  syskey : cstr
  sysid : Option cstr
  deriving DecidableEq, Repr

/-- A row of the table systems_hostname, reduced to the columns the lookup of
`db_register_system` compares. -/
structure HostnameRow where
  hostname : Option cstr
  ipaddr : Option cstr
  deriving DecidableEq, Repr

/-- The rows of the two tables. -/
structure Database where
  systems : List SystemsRow
  systems_hostname : List HostnameRow
  deriving DecidableEq, Repr

/-- What the server does during one call of `db_register_system` that the
tables do not determine: whether it answers a SELECT with an error, the
results of preparing and of executing the two insertions, and the syskey it
gives to the n-th row inserted into systems. -/
structure RegisterEnv where
  systems_select_error : Bool
  systems_prepare_res : PGresult
  systems_exec_res : Nat → PGresult
  new_syskey : Nat → cstr
  hostname_select_error : Bool
  hostname_prepare_res : PGresult
  hostname_exec_res : Nat → PGresult

/-- The answers of the server to the insertion into systems: the value handed
back for the n-th record is the syskey of the new row, which is what
`RETURNING syskey` of the systems plan asks for. -/
def RegisterEnv.systems_insert (env : RegisterEnv) : InsertEnv :=
  { prepare_res := env.systems_prepare_res
    exec := fun n => { dbres := env.systems_exec_res n, value := env.new_syskey n, oid := 0 } }

/-- The answers of the server to the insertion into systems_hostname; nothing
of a result is read but its status. -/
def RegisterEnv.hostname_insert (env : RegisterEnv) : InsertEnv :=
  { prepare_res := env.hostname_prepare_res
    exec := fun n => { dbres := env.hostname_exec_res n, value := [], oid := 0 } }

/-- The value an INSERT with the field list `field_ar` and the arguments
`args` gives to the column `col`: the argument at the position of the first
field of that name, NULL when there is no such field. -/
def bound_column (field_ar : List (Option cstr)) (args : List (Option cstr)) (col : cstr) :
    Option cstr :=
  args.getD (field_ar.indexOf (some col)) none

/-- Has the server carried out the statement? -/
def PGresult.is_done (res : PGresult) : Bool :=
  decide (PQresultStatus res = ExecStatusType.PGRES_TUPLES_OK)
    || decide (PQresultStatus res = ExecStatusType.PGRES_COMMAND_OK)

/-- The rows the executions among `evs` add to systems; `n` counts the
executions. -/
def systems_rows (field_ar : List (Option cstr)) (new_syskey : Nat → cstr) :
    List Event → Nat → List SystemsRow
  | [], _ => []
  | Event.PQexecPrepared args res :: rest, n =>
    if res.is_done then
      { syskey := new_syskey n, sysid := bound_column field_ar args "sysid".toList }
        :: systems_rows field_ar new_syskey rest (n + 1)
    else systems_rows field_ar new_syskey rest (n + 1)
  | _ :: rest, n => systems_rows field_ar new_syskey rest n

/-- The rows the executions among `evs` add to systems_hostname. -/
def hostname_rows (field_ar : List (Option cstr)) : List Event → List HostnameRow
  | [] => []
  | Event.PQexecPrepared args res :: rest =>
    if res.is_done then
      { hostname := bound_column field_ar args "hostname".toList
        ipaddr := bound_column field_ar args "ipaddr".toList }
        :: hostname_rows field_ar rest
    else hostname_rows field_ar rest
  | _ :: rest => hostname_rows field_ar rest

/-- The names of the fields of a document in declaration order, as
`pgsql_INSERT` puts them into the statement. -/
def plan_field_ar (root_n : xmlNode) : List (Option cstr) :=
  match xmlFindNode (some root_n) "fields".toList with
  | none => []
  | some fields_n => pgsql_INSERT_field_ar fields_n

/-- The tables after the server has carried out the calls `evs` that
`pgsql_INSERT` made for the document `sqldoc`: every execution the server has
carried out adds a row to the table the document names. -/
def server_insert (db : Database) (sqldoc : Option xmlNode) (new_syskey : Nat → cstr)
    (evs : List Event) : Database :=
  match sqldoc with
  | none => db
  | some root_n =>
    match xmlGetAttrValue root_n.properties "table".toList with
    | none => db
    | some table =>
      if table = "systems".toList then
        { db with
          systems := db.systems ++ systems_rows (plan_field_ar root_n) new_syskey evs 0 }
      else if table = "systems_hostname".toList then
        { db with
          systems_hostname := db.systems_hostname ++ hostname_rows (plan_field_ar root_n) evs }
      else db

/-- What the server finds for `SELECT syskey FROM systems WHERE sysid = '..'`:
the syskey of every row with that sysid. -/
def select_systems (db : Database) (sysid : cstr) : List cstr :=
  (db.systems.filter (fun r => decide (r.sysid = some sysid))).map (fun r => r.syskey)

/-- What the server finds in systems_hostname for a hostname and an IP
address: the number of rows that have both. -/
def select_hostname (db : Database) (hostname ipaddr : cstr) : Nat :=
  (db.systems_hostname.filter
    (fun r => decide (r.hostname = some hostname) && decide (r.ipaddr = some ipaddr))).length

/-! ## pgsql.c: registering the system of a report -/

/-- The query `snprintf(sqlq, 4096, "SELECT syskey FROM systems WHERE sysid =
'%.256s'", sysid)` leaves in `sqlq`. -/
def db_register_system_sysid_sql (sysid : cstr) : cstr :=
  ("SELECT syskey FROM systems WHERE sysid = '".toList ++ sysid.take 256 ++ "'".toList).take 4095

/-- The start of the hostname lookup: what `snprintf(sqlq, 4096, "SELECT
syskey FROM systems_hostname WHERE hostname='%.256s'", hostname)` leaves in
`sqlq`.  For a NULL hostname the C library prints `(null)`. -/
def db_register_system_hostname_head (hostname : Option cstr) : cstr :=
  ("SELECT syskey FROM systems_hostname WHERE hostname='".toList
    ++ (hostname.getD "(null)".toList).take 256 ++ "'".toList).take 4095

/-- The query that checks if the hostname and IP address is registered, as
the three calls of `append_str` for an IP address, or the one call for a NULL
IP address, complete it. -/
def db_register_system_hostname_sql (hostname ipaddr : Option cstr) : cstr :=
  let sqlq := db_register_system_hostname_head hostname
  match ipaddr with
  | some ip =>
    append_str (append_str (append_str sqlq "AND ipaddr='".toList 4028) ip 4092) "'".toList 4096
  | none => append_str sqlq "%s AND ipaddr IS NULL".toList 4096

/-- The bytes of the IP address that `append_str(sqlq, ipaddr, 4092)` puts
between the quotes of the query. -/
def db_register_system_ipaddr_sent (hostname : Option cstr) (ip : cstr) : cstr :=
  ip.take (4092 - (append_str (db_register_system_hostname_head hostname)
    "AND ipaddr='".toList 4028).length)

/-- The end of both branches of `db_register_system`: the insertion of the
systems_hostname document, after which `syskey = (dbdata ? syskey : -1)`.
`none` stands for a result that is not defined. -/
def db_register_system_hostname_insert (lib : Libs) (sqlschemaver : Nat) (env : RegisterEnv)
    (db : Database) (hostinfo_d : xmlDoc) (syskey : Int) (evs : List Event) :
    Option Int × Database × List Event :=
  let ins := pgsql_INSERT lib sqlschemaver hostinfo_d.root env.hostname_insert
  let db2 := server_insert db hostinfo_d.root env.new_syskey ins.2
  match ins.1 with
  | InsertResult.undefined => (none, db2, evs ++ ins.2)
  | InsertResult.null => (some (-1), db2, evs ++ ins.2)
  | InsertResult.values _ => (some syskey, db2, evs ++ ins.2)

/-- The branch of `db_register_system` for `PQntuples(dbres) == 0`: no record
found, need to register this system. -/
def db_register_system_new (lib : Libs) (sqlschemaver : Nat)
    (xsltApplyStylesheet : List (cstr × cstr) → Option xmlDoc) (env : RegisterEnv)
    (db : Database) (sysinfo_d : xmlDoc) (evs : List Event) :
    Option Int × Database × List Event :=
  let ins := pgsql_INSERT lib sqlschemaver sysinfo_d.root env.systems_insert
  let db1 := server_insert db sysinfo_d.root env.new_syskey ins.2
  match ins.1 with
  | InsertResult.undefined => (none, db1, evs ++ ins.2)
  | InsertResult.null => (some (-1), db1, evs ++ ins.2)
  | InsertResult.values dbdata =>
    -- Only one record should be registered
    if eCount (some dbdata) ≠ 1 ∨ (dbdata.head?.bind (fun e => e.val)) = none then
      (some (-1), db1, evs ++ ins.2)
    else
      let syskey := atoi_nullsafe (dbdata.head?.bind (fun e => e.val))
      match sqldataGetHostInfo lib true xsltApplyStylesheet syskey with
      | none => (some (-1), db1, evs ++ ins.2)
      | some (hostinfo_d, _, _) =>
        db_register_system_hostname_insert lib sqlschemaver env db1 hostinfo_d syskey
          (evs ++ ins.2)

/-- The branch of `db_register_system` for `PQntuples(dbres) == 1`: system
found, check if the host IP is known or not.  `tuple` is `PQgetvalue(dbres, 0,
0)`.  The server answers the lookup with an error when `env` says so, and also
for a NULL IP address, as the text of that query is no statement. -/
def db_register_system_known (lib : Libs) (sqlschemaver : Nat)
    (xsltApplyStylesheet : List (cstr × cstr) → Option xmlDoc) (env : RegisterEnv)
    (db : Database) (tuple : cstr) (evs : List Event) : Option Int × Database × List Event :=
  let syskey := atoi_nullsafe (some tuple)
  match sqldataGetHostInfo lib true xsltApplyStylesheet syskey with
  | none => (some (-1), db, evs)
  | some (hostinfo_d, hostname, ipaddr) =>
    let sqlq := db_register_system_hostname_sql hostname ipaddr
    let dbres : PGresult :=
      if env.hostname_select_error ∨ ipaddr = none then some ExecStatusType.PGRES_FATAL_ERROR
      else some ExecStatusType.PGRES_TUPLES_OK
    let evs := evs ++ [Event.PQexec_sql sqlq dbres]
    if PQresultStatus dbres ≠ ExecStatusType.PGRES_TUPLES_OK then (some (-1), db, evs)
    else
      let ntuples := select_hostname db ((hostname.getD "(null)".toList).take 256)
        (db_register_system_ipaddr_sent hostname (ipaddr.getD []))
      if ntuples = 0 then
        -- Not registered, then register it
        db_register_system_hostname_insert lib sqlschemaver env db hostinfo_d syskey evs
      else (some syskey, db, evs)

/-- Registers information into the systems and systems_hostname tables, based
on the report.  Returns the syskey of the system of the report, the one
already registered if there is one, -1 on errors (`none` for a result that is
not defined), together with the tables afterwards and the calls made to the
server. -/
def db_register_system (lib : Libs) (sqlschemaver : Nat)
    (xsltApplyStylesheet : List (cstr × cstr) → Option xmlDoc) (env : RegisterEnv)
    (db : Database) : Option Int × Database × List Event :=
  match parseToSQLdata true xsltApplyStylesheet
      { table := some "systems".toList, submid := 0, syskey := 0, report_filename := none
        rterid := 0 } with
  | none => (some (-1), db, [])
  | some sysinfo_d =>
    match sqldataGetValue lib true sysinfo_d "sysid".toList 0 with
    | none => (some (-1), db, [])
    | some sysid =>
      let sqlq := db_register_system_sysid_sql sysid
      let dbres : PGresult :=
        if env.systems_select_error then some ExecStatusType.PGRES_FATAL_ERROR
        else some ExecStatusType.PGRES_TUPLES_OK
      let evs := [Event.PQexec_sql sqlq dbres]
      if PQresultStatus dbres ≠ ExecStatusType.PGRES_TUPLES_OK then (some (-1), db, evs)
      else
        match select_systems db (sysid.take 256) with
        | [] => db_register_system_new lib sqlschemaver xsltApplyStylesheet env db sysinfo_d evs
        | [tuple] =>
          db_register_system_known lib sqlschemaver xsltApplyStylesheet env db tuple evs
        | _ =>
          -- Critical -- system IDs should not be registered more than once
          (some (-1), db, evs)

/-! ## Documents whose first record binds a column as its fid says -/

/-- The argument list `value_ar` of `pgsql_INSERT` for one record node of a
document with the fields node `fields_n`; `none` when a value is written
outside `value_ar`. -/
def record_values (lib : Libs) (fields_n rec : xmlNode) : Option (List (Option cstr)) :=
  pgsql_INSERT_values lib (element_children fields_n).length (pgsql_INSERT_field_idx fields_n)
    rec.name rec.children 0 (List.replicate (element_children fields_n).length none)

/-- The executions `pgsql_INSERT` makes for the record nodes `recs` when the
server carries out each of them; `n` counts the records. -/
def record_events (lib : Libs) (fields_n : xmlNode) (exec : Nat → ExecAnswer) :
    List xmlNode → Nat → List Event
  | [], _ => []
  | rec :: rest, n =>
    Event.PQexecPrepared ((record_values lib fields_n rec).getD []) (exec n).dbres
      :: record_events lib fields_n exec rest (n + 1)

/-- The value `pgsql_INSERT` gives to the column `col` for the first record
of a document; `none` when the document has no fields node, no records node
or no record, or when the values of the record do not stay inside
`value_ar`. -/
def plan_bound (lib : Libs) (root_n : xmlNode) (col : cstr) : Option (Option cstr) :=
  match xmlFindNode (some root_n) "fields".toList,
      xmlFindNode (some root_n) "records".toList with
  | some fields_n, some recs_n =>
    match element_children recs_n with
    | [] => none
    | rec :: _ =>
      (record_values lib fields_n rec).map
        (fun args => bound_column (pgsql_INSERT_field_ar fields_n) args col)
  | _, _ => none

/-- What the registration of a system relies on in the systems document of a
report: the document names the table systems and a key, its sysid is at most
256 bytes long, and the insertion gives the column sysid the value that
`sqldataGetValue` reads for the field sysid, as it does when the value nodes
of a record come in the order of the fields and the fids count from 0. -/
structure systems_plan_ok (lib : Libs) (xsltApplyStylesheet : List (cstr × cstr) → Option xmlDoc)
    (sysinfo_d : xmlDoc) (root_n : xmlNode) (sysid : cstr) : Prop where
  parsed : parseToSQLdata true xsltApplyStylesheet
      { table := some "systems".toList, submid := 0, syskey := 0, report_filename := none
        rterid := 0 } = some sysinfo_d
  root : sysinfo_d.root = some root_n
  table : xmlGetAttrValue root_n.properties "table".toList = some "systems".toList
  key : (xmlGetAttrValue root_n.properties "key".toList).isSome = true
  value : sqldataGetValue lib true sysinfo_d "sysid".toList 0 = some sysid
  value_length : sysid.length ≤ 256
  bound : plan_bound lib root_n "sysid".toList = some (some sysid)

/-- What the registration of a system relies on in the systems_hostname
document of a report for the system `syskey`: the document names the table
systems_hostname, it gives a hostname of at most 256 bytes, an IP address, if
it gives one, of at most 3771 bytes, and the insertion gives the columns
hostname and ipaddr the values that `sqldataGetValue` reads for these
fields. -/
structure hostname_plan_ok (lib : Libs)
    (xsltApplyStylesheet : List (cstr × cstr) → Option xmlDoc) (syskey : Int)
    (hostinfo_d : xmlDoc) (root_n : xmlNode) (hostname : cstr) (ipaddr : Option cstr) :
    Prop where
  parsed : sqldataGetHostInfo lib true xsltApplyStylesheet syskey
      = some (hostinfo_d, some hostname, ipaddr)
  root : hostinfo_d.root = some root_n
  table : xmlGetAttrValue root_n.properties "table".toList = some "systems_hostname".toList
  hostname_length : hostname.length ≤ 256
  ipaddr_length : ∀ ip, ipaddr = some ip → ip.length ≤ 3771
  bound_hostname : plan_bound lib root_n "hostname".toList = some (some hostname)
  bound_ipaddr : plan_bound lib root_n "ipaddr".toList = some ipaddr

/-! ## pgsql.c: registering a run from the documents of the report -/

/-- What the server answers to the two insertions of `db_register_rtevalrun`. -/
structure RunInsertEnv where
  run : InsertEnv
  dets : InsertEnv

/-- The function `db_register_rtevalrun` with its two documents and their
insertions spelled out.  Registers information into the rtevalruns and
rtevalruns_details tables; returns 1 on success, otherwise -1 (`none` when an
insertion has no defined result), and the calls made to the server. -/
def db_register_rtevalrun_plans (lib : Libs) (sqlschemaver : Nat)
    (xsltApplyStylesheet : List (cstr × cstr) → Option xmlDoc) (submid : Nat)
    (syskey rterid : Int) (report_fname : cstr) (env : RunInsertEnv) :
    Option Int × List Event :=
  -- Parse the rtevalruns information
  match parseToSQLdata true xsltApplyStylesheet
      { table := some "rtevalruns".toList, submid := submid
        syskey := (syskey % 4294967296).toNat, report_filename := some report_fname
        rterid := (rterid % 4294967296).toNat } with
  | none => (some (-1), [])
  | some rtevalrun_d =>
    -- Register the rteval run information
    let ins := pgsql_INSERT lib sqlschemaver rtevalrun_d.root env.run
    match ins.1 with
    | InsertResult.undefined => (none, ins.2)
    | InsertResult.null => (some (-1), ins.2)
    | InsertResult.values dbdata =>
      if eCount (some dbdata) ≠ 1 then (some (-1), ins.2)
      else
        -- Parse the rtevalruns_details information
        match parseToSQLdata true xsltApplyStylesheet
            { table := some "rtevalruns_details".toList, submid := 0, syskey := 0
              report_filename := none, rterid := (rterid % 4294967296).toNat } with
        | none => (some (-1), ins.2)
        | some rtevalrundets_d =>
          -- Register the rteval_details information
          let ins2 := pgsql_INSERT lib sqlschemaver rtevalrundets_d.root env.dets
          match ins2.1 with
          | InsertResult.undefined => (none, ins.2 ++ ins2.2)
          | InsertResult.null => (some (-1), ins.2 ++ ins2.2)
          | InsertResult.values _ =>
            -- if( eCount(dbdata) != 1 ) { ret = -1; }  is followed by an unconditional  ret = 1;
            (some 1, ins.2 ++ ins2.2)

/-- The outcomes `RunEnv` records, read off the documents of a report and the
answers of the server: whether each document was produced, and the `eCount` of
what `pgsql_INSERT` returned for it (`none` for NULL and for a result that is
not defined). -/
def RunEnv.of_plans (lib : Libs) (sqlschemaver : Nat)
    (xsltApplyStylesheet : List (cstr × cstr) → Option xmlDoc) (submid : Nat)
    (syskey rterid : Int) (report_fname : cstr) (env : RunInsertEnv) : RunEnv :=
  let rtevalrun_d := parseToSQLdata true xsltApplyStylesheet
      { table := some "rtevalruns".toList, submid := submid
        syskey := (syskey % 4294967296).toNat, report_filename := some report_fname
        rterid := (rterid % 4294967296).toNat }
  let rtevalrundets_d := parseToSQLdata true xsltApplyStylesheet
      { table := some "rtevalruns_details".toList, submid := 0, syskey := 0
        report_filename := none, rterid := (rterid % 4294967296).toNat }
  { rtevalrun_d := rtevalrun_d.isSome
    ins_run :=
      match rtevalrun_d with
      | none => none
      | some d =>
        match (pgsql_INSERT lib sqlschemaver d.root env.run).1 with
        | InsertResult.values dbdata => some (eCount (some dbdata))
        | _ => none
    rtevalrundets_d := rtevalrundets_d.isSome
    ins_dets :=
      match rtevalrundets_d with
      | none => none
      | some d =>
        match (pgsql_INSERT lib sqlschemaver d.root env.dets).1 with
        | InsertResult.values dbdata => some (eCount (some dbdata))
        | _ => none }

/-! ## The insertions of the measurement tables in the words of the specification -/

/-- The insertions the specification names for the measurement tables, given
in order with their outcomes: every table whose plan is non-empty is inserted,
up to and including the first one whose insertion fails. -/
def spec_cyclic_inserts : List (String × CyclicTableEnv) → List Event
  | [] => []
  | (table, e) :: rest =>
    if e.plan_nonempty then
      if e.ins.isNone then [Event.pgsql_INSERT table]
      else Event.pgsql_INSERT table :: spec_cyclic_inserts rest
    else spec_cyclic_inserts rest

/-! ## pgsql.c: waiting for a notification -/

/-- What the outside world answers during one round of the waiting loop of
`db_wait_notification`. -/
structure WaitEnv where
  /-- Return value of `PQsocket`. -/
  sock : Int
  /-- Return value of `select`. -/
  select_rc : Int
  /-- Value of the shutdown flag read when `select` has failed. -/
  shutdown : Int
  /-- Whether `PQstatus` is `CONNECTION_OK` after `PQconsumeInput`. -/
  status_ok : Bool
  /-- Whether `PQstatus` is `CONNECTION_OK` after `PQreset`. -/
  reset_ok : Bool
  /-- Whether `PQnotifies` returns a notification. -/
  notify : Bool
  deriving DecidableEq, Repr

/-- How the waiting loop of `db_wait_notification` ends. -/
inductive WaitEnd
  /-- The loop is left, by `break` or by its condition, with `ret`; control
  reaches the code after the loop. -/
  | left (ret : Int)
  /-- Jump `goto exit` with `ret`. -/
  | goto_exit (ret : Int)
  deriving DecidableEq, Repr

/-- The loop `while( ret == 0 )` of `db_wait_notification`.  One element of
the list is consumed per round; `none` when the list ends before the loop
does. -/
def db_wait_notification_loop : List WaitEnv → Option WaitEnd
  | [] => none
  | w :: rest =>
    if w.sock < 0 then
      -- shouldn't happen
      some (WaitEnd.left (-1))
    else if w.select_rc < 0 then
      if w.shutdown = 0 then some (WaitEnd.goto_exit (-1)) else some (WaitEnd.left 1)
    else if !w.status_ok && !w.reset_ok then some (WaitEnd.goto_exit (-1))
    else if w.notify then some (WaitEnd.left 1)
    else db_wait_notification_loop rest

/-- This function blocks until a notification is received from the database.
Returns 1 on successful waiting, otherwise -1, and the statements sent to the
server; `none` while it still waits at the end of `rounds`.  `listen_res` and
`unlisten_res` are what the server answers to LISTEN and to UNLISTEN. -/
def db_wait_notification (listenfor : cstr) (listen_res : PGresult) (rounds : List WaitEnv)
    (unlisten_res : PGresult) : Option (Int × List Event) :=
  -- Initiate listening
  if PQresultStatus listen_res ≠ ExecStatusType.PGRES_COMMAND_OK then
    some (-1, [Event.PQexec_sql ("LISTEN ".toList ++ listenfor) listen_res])
  else
    match db_wait_notification_loop rounds with
    | none => none
    | some (WaitEnd.goto_exit ret) =>
      some (ret, [Event.PQexec_sql ("LISTEN ".toList ++ listenfor) listen_res])
    | some (WaitEnd.left ret) =>
      -- Stop listening when we exit
      if PQresultStatus unlisten_res ≠ ExecStatusType.PGRES_COMMAND_OK then
        some (-1, [Event.PQexec_sql ("LISTEN ".toList ++ listenfor) listen_res,
          Event.PQexec_sql ("UNLISTEN ".toList ++ listenfor) unlisten_res])
      else
        some (ret, [Event.PQexec_sql ("LISTEN ".toList ++ listenfor) listen_res,
          Event.PQexec_sql ("UNLISTEN ".toList ++ listenfor) unlisten_res])

/-! ## rteval-parserd.c: the shutdown messages of the dispatcher -/

/-- What happens at one call of `mq_send` in `process_submission_queue` and in
the pause that follows a full queue. -/
structure SendEnv where
  /-- Return value of `mq_send`; the queue has taken the message when it is not
  negative. -/
  res : Int
  /-- Value of `errno` after `mq_send`; `E0` is the 0 stored before the call. -/
  errno : Errno
  /-- Whether the `sleep` after a full queue is cut short by a signal handler;
  `sleep` then returns with `EINTR` in `errno`, otherwise `errno` is as before. -/
  sleep_interrupted : Bool
  deriving DecidableEq, Repr

/-- How the sending of one shutdown message ends. -/
inductive SendEnd
  /-- The `do .. while` loop is left: `errno` is not `EAGAIN` when the
  condition reads it. -/
  | done
  /-- A send has failed with another error than `EAGAIN`: the function returns. -/
  | failed
  deriving DecidableEq, Repr

/-- The loop `do .. while( (errno == EAGAIN) )` that sends one shutdown
message at `exit:` of `process_submission_queue`.  `q` collects the messages
the queue has taken.  One element of the list is consumed per call of
`mq_send`; the result holds the elements left over, and is `none` when the
list ends before the loop does. -/
def process_submission_queue_send (job : parseJob_t) :
    List SendEnv → List parseJob_t → Option (SendEnd × List SendEnv × List parseJob_t)
  | [], _ => none
  | s :: rest, q =>
    let q := if s.res < 0 then q else q ++ [job]
    if s.res < 0 ∧ s.errno ≠ Errno.EAGAIN then some (SendEnd.failed, rest, q)
    else if s.errno = Errno.EAGAIN then
      -- writelog(..); sleep(10); and then the condition reads errno
      if s.sleep_interrupted then some (SendEnd.done, rest, q)
      else process_submission_queue_send job rest q
    else some (SendEnd.done, rest, q)

/-- The loop `for( i = 0; i < actthr_cp; i++ )` at `exit:` of
`process_submission_queue`; `n` is the number of rounds still to go. -/
def process_submission_queue_exit_loop (job : parseJob_t) :
    Nat → List SendEnv → List parseJob_t → Option (List parseJob_t)
  | 0, _, q => some q
  | n + 1, sends, q =>
    match process_submission_queue_send job sends q with
    | none => none
    | some (SendEnd.failed, _, q) => some q
    | some (SendEnd.done, rest, q) => process_submission_queue_exit_loop job n rest q

/-- The code at `exit:` of `process_submission_queue`: send empty messages to
the threads, to make them have a look at the shutdown flag.  `rc` is the
return value set before, `activethreads` the value of `*activethreads` copied
to `actthr_cp`.  The message is a zeroed `parseJob_t`.  Returns `rc` and the
messages the queue has taken; `none` when `sends` ends before the loop
does. -/
def process_submission_queue_exit (rc : Int) (activethreads : Int) (sends : List SendEnv) :
    Option (Int × List parseJob_t) :=
  (process_submission_queue_exit_loop empty_job activethreads.toNat sends []).map
    (fun q => (rc, q))

/-- A call of `mq_send` that puts the message into the queue and leaves
`errno` alone. -/
def SendEnv.accepted (s : SendEnv) : Bool :=
  decide (0 ≤ s.res) && decide (s.errno ≠ Errno.EAGAIN)

/-- A call of `mq_send` that reports a full queue, followed by a pause that
runs its whole time. -/
def SendEnv.full_queue (s : SendEnv) : Bool :=
  decide (s.res < 0) && decide (s.errno = Errno.EAGAIN) && !s.sleep_interrupted

/-! ## eurephia_values.c: lookup and update -/

/-- Retrieve an eurephiaVALUES element for a given value key: the first
element of the chain with that key, NULL if there is none or if the chain or
the key is NULL. -/
def eGet_valuestruct (vls : Option (List eurephiaVALUES)) (key : Option cstr) :
    Option eurephiaVALUES :=
  match vls, key with
  | some l, some k => l.find? (fun e => decide (e.key = some k))
  | _, _ => none

/-- Retrieves the value of a given key from an eurephiaVALUES stack. -/
def eGet_value (vls : Option (List eurephiaVALUES)) (key : Option cstr) : Option cstr :=
  match eGet_valuestruct vls key with
  | none => none
  | some ptr => ptr.val

/-- The chain with the value of its first element of key `key` set to `newval`. -/
def eUpdate_value_set (key : cstr) (newval : Option cstr) :
    List eurephiaVALUES → List eurephiaVALUES
  | [] => []
  | e :: rest =>
    if e.key = some key then { e with val := newval } :: rest
    else e :: eUpdate_value_set key newval rest

/-- Updates the value of a key in a values stack.  If `addunkn` is 1, a key
that is not found is added as a new key. -/
def eUpdate_value (vls : List eurephiaVALUES) (key : cstr) (newval : Option cstr)
    (addunkn : Int) : List eurephiaVALUES :=
  match eGet_valuestruct (some vls) (some key) with
  | some _ => eUpdate_value_set key newval vls
  | none => if addunkn = 1 then eAdd_value vls (some key) newval else vls

/-- The loop of `eUpdate_valuestruct`: the chain with its first element of the
key of `newval` replaced by `newval`, which takes over the IDs of that
element; `none` when no element has the key. -/
def eUpdate_valuestruct_loop (newval : eurephiaVALUES) :
    List eurephiaVALUES → Option (List eurephiaVALUES)
  | [] => none
  | ptr :: rest =>
    if ptr.key ≠ none ∧ newval.key = ptr.key then
      some ({ newval with evgid := ptr.evgid, evid := ptr.evid } :: rest)
    else
      match eUpdate_valuestruct_loop newval rest with
      | none => none
      | some l => some (ptr :: l)

/-- Updates a value struct element based on another value struct element
(key/value).  If `addunkn` is 1, a key that is not found is added.  Returns the
chain, whose first element is a new one when the first element was the one
updated. -/
def eUpdate_valuestruct (vls : List eurephiaVALUES) (newval : eurephiaVALUES)
    (addunkn : Int) : List eurephiaVALUES :=
  match eUpdate_valuestruct_loop newval vls with
  | some l => l
  | none => if addunkn = 1 then eAdd_valuestruct vls newval else vls

/-! ## configparser.c -/

/-- The characters the trimming of `parse_config_line` removes: 0x20, 0x0A and
0x0D. -/
def is_config_space (c : Char) : Bool :=
  decide (c.toNat = 32) || decide (c.toNat = 10) || decide (c.toNat = 13)

/-- Left trim and right trim of `parse_config_line`.  The right trim walks
back from the last byte while it sees a space and has not reached the first
byte, which after the left trim is no space. -/
def config_trim (s : cstr) : cstr :=
  (((s.dropWhile is_config_space).reverse).dropWhile is_config_space).reverse

/-- Parse one single configuration line into a key/value pair.  Comment lines
are ignored, and a comment at the end of the line is removed.  NULL (`none`)
if no valid config line was found. -/
def parse_config_line (line : cstr) : Option eurephiaVALUES :=
  if line.head? = some '#' then none
  else if !(line.any (fun c => decide (c = '=') || decide (c = ':'))) then none
  else
    -- strpbrk(cp, "=:"): the text before the first separator and the text after it
    let key := line.takeWhile (fun c => !(decide (c = '=') || decide (c = ':')))
    let val := (line.dropWhile (fun c => !(decide (c = '=') || decide (c = ':')))).drop 1
    -- Discard comments at the end of a line
    let val := val.takeWhile (fun c => decide (c ≠ '#'))
    some { evgid := 20, evid := 0, key := some (config_trim key), val := some (config_trim val) }

/-- The loop of `default_cfg_values` that copies the arguments over to the
config and updates existing settings; `none` when an element has no key, which
`eUpdate_value` asserts. -/
def default_cfg_values_copy : List eurephiaVALUES → List eurephiaVALUES →
    Option (List eurephiaVALUES)
  | [], cfg => some cfg
  | ptr :: rest, cfg =>
    match ptr.key with
    | none => none
    | some key => default_cfg_values_copy rest (eUpdate_value cfg key ptr.val 1)

/-- The built-in settings, with the command line arguments copied over them. -/
def default_cfg_values (prgargs : Option (List eurephiaVALUES)) :
    Option (List eurephiaVALUES) :=
  let cfg := eCreate_value_space 20
  let cfg := eAdd_value cfg (some "datadir".toList) (some "/var/lib/rteval".toList)
  let cfg := eAdd_value cfg (some "xsltpath".toList) (some "/usr/share/rteval".toList)
  let cfg := eAdd_value cfg (some "db_server".toList) (some "localhost".toList)
  let cfg := eAdd_value cfg (some "db_port".toList) (some "5432".toList)
  let cfg := eAdd_value cfg (some "database".toList) (some "rteval".toList)
  let cfg := eAdd_value cfg (some "db_username".toList) (some "rtevparser".toList)
  let cfg := eAdd_value cfg (some "db_password".toList) (some "rtevaldb_parser".toList)
  let cfg := eAdd_value cfg (some "reportdir".toList) (some "/var/lib/rteval/reports".toList)
  let cfg := eAdd_value cfg (some "max_report_size".toList) (some "2097152".toList)
  default_cfg_values_copy (prgargs.getD []) cfg

/-- What the file system answers to `read_config`: whether `stat` and `fopen`
succeed on the config file, and the strings the calls of `fgets` give, one per
call, until it gives NULL. -/
structure ConfigFileEnv where
  stat_ok : Bool
  fopen_ok : Bool
  lines : List cstr

/-- The loop of `read_config` over the lines of the file.  `sectfound` tells
whether the lines belong to the section asked for. -/
def read_config_loop (sectmatch : cstr) :
    List cstr → Bool → List eurephiaVALUES → List eurephiaVALUES
  | [], _, cfg => cfg
  | buf :: rest, sectfound, cfg =>
    if buf.head? = some '[' then
      read_config_loop sectmatch rest
        (!sectfound && decide (buf.take sectmatch.length = sectmatch)) cfg
    else if sectfound then
      match parse_config_line buf with
      | some prm => read_config_loop sectmatch rest sectfound (eUpdate_valuestruct cfg prm 1)
      | none => read_config_loop sectmatch rest sectfound cfg
    else read_config_loop sectmatch rest sectfound cfg

/-- Parses the section `sect` of a config file and puts it into an
eurephiaVALUES key/value stack, which starts from the built-in settings and
the command line arguments.  NULL (`none`) when the config file cannot be
opened. -/
def read_config (prgargs : Option (List eurephiaVALUES)) (sect : cstr)
    (env : ConfigFileEnv) : Option (List eurephiaVALUES) :=
  if !env.stat_ok then none
  else if !env.fopen_ok then none
  else
    match default_cfg_values prgargs with
    | none => none
    | some cfg =>
      some (read_config_loop ("[".toList ++ sect ++ "]".toList) env.lines false cfg)

/-! ## The value the file gives to a key, in the words of the specification -/

/-- The value the lines of a config file give to `key` in the section with
the header `sectmatch`: the value of the last line of the section that sets
the key, `none` when no line of the section sets it.  `sectfound` tells
whether the first line belongs to the section. -/
def spec_file_value (sectmatch key : cstr) : List cstr → Bool → Option (Option cstr)
  | [], _ => none
  | buf :: rest, sectfound =>
    if buf.head? = some '[' then
      spec_file_value sectmatch key rest
        (!sectfound && decide (buf.take sectmatch.length = sectmatch))
    else
      match spec_file_value sectmatch key rest sectfound with
      | some v => some v
      | none =>
        if sectfound then
          match parse_config_line buf with
          | some prm => if prm.key = some key then some prm.val else none
          | none => none
        else none

/-- The value the command line arguments give to `key`: the value of the last
element of the chain with that key, `none` when no element has it. -/
def spec_args_value (key : cstr) : List eurephiaVALUES → Option (Option cstr)
  | [] => none
  | e :: rest =>
    match spec_args_value key rest with
    | some v => some v
    | none => if e.key = some key then some e.val else none

/-! ## Who holds the system-registration mutex -/

/-- Is the call a `pthread_mutex_lock` or `pthread_mutex_unlock` of
`mtx_sysreg`? -/
def Event.is_sysreg_mutex : Event → Bool
  | Event.mutex_lock_sysreg => true
  | Event.mutex_unlock_sysreg => true
  | _ => false

/-- The state of `mtx_sysreg` after one call of the worker: locking makes the
worker hold it, unlocking releases it, any other call leaves it as it is. -/
def mtx_sysreg_step (held : Bool) : Event → Bool
  | Event.mutex_lock_sysreg => true
  | Event.mutex_unlock_sysreg => false
  | _ => held

/-- Does the worker hold `mtx_sysreg` after the calls `evs`, starting without
it? -/
def mtx_sysreg_held (evs : List Event) : Bool :=
  evs.foldl mtx_sysreg_step false

/-! ## Sample inputs -/

/-- Thread settings with the default configuration values. -/
def sample_thrdata : threadData_t :=
  { id := 0, destdir := "/var/lib/rteval/reports".toList, max_report_size := 2097152 }

/-- A claimed job for submission 1 of client h1. -/
def sample_job : parseJob_t :=
  { status := jobStatus.jbAVAIL, submid := 1, clientid := "h1".toList,
    filename := "/tmp/r.xml".toList }

/-- An environment in which every step of the transaction succeeds. -/
def sample_env : ParseEnv :=
  { st := some 1000
    repxml := true
    syskey := 5
    nextval := { dbres := some ExecStatusType.PGRES_TUPLES_OK, ntuples := 1, value := 17 }
    begin_res := some ExecStatusType.PGRES_COMMAND_OK
    run := { rtevalrun_d := true, ins_run := some 1, rtevalrundets_d := true, ins_dets := some 1 }
    cyclic := ({ plan_nonempty := true, ins := some 4 }, { plan_nonempty := true, ins := some 40 },
      { plan_nonempty := false, ins := none })
    dirs := [DirProbe.present, DirProbe.present, DirProbe.present, DirProbe.present,
      DirProbe.absent_mkdir_ok]
    rename_rc := 0
    rollback_res := some ExecStatusType.PGRES_COMMAND_OK
    commit_res := some ExecStatusType.PGRES_COMMAND_OK }

/-- As `sample_env`, but the insert into rtevalruns fails. -/
def sample_env_run_fails : ParseEnv :=
  { sample_env with
    run := { rtevalrun_d := true, ins_run := none, rtevalrundets_d := true, ins_dets := some 1 } }

/-- As `sample_env`, but the insert into cyclic_histogram fails. -/
def sample_env_cyclic_fails : ParseEnv :=
  { sample_env with
    cyclic := ({ plan_nonempty := true, ins := some 4 }, { plan_nonempty := true, ins := none },
      { plan_nonempty := false, ins := none }) }

/-- As `sample_env`, but the client directory cannot be created. -/
def sample_env_mkdir_fails : ParseEnv :=
  { sample_env with
    dirs := [DirProbe.present, DirProbe.present, DirProbe.present, DirProbe.present,
      DirProbe.absent_mkdir_fails] }

/-- As `sample_env`, but `rename` fails. -/
def sample_env_rename_fails : ParseEnv :=
  { sample_env with rename_rc := -1 }

/-- As `sample_env`, but the server answers COMMIT with an error. -/
def sample_env_commit_fails : ParseEnv :=
  { sample_env with commit_res := some ExecStatusType.PGRES_FATAL_ERROR }

/-- As `sample_env`, but the run-id sequence hands out the value 0. -/
def sample_env_rterid_zero : ParseEnv :=
  { sample_env with
    nextval := { dbres := some ExecStatusType.PGRES_TUPLES_OK, ntuples := 1, value := 0 } }

/-- A report file of 2097152 bytes, the default `max_report_size`. -/
def sample_env_size_at_limit : ParseEnv :=
  { sample_env with st := some 2097152 }

/-- A report file one byte larger than the default `max_report_size`. -/
def sample_env_too_big : ParseEnv :=
  { sample_env with st := some 2097153 }

/-- The answers for an empty file name: `stat` fails and so does the parser. -/
def sample_env_no_file : ParseEnv :=
  { sample_env with st := none, repxml := false }

/-- An iteration of the polling loop that receives `sample_job` (a message of
`sizeof(parseJob_t)` = 4360 bytes) with the shutdown flag not set. -/
def sample_iter : IterEnv :=
  { shutdown_top := 0
    ping_status_ok := true
    ping_reset_ok := true
    len := 4360
    errno := Errno.E0
    jobinfo := sample_job
    shutdown_recv := 0
    inprog_res := some ExecStatusType.PGRES_COMMAND_OK
    parse := sample_env
    final_res := some ExecStatusType.PGRES_COMMAND_OK }

/-- As `sample_iter`, but the server answers the in-progress UPDATE with an error. -/
def sample_iter_inprog_fails : IterEnv :=
  { sample_iter with inprog_res := some ExecStatusType.PGRES_FATAL_ERROR }

/-- As `sample_iter`, but the message is an empty descriptor (status
`jbNONE`, all fields zero), as the dispatcher sends them at shutdown. -/
def sample_iter_empty_job : IterEnv :=
  { sample_iter with jobinfo := empty_job, parse := sample_env_no_file }

/-- As `sample_iter_empty_job`, but the shutdown flag is set when `mq_receive` returns. -/
def sample_iter_empty_job_shutdown : IterEnv :=
  { sample_iter_empty_job with shutdown_recv := 1 }

/-- An iteration in which `mq_receive` returns without a message (EAGAIN). -/
def sample_iter_no_message : IterEnv :=
  { sample_iter with len := -1, errno := Errno.EAGAIN, jobinfo := empty_job }

/-- An iteration in which `mq_receive` fails with EBADF. -/
def sample_iter_mq_error : IterEnv :=
  { sample_iter with len := -1, errno := Errno.EBADF, jobinfo := empty_job }

/-- An iteration in which the shutdown flag is found set by the `while` condition. -/
def sample_iter_shutdown : IterEnv :=
  { sample_iter with shutdown_top := 1 }

/-- As `sample_iter`, but the connection is lost and cannot be reset. -/
def sample_iter_ping_fails : IterEnv :=
  { sample_iter with ping_status_ok := false, ping_reset_ok := false }

/-- A queue table: submission 3 already parsed, submissions 9 and 7 new. -/
def sample_queue : List QueueRow :=
  [ { submid := 3, filename := "/tmp/a.xml".toList, clientid := "h0".toList, status := 3,
      parsestart := some 10, parseend := some 11 },
    { submid := 9, filename := "/tmp/c.xml".toList, clientid := "h2".toList, status := 0,
      parsestart := none, parseend := none },
    { submid := 7, filename := "/tmp/r.xml".toList, clientid := "h1".toList, status := 0,
      parsestart := none, parseend := none } ]

/-- A queue table without a new submission. -/
def sample_queue_done : List QueueRow :=
  [ { submid := 3, filename := "/tmp/a.xml".toList, clientid := "h0".toList, status := 3,
      parsestart := some 10, parseend := some 11 } ]

/-- A queue table whose only new row has a client id of 300 bytes. -/
def sample_queue_long_clientid : List QueueRow :=
  [ { submid := 7, filename := "/tmp/r.xml".toList, clientid := List.replicate 300 'a',
      status := 0, parsestart := none, parseend := none } ]

/-- The descriptor claimed from `sample_queue`. -/
def sample_claimed_job : parseJob_t :=
  { status := jobStatus.jbAVAIL, submid := 7, clientid := "h1".toList,
    filename := "/tmp/r.xml".toList }

/-- An iteration of the polling loop that receives `sample_claimed_job`. -/
def sample_iter_claimed : IterEnv :=
  { sample_iter with jobinfo := sample_claimed_job }

/-- Stand-ins for the libraries on the sample documents: the serialiser
prints an element without content as an empty tag, no sample value asks for a
hash, and `strtod` parses a run of decimal digits. -/
def sample_libs : Libs :=
  { xmlNodeToString := fun n => some ("<".toList ++ n.name ++ "/>".toList)
    sha1_hex := fun _ => List.replicate 40 '0'
    strtod_rest := fun s => s.dropWhile Char.isDigit }

/-- A server that accepts every statement and returns 17, 18, .. as key values. -/
def sample_insert_env : InsertEnv :=
  { prepare_res := some ExecStatusType.PGRES_COMMAND_OK
    exec := fun n =>
      { dbres := some ExecStatusType.PGRES_TUPLES_OK, value := (toString (17 + n)).toList,
        oid := 0 } }

/-- A field declaration of an sqldata document. -/
def sample_field (fid name : String) : xmlNode :=
  xml_element "field" [("fid", fid)] [xml_text name]

/-- A scalar value cell of an sqldata record. -/
def sample_value (fid content : String) : xmlNode :=
  xml_element "value" [("fid", fid)] [xml_text content]

/-- The fields section declaring a (fid 0) and b (fid 1). -/
def sample_fields : xmlNode :=
  xml_element "fields" [] [sample_field "0" "a", sample_field "1" "b"]

/-- An sqldata document for table t with key k, fields a (fid 0) and b (fid 1)
and the given records. -/
def sample_plan (records : List xmlNode) : xmlNode :=
  xml_element "sqldata" [("table", "t"), ("key", "k")]
    [sample_fields, xml_element "records" [] records]

/-- A fields section that declares the field f `n` times. -/
def sample_fields_wide (n : Nat) : xmlNode :=
  xml_element "fields" [] (List.replicate n (sample_field "0" "f"))

/-- An sqldata document for table t, without key, that declares the field f
`n` times and has no record. -/
def sample_plan_wide (n : Nat) : xmlNode :=
  xml_element "sqldata" [("table", "t")] [sample_fields_wide n, xml_element "records" [] []]

/-- A record whose cells come in declaration order. -/
def sample_record_ordered : xmlNode :=
  xml_element "record" [] [sample_value "0" "A", sample_value "1" "B"]

/-- The same record with its two cells swapped. -/
def sample_record_swapped : xmlNode :=
  xml_element "record" [] [sample_value "1" "B", sample_value "0" "A"]

/-- An sqldata document whose fields carry the fids 1 and 2. -/
def sample_plan_fids_from_one : xmlNode :=
  xml_element "sqldata" [("table", "t"), ("key", "k")]
    [xml_element "fields" [] [sample_field "1" "a", sample_field "2" "b"],
     xml_element "records" []
       [xml_element "record" [] [sample_value "1" "A", sample_value "2" "B"]]]

/-- An sqldata document that requires schema version 1.2. -/
def sample_plan_v102 : xmlNode :=
  xml_element "sqldata" [("table", "t"), ("schemaver", "1.2")]
    [sample_fields, xml_element "records" [] [sample_record_ordered]]

/-- A server that accepts the statement and the first record and rejects the
second. -/
def sample_insert_env_second_fails : InsertEnv :=
  { prepare_res := some ExecStatusType.PGRES_COMMAND_OK
    exec := fun n =>
      { dbres := if n = 1 then some ExecStatusType.PGRES_FATAL_ERROR
                 else some ExecStatusType.PGRES_TUPLES_OK
        value := (toString (17 + n)).toList, oid := 0 } }

/-- A value cell marked as NULL whose type is xmlblob. -/
def sample_cell_null_xmlblob : xmlNode :=
  xml_element "value" [("fid", "0"), ("type", "xmlblob"), ("isnull", "1")]
    [xml_element "a" [] []]

/-- A value cell marked as NULL whose type is array. -/
def sample_cell_null_array : xmlNode :=
  xml_element "value" [("fid", "0"), ("type", "array"), ("isnull", "1")]
    [xml_element "value" [] [xml_text "12"]]

/-- A scalar value cell marked as NULL. -/
def sample_cell_null_scalar : xmlNode :=
  xml_element "value" [("fid", "0"), ("isnull", "1")] [xml_text "payload"]

/-- An array cell with the inner values 12 and ab. -/
def sample_cell_array : xmlNode :=
  xml_element "value" [("fid", "0"), ("type", "array")]
    [xml_element "value" [] [xml_text "12"], xml_element "value" [] [xml_text "ab"]]

/-- An array cell without inner values. -/
def sample_cell_array_empty : xmlNode :=
  xml_element "value" [("fid", "0"), ("type", "array")] []

/-- The value of a parameter in a parameter list, without its quotes; empty
when the parameter is not in the list. -/
def sample_param (params : List (cstr × cstr)) (name : String) : cstr :=
  match params.find? (fun p => decide (p.1 = name.toList)) with
  | none => []
  | some p => (p.2.drop 1).dropLast

/-- The systems document of the sample report. -/
def sample_systems_plan : xmlNode :=
  xml_element "sqldata" [("table", "systems"), ("key", "syskey")]
    [xml_element "fields" [] [sample_field "0" "sysid", sample_field "1" "dmidata"],
     xml_element "records" []
       [xml_element "record" [] [sample_value "0" "5e1f", sample_value "1" "dmi"]]]

/-- The systems_hostname document of a report from the host `hostname` with
the IP address `ipaddr`, for the system `syskey`; for no address the cell is
marked as NULL. -/
def sample_hostname_plan (syskey hostname : cstr) (ipaddr : Option String) : xmlNode :=
  xml_element "sqldata" [("table", "systems_hostname")]
    [xml_element "fields" []
      [sample_field "0" "syskey", sample_field "1" "hostname", sample_field "2" "ipaddr"],
     xml_element "records" []
       [xml_element "record" []
         [sample_value "0" (String.mk syskey), sample_value "1" (String.mk hostname),
          match ipaddr with
          | some ip => sample_value "2" ip
          | none => xml_element "value" [("fid", "2"), ("isnull", "1")] []]]]

/-- A transformation of a report from the host `hostname` with the IP address
`ipaddr` by the template: the document for the table asked for. -/
def sample_report (hostname : cstr) (ipaddr : Option String) (params : List (cstr × cstr)) :
    Option xmlDoc :=
  if sample_param params "table" = "systems".toList then some { root := some sample_systems_plan }
  else if sample_param params "table" = "systems_hostname".toList then
    some { root := some (sample_hostname_plan (sample_param params "syskey") hostname ipaddr) }
  else none

/-- A server that carries out every statement and gives the syskey `syskey`
to a new row of systems. -/
def sample_register_env (syskey : String) : RegisterEnv :=
  { systems_select_error := false
    systems_prepare_res := some ExecStatusType.PGRES_COMMAND_OK
    systems_exec_res := fun _ => some ExecStatusType.PGRES_TUPLES_OK
    new_syskey := fun _ => syskey.toList
    hostname_select_error := false
    hostname_prepare_res := some ExecStatusType.PGRES_COMMAND_OK
    hostname_exec_res := fun _ => some ExecStatusType.PGRES_COMMAND_OK }

/-- The server without rows in systems and systems_hostname. -/
def sample_database : Database :=
  { systems := [], systems_hostname := [] }

/-- The tables after the report from `host1` with the address 10.0.0.1 has
been registered as system 7. -/
def sample_database_registered : Database :=
  { systems := [{ syskey := "7".toList, sysid := some "5e1f".toList }]
    systems_hostname :=
      [{ hostname := some "host1".toList, ipaddr := some "10.0.0.1".toList }] }

/-- A hostname of 257 bytes. -/
def sample_long_hostname : cstr := List.replicate 257 'h'

/-- The tables after the report from the host with the long name and the
address 10.0.0.1 has been registered as system 7. -/
def sample_database_long : Database :=
  { systems := [{ syskey := "7".toList, sysid := some "5e1f".toList }]
    systems_hostname :=
      [{ hostname := some sample_long_hostname, ipaddr := some "10.0.0.1".toList }] }

/-- An rtevalruns document of a report, with the given record nodes. -/
def sample_rtevalruns_plan (records : List xmlNode) : xmlNode :=
  xml_element "sqldata" [("table", "rtevalruns")]
    [xml_element "fields" [] [sample_field "0" "rterid", sample_field "1" "submid"],
     xml_element "records" [] records]

/-- An rtevalruns_details document of a report, with the given record nodes. -/
def sample_rtevalruns_details_plan (records : List xmlNode) : xmlNode :=
  xml_element "sqldata" [("table", "rtevalruns_details")]
    [xml_element "fields" [] [sample_field "0" "rterid", sample_field "1" "xmldata"],
     xml_element "records" [] records]

/-- A record with the two values 17 and x. -/
def sample_run_record : xmlNode :=
  xml_element "record" [] [sample_value "0" "17", sample_value "1" "x"]

/-- A transformation of a report that gives an rtevalruns document with the
records `runs` and an rtevalruns_details document with the records `dets`. -/
def sample_run_report (runs dets : List xmlNode) (params : List (cstr × cstr)) :
    Option xmlDoc :=
  if sample_param params "table" = "rtevalruns".toList then
    some { root := some (sample_rtevalruns_plan runs) }
  else if sample_param params "table" = "rtevalruns_details".toList then
    some { root := some (sample_rtevalruns_details_plan dets) }
  else none

/-- A server that carries out both insertions of `db_register_rtevalrun`. -/
def sample_run_insert_env : RunInsertEnv :=
  { run :=
      { prepare_res := some ExecStatusType.PGRES_COMMAND_OK
        exec := fun _ => { dbres := some ExecStatusType.PGRES_COMMAND_OK, value := [], oid := 0 } }
    dets :=
      { prepare_res := some ExecStatusType.PGRES_COMMAND_OK
        exec := fun _ => { dbres := some ExecStatusType.PGRES_COMMAND_OK, value := [], oid := 0 } } }

/-- The run-id sequence answers -3. -/
def sample_env_rterid_negative : ParseEnv :=
  { sample_env with
    nextval := { dbres := some ExecStatusType.PGRES_TUPLES_OK, ntuples := 1, value := -3 } }

/-- The registration of the system fails. -/
def sample_env_sysreg_fails : ParseEnv :=
  { sample_env with syskey := -1 }

/-- The query for the run id is refused by the server. -/
def sample_env_nextval_fails : ParseEnv :=
  { sample_env with
    nextval := { dbres := some ExecStatusType.PGRES_FATAL_ERROR, ntuples := 0, value := 0 } }

/-- A round of waiting in which nothing arrives. -/
def sample_wait_quiet : WaitEnv :=
  { sock := 5, select_rc := 1, shutdown := 0, status_ok := true, reset_ok := true
    notify := false }

/-- A round of waiting in which a notification arrives. -/
def sample_wait_notified : WaitEnv :=
  { sample_wait_quiet with notify := true }

/-- A round in which `select` is interrupted while the shutdown flag is set. -/
def sample_wait_shutdown : WaitEnv :=
  { sample_wait_quiet with select_rc := -1, shutdown := 1 }

/-- A round in which `select` fails while the shutdown flag is not set. -/
def sample_wait_select_fails : WaitEnv :=
  { sample_wait_quiet with select_rc := -1, shutdown := 0 }

/-- A round in which the connection is lost and the reset does not restore it. -/
def sample_wait_connection_lost : WaitEnv :=
  { sample_wait_quiet with status_ok := false, reset_ok := false }

/-- A round in which `PQsocket` gives no valid socket. -/
def sample_wait_no_socket : WaitEnv :=
  { sample_wait_quiet with sock := -1 }

/-- A call of `mq_send` that the queue accepts. -/
def sample_send_accepted : SendEnv :=
  { res := 0, errno := Errno.E0, sleep_interrupted := false }

/-- A call of `mq_send` on a full queue, followed by the whole pause. -/
def sample_send_full : SendEnv :=
  { res := -1, errno := Errno.EAGAIN, sleep_interrupted := false }

/-- A call of `mq_send` on a full queue, followed by a pause that a signal
cuts short. -/
def sample_send_full_interrupted : SendEnv :=
  { res := -1, errno := Errno.EAGAIN, sleep_interrupted := true }

/-- The arguments as `parse_arguments` stores them for the command line
`-t 8`: the defaults daemon, configfile and threads, threads updated to 8, and
the log destination added for a process that is no daemon. -/
def sample_prgargs : List eurephiaVALUES :=
  eAdd_value
    (eUpdate_value
      (eAdd_value
        (eAdd_value
          (eAdd_value (eCreate_value_space 21) (some "daemon".toList) (some "0".toList))
          (some "configfile".toList) (some "/etc/rteval.conf".toList))
        (some "threads".toList) (some "4".toList))
      "threads".toList (some "8".toList) 0)
    (some "log".toList) (some "stderr:".toList)

/-- A config file whose section xmlrpc_parser sets threads and db_server, and
whose section other sets threads as well. -/
def sample_config_file : ConfigFileEnv :=
  { stat_ok := true
    fopen_ok := true
    lines :=
      ["# rteval configuration\n".toList, "[xmlrpc_parser]\n".toList, "threads = 2\n".toList,
        "db_server: db.example.org  # main server\n".toList, "[other]\n".toList,
        "threads = 16\n".toList] }

/-! ## Which calls the callees of the transaction make -/

theorem any_eq_false_of_all (p q : Event → Bool) (l : List Event)
    (hq : l.all q = true) (hpq : ∀ e, q e = true → p e = false) : l.any p = false := by
  induction l with
  | nil => rfl
  | cons a t ih =>
    simp only [List.all_cons, Bool.and_eq_true] at hq
    simp only [List.any_cons, hpq a hq.1, ih hq.2, Bool.or_self]

theorem db_register_rtevalrun_events (e : RunEnv) :
    (db_register_rtevalrun e).2.all Event.is_insert = true := by
  obtain ⟨d1, i1, d2, i2⟩ := e
  cases d1 <;> cases i1 <;> cases d2 <;> cases i2 <;>
    simp only [db_register_rtevalrun, Bool.not_true, Bool.not_false, if_true, if_false,
      Bool.false_eq_true] <;>
    first | rfl | (split_ifs <;> rfl)

theorem db_register_rtevalrun_rc (e : RunEnv) :
    (db_register_rtevalrun e).1 = 1 ∨ (db_register_rtevalrun e).1 = -1 := by
  obtain ⟨d1, i1, d2, i2⟩ := e
  cases d1 <;> cases i1 <;> cases d2 <;> cases i2 <;>
    simp only [db_register_rtevalrun, Bool.not_true, Bool.not_false, if_true, if_false,
      Bool.false_eq_true] <;>
    first | (simp; done) | (split_ifs <;> simp)

theorem db_register_cyclictest_loop_events (l : List (String × CyclicTableEnv)) (c : Int)
    (evs : List Event) (h : evs.all Event.is_insert = true) :
    (db_register_cyclictest_loop l c evs).2.all Event.is_insert = true := by
  induction l generalizing c evs with
  | nil => simpa [db_register_cyclictest_loop] using h
  | cons a t ih =>
    obtain ⟨table, e⟩ := a
    unfold db_register_cyclictest_loop
    split_ifs
    · split
      · simp only [List.all_append, h, Bool.true_and]
        rfl
      · apply ih
        simp only [List.all_append, h, Bool.true_and]
        rfl
    · exact ih c evs h

theorem db_register_cyclictest_events (es : CyclicTableEnv × CyclicTableEnv × CyclicTableEnv) :
    (db_register_cyclictest es).2.all Event.is_insert = true := by
  have h := db_register_cyclictest_loop_events (cyclictables.zip [es.1, es.2.1, es.2.2]) 0 [] rfl
  unfold db_register_cyclictest
  split
  · rename_i evs heq
    rw [heq] at h
    exact h
  · rename_i c evs heq
    rw [heq] at h
    split_ifs <;> exact h

theorem make_report_dir_loop_events (l : List DirProbe) (d : Nat) (evs : List Event)
    (h : evs.all Event.is_mkdir = true) :
    (make_report_dir_loop l d evs).2.all Event.is_mkdir = true := by
  induction l generalizing d evs with
  | nil => simpa [make_report_dir_loop] using h
  | cons a t ih =>
    cases a
    · exact ih (d + 1) evs h
    · apply ih
      simp only [List.all_append, h, Bool.true_and]
      rfl
    · simp only [make_report_dir_loop, List.all_append, h, Bool.true_and]
      rfl
    · simpa [make_report_dir_loop] using h

theorem make_report_dir_events (fname : Option cstr) (l : List DirProbe) :
    (make_report_dir fname l).2.all Event.is_mkdir = true := by
  cases fname with
  | none => rfl
  | some f => exact make_report_dir_loop_events l 0 [] rfl

/-! ## The per-job transaction after BEGIN -/

theorem get_destination_path_isSome (destdir : cstr) (job : parseJob_t) (rterid : Int)
    (h : ¬ rterid < 0) :
    ∃ d, get_destination_path destdir (some job) rterid = some d := by
  simp [get_destination_path, h]

theorem parse_report_eq_transaction (thrdata : threadData_t) (job : parseJob_t) (env : ParseEnv)
    (hgate : check_filesize thrdata.max_report_size (some job.filename) env.st ≠ 0)
    (hxml : env.repxml = true) (hsys : ¬ env.syskey < 0)
    (hrterid : ¬ db_get_new_rterid env.nextval < 0) (hbegin : ¬ db_begin env.begin_res < 1) :
    ∃ d, parse_report_destfname thrdata job env = some d ∧
      parse_report thrdata job env =
        parse_report_transaction job env env.syskey (db_get_new_rterid env.nextval) d
          (parse_report_begin_events job env) := by
  obtain ⟨d, hd⟩ := get_destination_path_isSome thrdata.destdir job _ hrterid
  refine ⟨d, hd, ?_⟩
  unfold parse_report
  simp only [hgate, hxml, hsys, hrterid, hbegin, hd, if_false, Bool.not_true,
    Bool.false_eq_true, parse_report_begin_events]

theorem begin_events_any (job : parseJob_t) (env : ParseEnv) :
    (parse_report_begin_events job env).any Event.is_rollback = false
    ∧ (parse_report_begin_events job env).any Event.is_commit = false
    ∧ (parse_report_begin_events job env).any Event.is_register_rtevalrun = false
    ∧ (parse_report_begin_events job env).any Event.is_register_cyclictest = false
    ∧ (parse_report_begin_events job env).any Event.is_insert = false
    ∧ (parse_report_begin_events job env).any Event.is_make_report_dir = false
    ∧ (parse_report_begin_events job env).any Event.is_rename = false := by
  refine ⟨rfl, rfl, rfl, rfl, rfl, rfl, rfl⟩

theorem insert_events_any (l : List Event) (h : l.all Event.is_insert = true) :
    l.any Event.is_rollback = false ∧ l.any Event.is_commit = false
    ∧ l.any Event.is_register_rtevalrun = false ∧ l.any Event.is_register_cyclictest = false
    ∧ l.any Event.is_make_report_dir = false ∧ l.any Event.is_rename = false := by
  refine ⟨?_, ?_, ?_, ?_, ?_, ?_⟩ <;>
    exact any_eq_false_of_all _ Event.is_insert l h (by intro e he; cases e <;> first | rfl | cases he)

theorem mkdir_events_any (l : List Event) (h : l.all Event.is_mkdir = true) :
    l.any Event.is_rollback = false ∧ l.any Event.is_commit = false
    ∧ l.any Event.is_register_rtevalrun = false ∧ l.any Event.is_register_cyclictest = false
    ∧ l.any Event.is_make_report_dir = false ∧ l.any Event.is_rename = false
    ∧ l.any Event.is_insert = false := by
  refine ⟨?_, ?_, ?_, ?_, ?_, ?_, ?_⟩ <;>
    exact any_eq_false_of_all _ Event.is_mkdir l h (by intro e he; cases e <;> first | rfl | cases he)

/-- C1: once BEGIN has succeeded, the first failing step among
`db_register_rtevalrun`, `db_register_cyclictest`, `make_report_dir` and
`rename` makes `parse_report` send ROLLBACK, never COMMIT, attempt no later
step, and return `STAT_RTEVRUNS` (9), `STAT_CYCLIC` (10), `STAT_REPMOVE` (11)
and `STAT_REPMOVE` (11) respectively. -/
theorem parse_report_rollback_on_first_failure (thrdata : threadData_t) (job : parseJob_t)
    (env : ParseEnv)
    (hgate : check_filesize thrdata.max_report_size (some job.filename) env.st ≠ 0)
    (hxml : env.repxml = true) (hsys : ¬ env.syskey < 0)
    (hrterid : ¬ db_get_new_rterid env.nextval < 0) (hbegin : db_begin env.begin_res = 1) :
    ((db_register_rtevalrun env.run).1 < 0 →
      (parse_report thrdata job env).1 = STAT_RTEVRUNS
      ∧ (parse_report thrdata job env).2.any Event.is_rollback = true
      ∧ (parse_report thrdata job env).2.any Event.is_commit = false
      ∧ (parse_report thrdata job env).2.any Event.is_register_cyclictest = false
      ∧ (parse_report thrdata job env).2.any Event.is_make_report_dir = false
      ∧ (parse_report thrdata job env).2.any Event.is_rename = false)
    ∧ (¬ (db_register_rtevalrun env.run).1 < 0 → (db_register_cyclictest env.cyclic).1 ≠ 1 →
      (parse_report thrdata job env).1 = STAT_CYCLIC
      ∧ (parse_report thrdata job env).2.any Event.is_rollback = true
      ∧ (parse_report thrdata job env).2.any Event.is_commit = false
      ∧ (parse_report thrdata job env).2.any Event.is_make_report_dir = false
      ∧ (parse_report thrdata job env).2.any Event.is_rename = false)
    ∧ (¬ (db_register_rtevalrun env.run).1 < 0 → (db_register_cyclictest env.cyclic).1 = 1 →
      (make_report_dir (parse_report_destfname thrdata job env) env.dirs).1 < 1 →
      (parse_report thrdata job env).1 = STAT_REPMOVE
      ∧ (parse_report thrdata job env).2.any Event.is_rollback = true
      ∧ (parse_report thrdata job env).2.any Event.is_commit = false
      ∧ (parse_report thrdata job env).2.any Event.is_rename = false)
    ∧ (¬ (db_register_rtevalrun env.run).1 < 0 → (db_register_cyclictest env.cyclic).1 = 1 →
      ¬ (make_report_dir (parse_report_destfname thrdata job env) env.dirs).1 < 1 →
      env.rename_rc < 0 →
      (parse_report thrdata job env).1 = STAT_REPMOVE
      ∧ (parse_report thrdata job env).2.any Event.is_rollback = true
      ∧ (parse_report thrdata job env).2.any Event.is_commit = false) := by
  have hb : ¬ db_begin env.begin_res < 1 := by rw [hbegin]; decide
  obtain ⟨d, hd, hpr⟩ := parse_report_eq_transaction thrdata job env hgate hxml hsys hrterid hb
  obtain ⟨b1, b2, -, b4, -, b6, b7⟩ := begin_events_any job env
  obtain ⟨r1, r2, -, r4, r5, r6⟩ := insert_events_any _ (db_register_rtevalrun_events env.run)
  obtain ⟨c1, c2, -, -, c5, c6⟩ := insert_events_any _ (db_register_cyclictest_events env.cyclic)
  obtain ⟨m1, m2, -, -, -, m6, -⟩ := mkdir_events_any _ (make_report_dir_events (some d) env.dirs)
  rw [hpr, hd]
  refine ⟨?_, ?_, ?_, ?_⟩
  · intro hrun
    simp [parse_report_transaction, hrun, List.any_append, b1, b2, b4, b6, b7, r1, r2, r4, r5, r6,
      Event.is_rollback, Event.is_commit, Event.is_register_cyclictest, Event.is_make_report_dir,
      Event.is_rename]
  · intro hrun hcyc
    simp [parse_report_transaction, hrun, hcyc, List.any_append, b1, b2, b4, b6, b7, r1, r2, r4,
      r5, r6, c1, c2, c5, c6,
      Event.is_rollback, Event.is_commit, Event.is_register_cyclictest, Event.is_make_report_dir,
      Event.is_rename]
  · intro hrun hcyc hmk
    simp [parse_report_transaction, hrun, hcyc, hmk, List.any_append, b1, b2, b4, b6, b7, r1, r2,
      r4, r5, r6, c1, c2, c5, c6, m1, m2, m6,
      Event.is_rollback, Event.is_commit, Event.is_register_cyclictest, Event.is_make_report_dir,
      Event.is_rename]
  · intro hrun hcyc hmk hren
    simp [parse_report_transaction, hrun, hcyc, hmk, hren, List.any_append, b1, b2, b4, b6, b7,
      r1, r2, r4, r5, r6, c1, c2, c5, c6, m1, m2, m6,
      Event.is_rollback, Event.is_commit, Event.is_register_cyclictest, Event.is_make_report_dir,
      Event.is_rename]

theorem parse_report_rollback_on_first_failure_witness :
    ((parse_report sample_thrdata sample_job sample_env_run_fails).1 = STAT_RTEVRUNS
      ∧ (parse_report sample_thrdata sample_job sample_env_run_fails).2.any Event.is_rollback
          = true)
    ∧ ((parse_report sample_thrdata sample_job sample_env_cyclic_fails).1 = STAT_CYCLIC
      ∧ (parse_report sample_thrdata sample_job sample_env_cyclic_fails).2.any Event.is_rollback
          = true)
    ∧ ((parse_report sample_thrdata sample_job sample_env_mkdir_fails).1 = STAT_REPMOVE
      ∧ (parse_report sample_thrdata sample_job sample_env_mkdir_fails).2.any Event.is_rollback
          = true)
    ∧ ((parse_report sample_thrdata sample_job sample_env_rename_fails).1 = STAT_REPMOVE
      ∧ (parse_report sample_thrdata sample_job sample_env_rename_fails).2.any Event.is_rollback
          = true) := by
  have h1 := (parse_report_rollback_on_first_failure sample_thrdata sample_job
    sample_env_run_fails (by decide) (by decide) (by decide) (by decide) (by decide)).1
      (by decide)
  have h2 := (parse_report_rollback_on_first_failure sample_thrdata sample_job
    sample_env_cyclic_fails (by decide) (by decide) (by decide) (by decide) (by decide)).2.1
      (by decide) (by decide)
  have h3 := (parse_report_rollback_on_first_failure sample_thrdata sample_job
    sample_env_mkdir_fails (by decide) (by decide) (by decide) (by decide) (by decide)).2.2.1
      (by decide) (by decide) (by decide)
  have h4 := (parse_report_rollback_on_first_failure sample_thrdata sample_job
    sample_env_rename_fails (by decide) (by decide) (by decide) (by decide) (by decide)).2.2.2
      (by decide) (by decide) (by decide) (by decide)
  exact ⟨⟨h1.1, h1.2.1⟩, ⟨h2.1, h2.2.1⟩, ⟨h3.1, h3.2.1⟩, ⟨h4.1, h4.2.1⟩⟩

/-! ## The result of COMMIT -/

theorem parse_report_transaction_commit_irrelevant (job : parseJob_t) (env : ParseEnv)
    (syskey rterid : Int) (d : cstr) (evs : List Event) (r : PGresult) :
    (parse_report_transaction job { env with commit_res := r } syskey rterid d evs).1
      = (parse_report_transaction job env syskey rterid d evs).1 := by
  simp only [parse_report_transaction]
  split_ifs <;> rfl

/-- C2 (code defect): `parse_report` sets `rc = STAT_SUCCESS` and then calls
`db_commit` without reading its value.  The status it returns is the same
whatever the server answers to COMMIT; on the sample job with a COMMIT that
the server rejects, `db_commit` yields -1, the run and the measurements were
registered and the file renamed, and `parse_report` returns `STAT_SUCCESS`. -/
theorem parse_report_success_on_failed_commit :
    (∀ (thrdata : threadData_t) (job : parseJob_t) (env : ParseEnv) (r : PGresult),
      (parse_report thrdata job { env with commit_res := r }).1
        = (parse_report thrdata job env).1)
    ∧ db_commit sample_env_commit_fails.commit_res = -1
    ∧ parse_report sample_thrdata sample_job sample_env_commit_fails =
      (STAT_SUCCESS,
        [Event.stat "/tmp/r.xml".toList, Event.xmlParseFile "/tmp/r.xml".toList,
          Event.mutex_lock_sysreg, Event.db_register_system 5,
          Event.PQexec SqlCmd.NEXTVAL_RTERID (some ExecStatusType.PGRES_TUPLES_OK),
          Event.mutex_unlock_sysreg,
          Event.PQexec SqlCmd.BEGIN (some ExecStatusType.PGRES_COMMAND_OK),
          Event.db_register_rtevalrun 1 5 17 "/var/lib/rteval/reports/h1/report-17.xml".toList,
          Event.pgsql_INSERT "rtevalruns", Event.pgsql_INSERT "rtevalruns_details",
          Event.db_register_cyclictest 17,
          Event.pgsql_INSERT "cyclic_statistics", Event.pgsql_INSERT "cyclic_histogram",
          Event.make_report_dir "/var/lib/rteval/reports/h1/report-17.xml".toList,
          Event.mkdir 4,
          Event.rename "/tmp/r.xml".toList "/var/lib/rteval/reports/h1/report-17.xml".toList,
          Event.PQexec SqlCmd.COMMIT (some ExecStatusType.PGRES_FATAL_ERROR),
          Event.xmlFreeDoc]) := by
  refine ⟨?_, by decide, by decide⟩
  intro thrdata job env r
  simp only [parse_report]
  split_ifs
  · rfl
  · rfl
  · rfl
  · rfl
  · rfl
  · split
    · rfl
    · exact parse_report_transaction_commit_irrelevant job env _ _ _ _ r

/-! ## The steps before the transaction -/

theorem parse_report_early_failures (thrdata : threadData_t) (job : parseJob_t) (env : ParseEnv)
    (hgate : check_filesize thrdata.max_report_size (some job.filename) env.st ≠ 0) :
    (env.repxml = false →
      parse_report thrdata job env =
        (STAT_XMLFAIL, [Event.stat job.filename, Event.xmlParseFile job.filename]))
    ∧ (env.repxml = true → env.syskey < 0 →
      parse_report thrdata job env =
        (STAT_SYSREG,
          [Event.stat job.filename, Event.xmlParseFile job.filename, Event.mutex_lock_sysreg,
            Event.db_register_system env.syskey, Event.xmlFreeDoc]))
    ∧ (env.repxml = true → ¬ env.syskey < 0 → db_get_new_rterid env.nextval < 0 →
      parse_report thrdata job env =
        (STAT_RTERIDREG,
          [Event.stat job.filename, Event.xmlParseFile job.filename, Event.mutex_lock_sysreg,
            Event.db_register_system env.syskey,
            Event.PQexec SqlCmd.NEXTVAL_RTERID env.nextval.dbres, Event.xmlFreeDoc]))
    ∧ (env.repxml = true → ¬ env.syskey < 0 → ¬ db_get_new_rterid env.nextval < 0 →
      db_begin env.begin_res < 1 →
      parse_report thrdata job env =
        (STAT_GENDB, parse_report_begin_events job env ++ [Event.xmlFreeDoc])) := by
  refine ⟨?_, ?_, ?_, ?_⟩
  · intro hxml
    simp [parse_report, hgate, hxml]
  · intro hxml hsys
    simp [parse_report, hgate, hxml, hsys]
  · intro hxml hsys hrt
    simp [parse_report, hgate, hxml, hsys, hrt]
  · intro hxml hsys hrt hb
    simp [parse_report, hgate, hxml, hsys, hrt, hb, parse_report_begin_events]

/-- C3 (code defect): `db_get_new_rterid` treats every value below 1 as a
failure (it logs "Failed to retrieve a new rterid value" for `rterid < 1`) but
hands the value 0 to its caller, and `parse_report` only tests `rterid < 0`.
When the sequence answers 0 on the sample job, the failure is logged, yet
`parse_report` does not return `STAT_RTERIDREG`: it goes on to BEGIN,
registers the run under rterid 0, renames the file and returns
`STAT_SUCCESS`. -/
theorem parse_report_rterid_zero_not_failed :
    db_get_new_rterid sample_env_rterid_zero.nextval = 0
    ∧ db_get_new_rterid_logs_failure (db_get_new_rterid sample_env_rterid_zero.nextval) = true
    ∧ (parse_report sample_thrdata sample_job sample_env_rterid_zero).1 ≠ STAT_RTERIDREG
    ∧ parse_report sample_thrdata sample_job sample_env_rterid_zero =
      (STAT_SUCCESS,
        [Event.stat "/tmp/r.xml".toList, Event.xmlParseFile "/tmp/r.xml".toList,
          Event.mutex_lock_sysreg, Event.db_register_system 5,
          Event.PQexec SqlCmd.NEXTVAL_RTERID (some ExecStatusType.PGRES_TUPLES_OK),
          Event.mutex_unlock_sysreg,
          Event.PQexec SqlCmd.BEGIN (some ExecStatusType.PGRES_COMMAND_OK),
          Event.db_register_rtevalrun 1 5 0 "/var/lib/rteval/reports/h1/report-0.xml".toList,
          Event.pgsql_INSERT "rtevalruns", Event.pgsql_INSERT "rtevalruns_details",
          Event.db_register_cyclictest 0,
          Event.pgsql_INSERT "cyclic_statistics", Event.pgsql_INSERT "cyclic_histogram",
          Event.make_report_dir "/var/lib/rteval/reports/h1/report-0.xml".toList,
          Event.mkdir 4,
          Event.rename "/tmp/r.xml".toList "/var/lib/rteval/reports/h1/report-0.xml".toList,
          Event.PQexec SqlCmd.COMMIT (some ExecStatusType.PGRES_COMMAND_OK),
          Event.xmlFreeDoc]) := by
  refine ⟨by decide, by decide, by decide, by decide⟩

/-! ## The file-size gate -/

theorem parse_report_transaction_status (job : parseJob_t) (env : ParseEnv)
    (syskey rterid : Int) (destfname : cstr) (evs : List Event) :
    (parse_report_transaction job env syskey rterid destfname evs).1 = STAT_RTEVRUNS
    ∨ (parse_report_transaction job env syskey rterid destfname evs).1 = STAT_CYCLIC
    ∨ (parse_report_transaction job env syskey rterid destfname evs).1 = STAT_REPMOVE
    ∨ (parse_report_transaction job env syskey rterid destfname evs).1 = STAT_SUCCESS := by
  unfold parse_report_transaction
  simp only
  split_ifs <;> simp

theorem parse_report_status_of_gate (thrdata : threadData_t) (job : parseJob_t) (env : ParseEnv)
    (hgate : check_filesize thrdata.max_report_size (some job.filename) env.st ≠ 0) :
    (parse_report thrdata job env).1 ≠ STAT_FTOOBIG := by
  unfold parse_report
  simp only [hgate, if_false]
  split_ifs
  · simp
  · simp
  · simp
  · simp
  · split
    · simp
    · rename_i destfname _
      rcases parse_report_transaction_status job env env.syskey (db_get_new_rterid env.nextval)
        destfname
        [Event.stat job.filename, Event.xmlParseFile job.filename, Event.mutex_lock_sysreg,
          Event.db_register_system env.syskey,
          Event.PQexec SqlCmd.NEXTVAL_RTERID env.nextval.dbres, Event.mutex_unlock_sysreg,
          Event.PQexec SqlCmd.BEGIN env.begin_res]
        with h | h | h | h <;> rw [h] <;> decide

/-- C4: when `stat` succeeds with size `s`, `parse_report` returns
`STAT_FTOOBIG` (12) exactly if `s` exceeds `max_report_size`.  A file of size
exactly `max_report_size` passes `check_filesize` (value 1); a file one byte
larger is rejected with `STAT_FTOOBIG` after the `stat` call alone: it is
neither parsed nor renamed. -/
theorem parse_report_file_too_big_iff (thrdata : threadData_t) (job : parseJob_t)
    (env : ParseEnv) (s : Nat) (hst : env.st = some s) :
    ((parse_report thrdata job env).1 = STAT_FTOOBIG ↔ thrdata.max_report_size < s)
    ∧ (s = thrdata.max_report_size →
        check_filesize thrdata.max_report_size (some job.filename) env.st = 1
        ∧ (parse_report thrdata job env).1 ≠ STAT_FTOOBIG)
    ∧ (s = thrdata.max_report_size + 1 →
        parse_report thrdata job env = (STAT_FTOOBIG, [Event.stat job.filename])
        ∧ (parse_report thrdata job env).2.any Event.is_xmlParseFile = false
        ∧ (parse_report thrdata job env).2.any Event.is_rename = false) := by
  have hbig : thrdata.max_report_size < s →
      parse_report thrdata job env = (STAT_FTOOBIG, [Event.stat job.filename]) := by
    intro h
    have hn : ¬ s ≤ thrdata.max_report_size := Nat.not_le.mpr h
    simp [parse_report, check_filesize, hst, hn]
  have hok : s ≤ thrdata.max_report_size →
      check_filesize thrdata.max_report_size (some job.filename) env.st = 1 := by
    intro h
    simp [check_filesize, hst, h]
  refine ⟨⟨?_, ?_⟩, ?_, ?_⟩
  · intro h
    by_contra hn
    have hle : s ≤ thrdata.max_report_size := Nat.not_lt.mp hn
    exact parse_report_status_of_gate thrdata job env (by rw [hok hle]; decide) h
  · intro h
    rw [hbig h]
  · intro h
    have hle : s ≤ thrdata.max_report_size := by omega
    exact ⟨hok hle, parse_report_status_of_gate thrdata job env (by rw [hok hle]; decide)⟩
  · intro h
    have hlt : thrdata.max_report_size < s := by omega
    rw [hbig hlt]
    exact ⟨rfl, rfl, rfl⟩

theorem parse_report_file_too_big_iff_witness :
    (check_filesize sample_thrdata.max_report_size (some sample_job.filename)
        sample_env_size_at_limit.st = 1
      ∧ (parse_report sample_thrdata sample_job sample_env_size_at_limit).1 ≠ STAT_FTOOBIG)
    ∧ (parse_report sample_thrdata sample_job sample_env_too_big).1 = STAT_FTOOBIG
    ∧ parse_report sample_thrdata sample_job sample_env_too_big
        = (STAT_FTOOBIG, [Event.stat sample_job.filename]) :=
  ⟨(parse_report_file_too_big_iff sample_thrdata sample_job sample_env_size_at_limit 2097152
      rfl).2.1 rfl,
    (parse_report_file_too_big_iff sample_thrdata sample_job sample_env_too_big 2097153
      rfl).1.mpr (by decide),
    ((parse_report_file_too_big_iff sample_thrdata sample_job sample_env_too_big 2097153
      rfl).2.2 rfl).1⟩

/-! ## The worker loop -/

theorem db_update_submissionqueue_inprog_ne_zero (submid : Nat) (res : PGresult) :
    (db_update_submissionqueue submid STAT_INPROG res).1 ≠ 0 := by
  unfold db_update_submissionqueue db_update_submissionqueue_sql
  simp only [show ¬ (STAT_INPROG = STAT_ASSIGNED ∨ STAT_INPROG = STAT_RTERIDREG
    ∨ STAT_INPROG = STAT_REPMOVE ∨ STAT_INPROG = STAT_XMLFAIL ∨ STAT_INPROG = STAT_FTOOBIG)
    from by decide, if_false, if_true]
  cases res with
  | none => simp
  | some st => by_cases h : st = ExecStatusType.PGRES_COMMAND_OK <;> simp [h]

/-- C5 (code defect): the worker tests the value of
`db_update_submissionqueue(.., STAT_INPROG)` for being non-zero, and the value
for a database error is -1.  For `STAT_INPROG` the function never returns 0,
so the branch that skips the job is never taken; on the sample job with the
in-progress UPDATE answered by an error, the worker calls `parse_report`
(stat, parse, transaction, rename, COMMIT) and sends the final status UPDATE. -/
theorem parsethread_parses_after_failed_inprog_update :
    (∀ (submid : Nat) (res : PGresult),
      (db_update_submissionqueue submid STAT_INPROG res).1 ≠ 0)
    ∧ (db_update_submissionqueue sample_iter_inprog_fails.jobinfo.submid STAT_INPROG
        sample_iter_inprog_fails.inprog_res).1 = -1
    ∧ parsethread_iteration sample_thrdata 1 sample_iter_inprog_fails =
      (LoopStep.next,
        [Event.db_ping, Event.mq_receive,
          Event.PQexec (SqlCmd.UPDATE_QUEUE STAT_INPROG Stamp.parsestart 1)
            (some ExecStatusType.PGRES_FATAL_ERROR)]
        ++ (parse_report sample_thrdata sample_job sample_env).2
        ++ [Event.PQexec (SqlCmd.UPDATE_QUEUE STAT_SUCCESS Stamp.parseend 1)
            (some ExecStatusType.PGRES_COMMAND_OK)])
    ∧ (parse_report sample_thrdata sample_job sample_env).2.any Event.is_xmlParseFile = true
    ∧ (parse_report sample_thrdata sample_job sample_env).2.any Event.is_rename = true := by
  refine ⟨db_update_submissionqueue_inprog_ne_zero, by decide, by decide, by decide, by decide⟩

theorem parse_report_status_field_unread (args : threadData_t) (job : parseJob_t)
    (env : ParseEnv) (st : jobStatus) :
    parse_report args { job with status := st } env = parse_report args job env := rfl

theorem parsethread_iteration_status_field_unread (args : threadData_t) (threadcount : Int)
    (it : IterEnv) (st : jobStatus) :
    parsethread_iteration args threadcount
        { it with jobinfo := { it.jobinfo with status := st } }
      = parsethread_iteration args threadcount it := rfl

/-- C6 (the claim as stated fails): an empty descriptor (status `jbNONE`,
submid 0, empty file name) received as a full-size message while the shutdown
flag is not set is processed like any job: the worker sends the in-progress
UPDATE for submid 0, runs `parse_report` on the empty file name and sends the
final status UPDATE (`STAT_XMLFAIL`). -/
theorem parsethread_empty_descriptor_processed :
    sample_iter_empty_job.jobinfo.status = jobStatus.jbNONE
    ∧ sample_iter_empty_job.shutdown_top = 0
    ∧ sample_iter_empty_job.shutdown_recv = 0
    ∧ parsethread_iteration sample_thrdata 1 sample_iter_empty_job =
      (LoopStep.next,
        [Event.db_ping, Event.mq_receive,
          Event.PQexec (SqlCmd.UPDATE_QUEUE STAT_INPROG Stamp.parsestart 0)
            (some ExecStatusType.PGRES_COMMAND_OK),
          Event.stat [], Event.xmlParseFile [],
          Event.PQexec (SqlCmd.UPDATE_QUEUE STAT_XMLFAIL Stamp.nostamp 0)
            (some ExecStatusType.PGRES_COMMAND_OK)])
    ∧ (parsethread_iteration sample_thrdata 1 sample_iter_empty_job).2.any Event.is_queue_update
        = true := by
  refine ⟨rfl, rfl, rfl, by decide, by decide⟩

/-- C6 (amended): in an iteration of the worker loop in which the ping
succeeds and the shutdown flag is not set at the loop head, with `mq_receive`
not failing fatally: (a) if no message was delivered (length not positive, or
`errno` EAGAIN) and the flag is still not set, the worker makes no queue-table
update and no parse and goes to the next iteration; (b) if the flag is set when
`mq_receive` returns, whatever was received, an empty descriptor included, is
dropped without update or parse and the loop is left; (c) the status field of
the descriptor is never read: the iteration is the same for `jbNONE` and
`jbAVAIL`. -/
theorem parsethread_iteration_skips_without_message (args : threadData_t) (threadcount : Int)
    (it : IterEnv) (htop : it.shutdown_top = 0)
    (hping : db_ping it.ping_status_ok it.ping_reset_ok = 1)
    (hrecv : ¬ (it.len < 0 ∧ it.errno ≠ Errno.EAGAIN)) :
    (it.shutdown_recv = 0 → ¬ (it.errno ≠ Errno.EAGAIN ∧ it.len > 0) →
      parsethread_iteration args threadcount it
        = (LoopStep.next, [Event.db_ping, Event.mq_receive]))
    ∧ (it.shutdown_recv ≠ 0 →
      parsethread_iteration args threadcount it
        = (LoopStep.leave, [Event.db_ping, Event.mq_receive]))
    ∧ (∀ st : jobStatus,
      parsethread_iteration args threadcount
          { it with jobinfo := { it.jobinfo with status := st } }
        = parsethread_iteration args threadcount it) := by
  refine ⟨?_, ?_, fun st => parsethread_iteration_status_field_unread args threadcount it st⟩
  · intro hflag hmsg
    unfold parsethread_iteration
    rw [if_neg (by simp [htop]), if_neg (by simp [hping]), if_neg hrecv,
      if_neg (by simp [hflag]), if_neg hmsg]
  · intro hflag
    unfold parsethread_iteration
    rw [if_neg (by simp [htop]), if_neg (by simp [hping]), if_neg hrecv, if_pos hflag]

theorem parsethread_iteration_skips_without_message_witness :
    parsethread_iteration sample_thrdata 1 sample_iter_no_message
      = (LoopStep.next, [Event.db_ping, Event.mq_receive])
    ∧ parsethread_iteration sample_thrdata 1 sample_iter_empty_job_shutdown
      = (LoopStep.leave, [Event.db_ping, Event.mq_receive]) :=
  ⟨(parsethread_iteration_skips_without_message sample_thrdata 1 sample_iter_no_message
      (by decide) (by decide) (by decide)).1 (by decide) (by decide),
    (parsethread_iteration_skips_without_message sample_thrdata 1 sample_iter_empty_job_shutdown
      (by decide) (by decide) (by decide)).2.1 (by decide)⟩

/-- C7 (code defect): when `mq_receive` fails with an error other than EAGAIN
the worker calls `pthread_exit` inside the loop and never reaches the code at
`exit:` that counts it out.  Whatever the counter was when the thread
started, it is one higher after the thread has ended.  On the two other ways
out (shutdown flag found set, ping failure) the counter is restored. -/
theorem parsethread_mq_error_leaves_count_incremented :
    (∀ (args : threadData_t) (threadcount : Int) (rest : List IterEnv),
      parsethread args threadcount (sample_iter_mq_error :: rest)
        = some { exitcode := 1, threadcount := threadcount + 1,
                 events := [Event.db_ping, Event.mq_receive] })
    ∧ (∀ (args : threadData_t) (threadcount : Int) (rest : List IterEnv),
      parsethread args threadcount (sample_iter_shutdown :: rest)
        = some { exitcode := 0, threadcount := threadcount, events := [] })
    ∧ (∀ (args : threadData_t) (threadcount : Int) (rest : List IterEnv),
      (parsethread args threadcount (sample_iter_ping_fails :: rest)).map
          (fun r => (r.exitcode, r.threadcount))
        = some (1, threadcount)) := by
  refine ⟨?_, ?_, ?_⟩
  · intro args threadcount rest
    rfl
  · intro args threadcount rest
    simp [parsethread, parsethread_loop, parsethread_iteration, sample_iter_shutdown,
      sample_iter]
  · intro args threadcount rest
    simp [parsethread, parsethread_loop, parsethread_iteration, sample_iter_ping_fails,
      sample_iter, db_ping]

/-! ## The status update of the queue table -/

theorem int_of_unsigned_of_lt (submid : Nat) (h : submid < 2147483648) :
    int_of_unsigned submid = (submid : Int) := by
  unfold int_of_unsigned to_int32
  have h1 : ((submid : Int)) % 4294967296 = (submid : Int) := by omega
  simp only [h1]
  rw [if_pos (by omega)]

theorem db_update_submissionqueue_status_table_aux (submid : Nat) (status : Int)
    (res : PGresult) :
    ((status = STAT_ASSIGNED ∨ status = STAT_RTERIDREG ∨ status = STAT_REPMOVE
        ∨ status = STAT_XMLFAIL ∨ status = STAT_FTOOBIG) →
      (db_update_submissionqueue submid status res).2
        = [Event.PQexec (SqlCmd.UPDATE_QUEUE status Stamp.nostamp (int_of_unsigned submid)) res])
    ∧ ((status = STAT_SUCCESS ∨ status = STAT_UNKNFAIL ∨ status = STAT_SYSREG
        ∨ status = STAT_GENDB ∨ status = STAT_RTEVRUNS ∨ status = STAT_CYCLIC) →
      (db_update_submissionqueue submid status res).2
        = [Event.PQexec (SqlCmd.UPDATE_QUEUE status Stamp.parseend (int_of_unsigned submid)) res])
    ∧ (status = STAT_INPROG →
      (db_update_submissionqueue submid status res).2
        = [Event.PQexec (SqlCmd.UPDATE_QUEUE status Stamp.parsestart (int_of_unsigned submid))
            res]) := by
  refine ⟨?_, ?_, ?_⟩
  · intro h
    unfold db_update_submissionqueue db_update_submissionqueue_sql
    rw [if_pos h]
    cases res with
    | none => rfl
    | some st => by_cases hs : st = ExecStatusType.PGRES_COMMAND_OK <;> simp [hs]
  · intro h
    have h1 : ¬ (status = STAT_ASSIGNED ∨ status = STAT_RTERIDREG ∨ status = STAT_REPMOVE
        ∨ status = STAT_XMLFAIL ∨ status = STAT_FTOOBIG) := by
      rcases h with h | h | h | h | h | h <;> subst h <;> decide
    have h2 : ¬ status = STAT_INPROG := by
      rcases h with h | h | h | h | h | h <;> subst h <;> decide
    unfold db_update_submissionqueue db_update_submissionqueue_sql
    rw [if_neg h1, if_neg h2, if_pos h]
    cases res with
    | none => rfl
    | some st => by_cases hs : st = ExecStatusType.PGRES_COMMAND_OK <;> simp [hs]
  · intro h
    subst h
    unfold db_update_submissionqueue db_update_submissionqueue_sql
    rw [if_neg (by decide), if_pos rfl]
    cases res with
    | none => rfl
    | some st => by_cases hs : st = ExecStatusType.PGRES_COMMAND_OK <;> simp [hs]

/-- C8 (the claim as stated fails): the WHERE clause is printed with `%i`
from an `unsigned int`.  For submid 2147483648 the statement sent is
restricted to the row whose submid is -2147483648. -/
theorem db_update_submissionqueue_high_submid :
    db_update_submissionqueue 2147483648 STAT_ASSIGNED (some ExecStatusType.PGRES_COMMAND_OK)
      = (1, [Event.PQexec (SqlCmd.UPDATE_QUEUE STAT_ASSIGNED Stamp.nostamp (-2147483648))
              (some ExecStatusType.PGRES_COMMAND_OK)])
    ∧ (SqlCmd.UPDATE_QUEUE STAT_ASSIGNED Stamp.nostamp (-2147483648)).text
      = "UPDATE submissionqueue SET status = 1 WHERE submid = -2147483648" := by
  refine ⟨by decide, by decide⟩

/-- C8 (amended): `db_update_submissionqueue` maps every status to its row
update as tabulated: status only for assigned (1), rterid_reg_failed (7),
file_move_failed (11), xml_parse_failed (5), file_too_big (12); status and
`parsestart = NOW()` for in_progress (2); status and `parseend = NOW()` for
success (3), unknown_failure (4), system_reg_failed (6), general_db_failed
(8), run_reg_failed (9), cyclic_reg_failed (10); for new (0) and every other
integer no statement is sent and 0 is returned.  Each statement is restricted
to the row whose submid is the given submid read as a signed 32-bit integer,
which is the given submid itself whenever that is below 2^31. -/
theorem db_update_submissionqueue_status_table (submid : Nat) (status : Int) (res : PGresult) :
    ((status = STAT_ASSIGNED ∨ status = STAT_RTERIDREG ∨ status = STAT_REPMOVE
        ∨ status = STAT_XMLFAIL ∨ status = STAT_FTOOBIG) →
      (db_update_submissionqueue submid status res).2
        = [Event.PQexec (SqlCmd.UPDATE_QUEUE status Stamp.nostamp (int_of_unsigned submid)) res])
    ∧ (status = STAT_INPROG →
      (db_update_submissionqueue submid status res).2
        = [Event.PQexec (SqlCmd.UPDATE_QUEUE status Stamp.parsestart (int_of_unsigned submid))
            res])
    ∧ ((status = STAT_SUCCESS ∨ status = STAT_UNKNFAIL ∨ status = STAT_SYSREG
        ∨ status = STAT_GENDB ∨ status = STAT_RTEVRUNS ∨ status = STAT_CYCLIC) →
      (db_update_submissionqueue submid status res).2
        = [Event.PQexec (SqlCmd.UPDATE_QUEUE status Stamp.parseend (int_of_unsigned submid)) res])
    ∧ ((status ≤ STAT_NEW ∨ STAT_FTOOBIG < status) →
      db_update_submissionqueue submid status res = (0, []))
    ∧ (submid < 2147483648 → int_of_unsigned submid = (submid : Int))
    ∧ (∀ key : Int,
      (SqlCmd.UPDATE_QUEUE status Stamp.nostamp key).text
        = "UPDATE submissionqueue SET status = " ++ fmt_i status
            ++ " WHERE submid = " ++ fmt_i key
      ∧ (SqlCmd.UPDATE_QUEUE status Stamp.parsestart key).text
        = "UPDATE submissionqueue SET status = " ++ fmt_i status
            ++ ", parsestart = NOW() WHERE submid = " ++ fmt_i key
      ∧ (SqlCmd.UPDATE_QUEUE status Stamp.parseend key).text
        = "UPDATE submissionqueue SET status = " ++ fmt_i status
            ++ ", parseend = NOW() WHERE submid = " ++ fmt_i key) := by
  obtain ⟨a1, a2, a3⟩ := db_update_submissionqueue_status_table_aux submid status res
  refine ⟨a1, a3, a2, ?_, int_of_unsigned_of_lt submid, fun key => ⟨rfl, rfl, rfl⟩⟩
  intro h
  have h1 : ¬ (status = STAT_ASSIGNED ∨ status = STAT_RTERIDREG ∨ status = STAT_REPMOVE
      ∨ status = STAT_XMLFAIL ∨ status = STAT_FTOOBIG) := by
    simp only [STAT_NEW, STAT_FTOOBIG, STAT_ASSIGNED, STAT_RTERIDREG, STAT_REPMOVE,
      STAT_XMLFAIL] at h ⊢
    omega
  have h2 : ¬ status = STAT_INPROG := by
    simp only [STAT_NEW, STAT_FTOOBIG, STAT_INPROG] at h ⊢
    omega
  have h3 : ¬ (status = STAT_SUCCESS ∨ status = STAT_UNKNFAIL ∨ status = STAT_SYSREG
      ∨ status = STAT_GENDB ∨ status = STAT_RTEVRUNS ∨ status = STAT_CYCLIC) := by
    simp only [STAT_NEW, STAT_FTOOBIG, STAT_SUCCESS, STAT_UNKNFAIL, STAT_SYSREG, STAT_GENDB,
      STAT_RTEVRUNS, STAT_CYCLIC] at h ⊢
    omega
  unfold db_update_submissionqueue db_update_submissionqueue_sql
  rw [if_neg h1, if_neg h2, if_neg h3]

theorem db_update_submissionqueue_status_table_witness :
    (db_update_submissionqueue 7 STAT_ASSIGNED (some ExecStatusType.PGRES_COMMAND_OK)).2
      = [Event.PQexec (SqlCmd.UPDATE_QUEUE STAT_ASSIGNED Stamp.nostamp (int_of_unsigned 7))
          (some ExecStatusType.PGRES_COMMAND_OK)]
    ∧ (db_update_submissionqueue 7 STAT_INPROG (some ExecStatusType.PGRES_COMMAND_OK)).2
      = [Event.PQexec (SqlCmd.UPDATE_QUEUE STAT_INPROG Stamp.parsestart (int_of_unsigned 7))
          (some ExecStatusType.PGRES_COMMAND_OK)]
    ∧ (db_update_submissionqueue 7 STAT_SUCCESS (some ExecStatusType.PGRES_COMMAND_OK)).2
      = [Event.PQexec (SqlCmd.UPDATE_QUEUE STAT_SUCCESS Stamp.parseend (int_of_unsigned 7))
          (some ExecStatusType.PGRES_COMMAND_OK)]
    ∧ db_update_submissionqueue 7 STAT_NEW (some ExecStatusType.PGRES_COMMAND_OK) = (0, [])
    ∧ db_update_submissionqueue 7 13 (some ExecStatusType.PGRES_COMMAND_OK) = (0, [])
    ∧ int_of_unsigned 7 = ((7 : Nat) : Int) :=
  ⟨(db_update_submissionqueue_status_table 7 STAT_ASSIGNED _).1 (by decide),
    (db_update_submissionqueue_status_table 7 STAT_INPROG _).2.1 (by decide),
    (db_update_submissionqueue_status_table 7 STAT_SUCCESS _).2.2.1 (by decide),
    (db_update_submissionqueue_status_table 7 STAT_NEW _).2.2.2.1 (by decide),
    (db_update_submissionqueue_status_table 7 13 _).2.2.2.1 (by decide),
    (db_update_submissionqueue_status_table 7 STAT_NEW none).2.2.2.2.1 (by decide)⟩

/-! ## Claiming a job -/

theorem select_new_eq_none (q : List QueueRow) :
    select_new q = none ↔ ∀ r ∈ q, r.status ≠ STAT_NEW := by
  induction q with
  | nil => simp [select_new]
  | cons a t ih =>
    unfold select_new
    cases hs : select_new t with
    | none =>
      have ht := ih.mp hs
      by_cases ha : a.status = STAT_NEW
      · simp [ha]
      · simp only [ha, if_false, true_iff]
        intro r hr
        rcases List.mem_cons.mp hr with h | h
        · rw [h]; exact ha
        · exact ht r h
    | some m =>
      have hne : ¬ ∀ r ∈ t, r.status ≠ STAT_NEW := fun h => by
        rw [ih.mpr h] at hs; cases hs
      have hne2 : ¬ ∀ r ∈ a :: t, r.status ≠ STAT_NEW :=
        fun h => hne (fun r hr => h r (List.mem_cons_of_mem a hr))
      simp only [hne2, iff_false]
      split_ifs <;> simp

theorem select_new_some (q : List QueueRow) (row : QueueRow) (h : select_new q = some row) :
    row ∈ q ∧ row.status = STAT_NEW
      ∧ ∀ r ∈ q, r.status = STAT_NEW → row.submid ≤ r.submid := by
  induction q generalizing row with
  | nil => simp [select_new] at h
  | cons a t ih =>
    unfold select_new at h
    cases hs : select_new t with
    | none =>
      rw [hs] at h
      have ht := (select_new_eq_none t).mp hs
      by_cases ha : a.status = STAT_NEW
      · simp only [ha, if_true, Option.some.injEq] at h
        subst h
        refine ⟨List.mem_cons_self _ _, ha, ?_⟩
        intro r hr hrs
        rcases List.mem_cons.mp hr with h | h
        · rw [h]
        · exact absurd hrs (ht r h)
      · simp [ha] at h
    | some m =>
      rw [hs] at h
      obtain ⟨hm1, hm2, hm3⟩ := ih m hs
      by_cases ha : a.status = STAT_NEW ∧ a.submid ≤ m.submid
      · simp only [ha, and_self, if_true, Option.some.injEq] at h
        subst h
        refine ⟨List.mem_cons_self _ _, ha.1, ?_⟩
        intro r hr hrs
        rcases List.mem_cons.mp hr with h | h
        · rw [h]
        · exact le_trans ha.2 (hm3 r h hrs)
      · simp only [ha, if_false, Option.some.injEq] at h
        subst h
        refine ⟨List.mem_cons_of_mem _ hm1, hm2, ?_⟩
        intro r hr hrs
        rcases List.mem_cons.mp hr with h | h
        · rw [h]
          by_contra hc
          exact ha ⟨by rw [← h]; exact hrs, by rw [h] at hrs; omega⟩
        · exact hm3 r h hrs

set_option maxRecDepth 8192 in
/-- C10 (the claim as stated fails): the descriptor does not carry the row's
clientid but its first 254 bytes.  For a new row whose clientid has 300 bytes
the descriptor returned holds a clientid of 254 bytes. -/
theorem db_get_submissionqueue_job_truncates_clientid :
    (db_get_submissionqueue_job sample_queue_long_clientid 0
        (some ExecStatusType.PGRES_TUPLES_OK) (some ExecStatusType.PGRES_COMMAND_OK)).1
      = some { status := jobStatus.jbAVAIL, submid := 7, clientid := List.replicate 254 'a',
               filename := "/tmp/r.xml".toList }
    ∧ sample_queue_long_clientid.map (fun r => (r.submid, r.status, r.clientid))
      = [(7, STAT_NEW, List.replicate 300 'a')]
    ∧ List.replicate 254 'a' ≠ List.replicate 300 'a' := by
  refine ⟨rfl, rfl, ?_⟩
  intro h
  have hlen := congrArg List.length h
  simp only [List.length_replicate] at hlen
  omega

/-- C10 (amended): whenever the server answers the SELECT with tuples, for
every state of the queue table: if no row has status new (0), the function
returns a descriptor with status `jbNONE`, sends no UPDATE and leaves every
row as it was; if some row has status new and the server accepts the UPDATE
to assigned, it returns a descriptor with status `jbAVAIL` carrying the
smallest submid among the new rows (as an unsigned 32-bit value), that row's
filename cut to 4094 bytes and its clientid cut to 254 bytes, which are the
row's own values when they are not longer. -/
theorem db_get_submissionqueue_job_claims_first_new (q : List QueueRow) (now : Nat)
    (select_res update_res : PGresult)
    (hsel : PQresultStatus select_res = ExecStatusType.PGRES_TUPLES_OK) :
    ((∀ r ∈ q, r.status ≠ STAT_NEW) →
      db_get_submissionqueue_job q now select_res update_res
        = (some empty_job, q,
            [Event.mutex_lock_submq, Event.PQexec (SqlCmd.SELECT_NEW STAT_NEW) select_res,
              Event.mutex_unlock_submq])
      ∧ empty_job.status = jobStatus.jbNONE)
    ∧ ((∃ r ∈ q, r.status = STAT_NEW) → update_res = some ExecStatusType.PGRES_COMMAND_OK →
      ∃ row ∈ q, row.status = STAT_NEW
        ∧ (∀ r ∈ q, r.status = STAT_NEW → row.submid ≤ r.submid)
        ∧ (db_get_submissionqueue_job q now select_res update_res).1
          = some { status := jobStatus.jbAVAIL
                   submid := (row.submid % 4294967296).toNat
                   filename := row.filename.take 4094
                   clientid := row.clientid.take 254 }
        ∧ (0 ≤ row.submid → row.submid < 4294967296 →
            (((row.submid % 4294967296).toNat : Nat) : Int) = row.submid)
        ∧ (row.filename.length ≤ 4094 → row.filename.take 4094 = row.filename)
        ∧ (row.clientid.length ≤ 254 → row.clientid.take 254 = row.clientid)) := by
  refine ⟨?_, ?_⟩
  · intro hnone
    have hs := (select_new_eq_none q).mpr hnone
    refine ⟨?_, rfl⟩
    unfold db_get_submissionqueue_job
    simp only [hsel, ne_eq, not_true_eq_false, if_false, hs]
  · intro hex hupd
    cases hs : select_new q with
    | none =>
      obtain ⟨r, hr, hrs⟩ := hex
      exact absurd hrs ((select_new_eq_none q).mp hs r hr)
    | some row =>
      obtain ⟨h1, h2, h3⟩ := select_new_some q row hs
      refine ⟨row, h1, h2, h3, ?_, ?_, ?_, ?_⟩
      · have hrc : (db_update_submissionqueue (row.submid % 4294967296).toNat STAT_ASSIGNED
            (some ExecStatusType.PGRES_COMMAND_OK)).1 = 1 := by
          simp [db_update_submissionqueue, db_update_submissionqueue_sql]
        unfold db_get_submissionqueue_job
        simp only [hsel, ne_eq, not_true_eq_false, if_false, hs, hupd, hrc]
        rw [if_neg (by decide)]
      · intro h0 h1
        have : row.submid % 4294967296 = row.submid := Int.emod_eq_of_lt h0 h1
        rw [this]
        exact Int.toNat_of_nonneg h0
      · intro h
        exact List.take_of_length_le h
      · intro h
        exact List.take_of_length_le h

theorem db_get_submissionqueue_job_claims_first_new_witness :
    (db_get_submissionqueue_job sample_queue_done 12 (some ExecStatusType.PGRES_TUPLES_OK)
        none).2.1 = sample_queue_done
    ∧ ∃ row ∈ sample_queue, row.status = STAT_NEW
        ∧ (∀ r ∈ sample_queue, r.status = STAT_NEW → row.submid ≤ r.submid)
        ∧ (db_get_submissionqueue_job sample_queue 12 (some ExecStatusType.PGRES_TUPLES_OK)
            (some ExecStatusType.PGRES_COMMAND_OK)).1
          = some { status := jobStatus.jbAVAIL
                   submid := (row.submid % 4294967296).toNat
                   filename := row.filename.take 4094
                   clientid := row.clientid.take 254 } := by
  have h1 := (db_get_submissionqueue_job_claims_first_new sample_queue_done 12
    (some ExecStatusType.PGRES_TUPLES_OK) none rfl).1 (by decide)
  have h2 := (db_get_submissionqueue_job_claims_first_new sample_queue 12
    (some ExecStatusType.PGRES_TUPLES_OK) (some ExecStatusType.PGRES_COMMAND_OK) rfl).2
    ⟨_, List.mem_cons_of_mem _ (List.mem_cons_self _ _), rfl⟩ rfl
  refine ⟨by rw [h1.1], ?_⟩
  obtain ⟨row, hr, hs, hmin, hjob, -⟩ := h2
  exact ⟨row, hr, hs, hmin, hjob⟩

/-! ## The sequence of status updates of one submission -/

theorem status_updates_append (k : Int) (l1 l2 : List Event) :
    status_updates k (l1 ++ l2) = status_updates k l1 ++ status_updates k l2 := by
  induction l1 with
  | nil => rfl
  | cons a t ih =>
    cases a with
    | PQexec cmd res =>
      cases cmd with
      | UPDATE_QUEUE status stamp key =>
        simp only [List.cons_append, status_updates]
        split_ifs <;> simp [ih]
      | _ => simpa [status_updates] using ih
    | _ => simpa [status_updates] using ih

theorem status_updates_eq_nil (k : Int) (l : List Event)
    (h : l.any Event.is_queue_update = false) : status_updates k l = [] := by
  induction l with
  | nil => rfl
  | cons a t ih =>
    simp only [List.any_cons, Bool.or_eq_false_iff] at h
    cases a with
    | PQexec cmd res =>
      cases cmd with
      | UPDATE_QUEUE status stamp key => simp [Event.is_queue_update] at h
      | _ => simpa [status_updates] using ih h.2
    | _ => simpa [status_updates] using ih h.2

theorem parse_report_transaction_no_queue_update (job : parseJob_t) (env : ParseEnv)
    (syskey rterid : Int) (d : cstr) (evs : List Event)
    (h : evs.any Event.is_queue_update = false) :
    (parse_report_transaction job env syskey rterid d evs).2.any Event.is_queue_update
      = false := by
  have hi : ∀ l : List Event, l.all Event.is_insert = true →
      l.any Event.is_queue_update = false := fun l hl =>
    any_eq_false_of_all _ Event.is_insert l hl (by intro e he; cases e <;> first | rfl | cases he)
  have hm : ∀ l : List Event, l.all Event.is_mkdir = true →
      l.any Event.is_queue_update = false := fun l hl =>
    any_eq_false_of_all _ Event.is_mkdir l hl (by intro e he; cases e <;> first | rfl | cases he)
  have r := hi _ (db_register_rtevalrun_events env.run)
  have c := hi _ (db_register_cyclictest_events env.cyclic)
  have m := hm _ (make_report_dir_events (some d) env.dirs)
  simp only [parse_report_transaction]
  split_ifs <;> simp [List.any_append, h, r, c, m, Event.is_queue_update]

theorem parse_report_no_queue_update (thrdata : threadData_t) (job : parseJob_t)
    (env : ParseEnv) :
    (parse_report thrdata job env).2.any Event.is_queue_update = false := by
  simp only [parse_report]
  split_ifs
  · rfl
  · rfl
  · rfl
  · rfl
  · rfl
  · split
    · rfl
    · exact parse_report_transaction_no_queue_update job env _ _ _ _ rfl

theorem parse_report_status_terminal (thrdata : threadData_t) (job : parseJob_t)
    (env : ParseEnv) : is_terminal (parse_report thrdata job env).1 = true := by
  simp only [parse_report]
  split_ifs
  · rfl
  · rfl
  · rfl
  · rfl
  · rfl
  · split
    · rfl
    · rename_i d _
      rcases parse_report_transaction_status job env env.syskey (db_get_new_rterid env.nextval) d
        [Event.stat job.filename, Event.xmlParseFile job.filename, Event.mutex_lock_sysreg,
          Event.db_register_system env.syskey,
          Event.PQexec SqlCmd.NEXTVAL_RTERID env.nextval.dbres, Event.mutex_unlock_sysreg,
          Event.PQexec SqlCmd.BEGIN env.begin_res]
        with h | h | h | h <;> rw [h] <;> rfl

theorem db_update_submissionqueue_terminal (submid : Nat) (t : Int) (res : PGresult)
    (ht : is_terminal t = true) :
    ∃ stamp, (db_update_submissionqueue submid t res).2
      = [Event.PQexec (SqlCmd.UPDATE_QUEUE t stamp (int_of_unsigned submid)) res] := by
  have hr : STAT_SUCCESS ≤ t ∧ t ≤ STAT_FTOOBIG := by simpa [is_terminal] using ht
  have hcases : (t = STAT_ASSIGNED ∨ t = STAT_RTERIDREG ∨ t = STAT_REPMOVE ∨ t = STAT_XMLFAIL
        ∨ t = STAT_FTOOBIG)
      ∨ (t = STAT_SUCCESS ∨ t = STAT_UNKNFAIL ∨ t = STAT_SYSREG ∨ t = STAT_GENDB
        ∨ t = STAT_RTEVRUNS ∨ t = STAT_CYCLIC) := by
    simp only [STAT_SUCCESS, STAT_FTOOBIG, STAT_ASSIGNED, STAT_RTERIDREG, STAT_REPMOVE,
      STAT_XMLFAIL, STAT_UNKNFAIL, STAT_SYSREG, STAT_GENDB, STAT_RTEVRUNS, STAT_CYCLIC] at hr ⊢
    omega
  rcases hcases with h | h
  · exact ⟨Stamp.nostamp, (db_update_submissionqueue_status_table_aux submid t res).1 h⟩
  · exact ⟨Stamp.parseend, (db_update_submissionqueue_status_table_aux submid t res).2.1 h⟩

theorem parsethread_iteration_status_updates (args : threadData_t) (threadcount : Int)
    (it : IterEnv) :
    ∃ t, is_terminal t = true ∧
      (status_updates (int_of_unsigned it.jobinfo.submid)
          (parsethread_iteration args threadcount it).2 = []
        ∨ status_updates (int_of_unsigned it.jobinfo.submid)
          (parsethread_iteration args threadcount it).2 = [STAT_INPROG, t]) := by
  refine ⟨(parse_report args it.jobinfo it.parse).1,
    parse_report_status_terminal args it.jobinfo it.parse, ?_⟩
  have hup := (db_update_submissionqueue_status_table_aux it.jobinfo.submid STAT_INPROG
    it.inprog_res).2.2 rfl
  obtain ⟨stamp, hfin⟩ := db_update_submissionqueue_terminal it.jobinfo.submid
    (parse_report args it.jobinfo it.parse).1 it.final_res
    (parse_report_status_terminal args it.jobinfo it.parse)
  have hpr := status_updates_eq_nil (int_of_unsigned it.jobinfo.submid) _
    (parse_report_no_queue_update args it.jobinfo it.parse)
  have hne := db_update_submissionqueue_inprog_ne_zero it.jobinfo.submid it.inprog_res
  unfold parsethread_iteration
  by_cases h1 : it.shutdown_top ≠ 0
  · rw [if_pos h1]; left; rfl
  rw [if_neg h1]
  by_cases h2 : db_ping it.ping_status_ok it.ping_reset_ok ≠ 1
  · rw [if_pos h2]; left
    by_cases h3 : threadcount ≤ 1
    · rw [if_pos h3]; rfl
    · rw [if_neg h3]; rfl
  rw [if_neg h2]
  by_cases h4 : it.len < 0 ∧ it.errno ≠ Errno.EAGAIN
  · rw [if_pos h4]; left; rfl
  rw [if_neg h4]
  by_cases h5 : it.shutdown_recv ≠ 0
  · rw [if_pos h5]; left; rfl
  rw [if_neg h5]
  by_cases h6 : it.errno ≠ Errno.EAGAIN ∧ it.len > 0
  · rw [if_pos h6]
    simp only
    rw [if_pos hne]
    right
    simp only [status_updates_append, hup, hfin, hpr]
    simp [status_updates]
  · rw [if_neg h6]; left; rfl

theorem db_get_submissionqueue_job_status_updates (q : List QueueRow) (now : Nat)
    (select_res update_res : PGresult) (job : parseJob_t) (q2 : List QueueRow)
    (evs : List Event)
    (hclaim : db_get_submissionqueue_job q now select_res update_res = (some job, q2, evs))
    (havail : job.status = jobStatus.jbAVAIL) :
    status_updates (int_of_unsigned job.submid) evs = [STAT_ASSIGNED] := by
  unfold db_get_submissionqueue_job at hclaim
  by_cases hsel : PQresultStatus select_res = ExecStatusType.PGRES_TUPLES_OK
  · simp only [hsel, ne_eq, not_true_eq_false, if_false] at hclaim
    cases hs : select_new q with
    | none =>
      simp only [hs, Prod.mk.injEq, Option.some.injEq] at hclaim
      rw [← hclaim.1] at havail
      cases havail
    | some row =>
      simp only [hs] at hclaim
      have hup := (db_update_submissionqueue_status_table_aux
        (row.submid % 4294967296).toNat STAT_ASSIGNED update_res).1 (Or.inl rfl)
      split_ifs at hclaim with hrc
      · simp at hclaim
      · simp only [Prod.mk.injEq, Option.some.injEq] at hclaim
        obtain ⟨hj, -, he⟩ := hclaim
        rw [← he, ← hj, hup]
        simp [status_updates]
  · simp [hsel] at hclaim

/-- C9: for a submission claimed by `db_get_submissionqueue_job` (descriptor
`jbAVAIL`) and handed to a worker iteration, the statuses of the UPDATE
statements sent for its submid, the claim first and the worker after it, form
a prefix of assigned (1), in_progress (2), one terminal status; they are the
single update to assigned, or assigned, in_progress and one terminal status
in that order. -/
theorem status_updates_of_claimed_job (q : List QueueRow) (now : Nat)
    (select_res update_res : PGresult) (job : parseJob_t) (q2 : List QueueRow)
    (evs : List Event) (args : threadData_t) (threadcount : Int) (it : IterEnv)
    (hclaim : db_get_submissionqueue_job q now select_res update_res = (some job, q2, evs))
    (havail : job.status = jobStatus.jbAVAIL) (hrecv : it.jobinfo = job) :
    ∃ t, is_terminal t = true
      ∧ status_updates (int_of_unsigned job.submid)
          (evs ++ (parsethread_iteration args threadcount it).2)
        <+: [STAT_ASSIGNED, STAT_INPROG, t]
      ∧ (status_updates (int_of_unsigned job.submid)
            (evs ++ (parsethread_iteration args threadcount it).2) = [STAT_ASSIGNED]
        ∨ status_updates (int_of_unsigned job.submid)
            (evs ++ (parsethread_iteration args threadcount it).2)
          = [STAT_ASSIGNED, STAT_INPROG, t]) := by
  have h1 := db_get_submissionqueue_job_status_updates q now select_res update_res job q2 evs
    hclaim havail
  obtain ⟨t, ht, h2⟩ := parsethread_iteration_status_updates args threadcount it
  rw [hrecv] at h2
  refine ⟨t, ht, ?_, ?_⟩
  · rw [status_updates_append, h1]
    rcases h2 with h2 | h2 <;> rw [h2]
    · exact ⟨[STAT_INPROG, t], rfl⟩
    · exact ⟨[], rfl⟩
  · rw [status_updates_append, h1]
    rcases h2 with h2 | h2 <;> rw [h2]
    · left; rfl
    · right; rfl

theorem status_updates_of_claimed_job_witness :
    (∃ t, is_terminal t = true
      ∧ status_updates (int_of_unsigned sample_claimed_job.submid)
          ((db_get_submissionqueue_job sample_queue 12 (some ExecStatusType.PGRES_TUPLES_OK)
              (some ExecStatusType.PGRES_COMMAND_OK)).2.2
            ++ (parsethread_iteration sample_thrdata 1 sample_iter_claimed).2)
        <+: [STAT_ASSIGNED, STAT_INPROG, t]
      ∧ (status_updates (int_of_unsigned sample_claimed_job.submid)
            ((db_get_submissionqueue_job sample_queue 12 (some ExecStatusType.PGRES_TUPLES_OK)
                (some ExecStatusType.PGRES_COMMAND_OK)).2.2
              ++ (parsethread_iteration sample_thrdata 1 sample_iter_claimed).2)
          = [STAT_ASSIGNED]
        ∨ status_updates (int_of_unsigned sample_claimed_job.submid)
            ((db_get_submissionqueue_job sample_queue 12 (some ExecStatusType.PGRES_TUPLES_OK)
                (some ExecStatusType.PGRES_COMMAND_OK)).2.2
              ++ (parsethread_iteration sample_thrdata 1 sample_iter_claimed).2)
          = [STAT_ASSIGNED, STAT_INPROG, t]))
    ∧ status_updates 7
        ((db_get_submissionqueue_job sample_queue 12 (some ExecStatusType.PGRES_TUPLES_OK)
            (some ExecStatusType.PGRES_COMMAND_OK)).2.2
          ++ (parsethread_iteration sample_thrdata 1 sample_iter_claimed).2)
      = [STAT_ASSIGNED, STAT_INPROG, STAT_SUCCESS] :=
  ⟨status_updates_of_claimed_job sample_queue 12 (some ExecStatusType.PGRES_TUPLES_OK)
      (some ExecStatusType.PGRES_COMMAND_OK) sample_claimed_job
      (db_get_submissionqueue_job sample_queue 12 (some ExecStatusType.PGRES_TUPLES_OK)
        (some ExecStatusType.PGRES_COMMAND_OK)).2.1
      (db_get_submissionqueue_job sample_queue 12 (some ExecStatusType.PGRES_TUPLES_OK)
        (some ExecStatusType.PGRES_COMMAND_OK)).2.2
      sample_thrdata 1 sample_iter_claimed (by decide) (by decide) (by decide),
    by decide⟩

/-! ## The claim marks the row -/

theorem db_get_submissionqueue_job_avail_aux (q : List QueueRow) (now : Nat)
    (select_res update_res : PGresult) (job : parseJob_t) (q2 : List QueueRow)
    (evs : List Event)
    (hclaim : db_get_submissionqueue_job q now select_res update_res = (some job, q2, evs))
    (havail : job.status = jobStatus.jbAVAIL) :
    ∃ row, select_new q = some row
      ∧ update_res = some ExecStatusType.PGRES_COMMAND_OK
      ∧ job.submid = (row.submid % 4294967296).toNat
      ∧ q2 = q.map (update_row STAT_ASSIGNED Stamp.nostamp (int_of_unsigned job.submid) now)
      ∧ evs = [Event.mutex_lock_submq, Event.PQexec (SqlCmd.SELECT_NEW STAT_NEW) select_res,
          Event.PQexec (SqlCmd.UPDATE_QUEUE STAT_ASSIGNED Stamp.nostamp
            (int_of_unsigned job.submid)) (some ExecStatusType.PGRES_COMMAND_OK),
          Event.mutex_unlock_submq] := by
  unfold db_get_submissionqueue_job at hclaim
  by_cases hsel : PQresultStatus select_res = ExecStatusType.PGRES_TUPLES_OK
  · simp only [hsel, ne_eq, not_true_eq_false, if_false] at hclaim
    cases hs : select_new q with
    | none =>
      simp only [hs, Prod.mk.injEq, Option.some.injEq] at hclaim
      rw [← hclaim.1] at havail
      cases havail
    | some row =>
      simp only [hs] at hclaim
      refine ⟨row, rfl, ?_⟩
      cases update_res with
      | none =>
        simp [db_update_submissionqueue, db_update_submissionqueue_sql] at hclaim
      | some st =>
        by_cases hst : st = ExecStatusType.PGRES_COMMAND_OK
        · subst hst
          simp only [db_update_submissionqueue, db_update_submissionqueue_sql, true_or,
            if_true, ne_eq, not_true_eq_false, if_false, run_on_queue, exec_on_queue,
            Prod.mk.injEq, Option.some.injEq] at hclaim
          rw [if_neg (by decide)] at hclaim
          simp only [Prod.mk.injEq, Option.some.injEq] at hclaim
          obtain ⟨hj, hq2, he⟩ := hclaim
          subst hj
          exact ⟨rfl, rfl, hq2.symm, he.symm⟩
        · simp [db_update_submissionqueue, db_update_submissionqueue_sql, hst] at hclaim
  · simp [hsel] at hclaim

theorem to_int32_of_range (v : Int) (h1 : -2147483648 ≤ v) (h2 : v < 2147483648) :
    int_of_unsigned (v % 4294967296).toNat = v := by
  unfold int_of_unsigned to_int32
  have hnn : 0 ≤ v % 4294967296 := Int.emod_nonneg v (by decide)
  rw [Int.toNat_of_nonneg hnn]
  simp only [Int.emod_emod_of_dvd v (dvd_refl (4294967296 : Int))]
  split_ifs with h <;> omega

theorem update_row_submid (status : Int) (stamp : Stamp) (k : Int) (now : Nat) (r : QueueRow) :
    (update_row status stamp k now r).submid = r.submid := by
  unfold update_row
  split_ifs
  · cases stamp <;> rfl
  · rfl

theorem update_row_status (status : Int) (stamp : Stamp) (k : Int) (now : Nat) (r : QueueRow)
    (h : r.submid = k) : (update_row status stamp k now r).status = status := by
  unfold update_row
  rw [if_pos h]
  cases stamp <;> rfl

theorem update_row_of_ne (status : Int) (stamp : Stamp) (k : Int) (now : Nat) (r : QueueRow)
    (h : r.submid ≠ k) : update_row status stamp k now r = r := by
  unfold update_row
  rw [if_neg h]

theorem select_new_after_update (q : List QueueRow) (stamp : Stamp) (k : Int) (now : Nat)
    (row2 : QueueRow)
    (h : select_new (q.map (update_row STAT_ASSIGNED stamp k now)) = some row2) :
    row2 ∈ q ∧ row2.submid ≠ k := by
  obtain ⟨hmem, hst, -⟩ := select_new_some _ row2 h
  obtain ⟨r0, hr0, heq⟩ := List.mem_map.mp hmem
  by_cases hk : r0.submid = k
  · have := update_row_status STAT_ASSIGNED stamp k now r0 hk
    rw [heq, hst] at this
    exact absurd this (by decide)
  · rw [update_row_of_ne _ _ _ _ _ hk] at heq
    subst heq
    exact ⟨hr0, hk⟩

/-- C11: with a submid column of 32-bit integers, whenever
`db_get_submissionqueue_job` returns a `jbAVAIL` descriptor, the UPDATE of
that row to assigned (1) was sent and accepted between locking and unlocking
the claim mutex, every row with that submid has status assigned afterwards,
and a claim made on the resulting table never returns the same submid; if the
server does not accept the UPDATE, the function returns NULL instead of the
job. -/
theorem db_get_submissionqueue_job_marks_assigned (q : List QueueRow) (now : Nat)
    (select_res update_res : PGresult)
    (hq : ∀ r ∈ q, -2147483648 ≤ r.submid ∧ r.submid < 2147483648) :
    (∀ (job : parseJob_t) (q2 : List QueueRow) (evs : List Event),
      db_get_submissionqueue_job q now select_res update_res = (some job, q2, evs) →
      job.status = jobStatus.jbAVAIL →
      ∃ row ∈ q, row.status = STAT_NEW
        ∧ int_of_unsigned job.submid = row.submid
        ∧ evs = [Event.mutex_lock_submq,
            Event.PQexec (SqlCmd.SELECT_NEW STAT_NEW) select_res,
            Event.PQexec (SqlCmd.UPDATE_QUEUE STAT_ASSIGNED Stamp.nostamp row.submid)
              (some ExecStatusType.PGRES_COMMAND_OK),
            Event.mutex_unlock_submq]
        ∧ (∀ r ∈ q2, r.submid = row.submid → r.status = STAT_ASSIGNED)
        ∧ (∀ (now2 : Nat) (s2 u2 : PGresult) (job2 : parseJob_t) (q3 : List QueueRow)
            (evs2 : List Event),
            db_get_submissionqueue_job q2 now2 s2 u2 = (some job2, q3, evs2) →
            job2.status = jobStatus.jbAVAIL → job2.submid ≠ job.submid))
    ∧ ((∃ r ∈ q, r.status = STAT_NEW) →
      PQresultStatus select_res = ExecStatusType.PGRES_TUPLES_OK →
      update_res ≠ some ExecStatusType.PGRES_COMMAND_OK →
      (db_get_submissionqueue_job q now select_res update_res).1 = none) := by
  refine ⟨?_, ?_⟩
  · intro job q2 evs hclaim havail
    obtain ⟨row, hs, -, hj, hq2, he⟩ :=
      db_get_submissionqueue_job_avail_aux q now select_res update_res job q2 evs hclaim havail
    obtain ⟨hmem, hst, -⟩ := select_new_some q row hs
    have hkey : int_of_unsigned job.submid = row.submid := by
      rw [hj]
      exact to_int32_of_range row.submid (hq row hmem).1 (hq row hmem).2
    refine ⟨row, hmem, hst, hkey, by rw [he, hkey], ?_, ?_⟩
    · intro r hr hrs
      rw [hq2] at hr
      obtain ⟨r0, -, heq⟩ := List.mem_map.mp hr
      rw [← heq] at hrs ⊢
      rw [update_row_submid] at hrs
      exact update_row_status _ _ _ _ _ (by rw [hkey]; exact hrs)
    · intro now2 s2 u2 job2 q3 evs2 hclaim2 havail2
      obtain ⟨row2, hs2, -, hj2, -, -⟩ :=
        db_get_submissionqueue_job_avail_aux q2 now2 s2 u2 job2 q3 evs2 hclaim2 havail2
      rw [hq2, hkey] at hs2
      obtain ⟨hmem2, hne⟩ := select_new_after_update q Stamp.nostamp row.submid now row2 hs2
      intro heq
      apply hne
      have h1 := to_int32_of_range row.submid (hq row hmem).1 (hq row hmem).2
      have h2 := to_int32_of_range row2.submid (hq row2 hmem2).1 (hq row2 hmem2).2
      rw [← h2, ← h1, ← hj, ← hj2, heq]
  · intro hex hsel hupd
    cases hs : select_new q with
    | none =>
      obtain ⟨r, hr, hrs⟩ := hex
      exact absurd hrs ((select_new_eq_none q).mp hs r hr)
    | some row =>
      have hrc : (db_update_submissionqueue (row.submid % 4294967296).toNat STAT_ASSIGNED
          update_res).1 = -1 := by
        cases update_res with
        | none => simp [db_update_submissionqueue, db_update_submissionqueue_sql]
        | some st =>
          have hst : st ≠ ExecStatusType.PGRES_COMMAND_OK := fun h => hupd (by rw [h])
          simp [db_update_submissionqueue, db_update_submissionqueue_sql, hst]
      unfold db_get_submissionqueue_job
      simp only [hsel, ne_eq, not_true_eq_false, if_false, hs, hrc]
      rw [if_pos (by decide)]

theorem db_get_submissionqueue_job_marks_assigned_witness :
    (∃ row ∈ sample_queue, row.status = STAT_NEW
      ∧ int_of_unsigned sample_claimed_job.submid = row.submid
      ∧ (∀ r ∈ (db_get_submissionqueue_job sample_queue 12
            (some ExecStatusType.PGRES_TUPLES_OK)
            (some ExecStatusType.PGRES_COMMAND_OK)).2.1,
          r.submid = row.submid → r.status = STAT_ASSIGNED))
    ∧ (db_get_submissionqueue_job sample_queue 12 (some ExecStatusType.PGRES_TUPLES_OK)
        none).1 = none := by
  have hA := (db_get_submissionqueue_job_marks_assigned sample_queue 12
    (some ExecStatusType.PGRES_TUPLES_OK) (some ExecStatusType.PGRES_COMMAND_OK)
    (by decide)).1 sample_claimed_job
      (db_get_submissionqueue_job sample_queue 12 (some ExecStatusType.PGRES_TUPLES_OK)
        (some ExecStatusType.PGRES_COMMAND_OK)).2.1
      (db_get_submissionqueue_job sample_queue 12 (some ExecStatusType.PGRES_TUPLES_OK)
        (some ExecStatusType.PGRES_COMMAND_OK)).2.2
      (by decide) (by decide)
  have hB := (db_get_submissionqueue_job_marks_assigned sample_queue 12
    (some ExecStatusType.PGRES_TUPLES_OK) none (by decide)).2
      ⟨_, List.mem_cons_of_mem _ (List.mem_cons_self _ _), rfl⟩ rfl (by decide)
  obtain ⟨row, hmem, hst, hkey, -, hrows, -⟩ := hA
  exact ⟨⟨row, hmem, hst, hkey, hrows⟩, hB⟩

/-! ## The prepared INSERT statement -/

theorem join_commas_concat (l : List cstr) (x : cstr) (h : l ≠ []) :
    join_commas (l ++ [x]) = join_commas l ++ ",".toList ++ x := by
  induction l with
  | nil => exact absurd rfl h
  | cons a t ih =>
    cases t with
    | nil => simp [join_commas]
    | cons b r =>
      have := ih (List.cons_ne_nil b r)
      show a ++ ",".toList ++ join_commas (b :: r ++ [x])
        = a ++ ",".toList ++ join_commas (b :: r) ++ ",".toList ++ x
      rw [this]
      simp only [List.append_assoc]

theorem pgsql_INSERT_placeholder_length (i : Nat) : (pgsql_INSERT_placeholder i).length ≤ 5 := by
  unfold pgsql_INSERT_placeholder
  simp only [List.length_take]
  omega

theorem pgsql_INSERT_placeholder_eq (i : Nat) (h : i + 1 ≤ 9999) :
    pgsql_INSERT_placeholder i = "$".toList ++ (Nat.repr (i + 1)).toList := by
  unfold pgsql_INSERT_placeholder
  rw [int_of_unsigned_of_lt (i + 1) (by omega)]
  have hfmt : fmt_i ((i + 1 : Nat) : Int) = Nat.repr (i + 1) := rfl
  rw [hfmt]
  have hlen : (Nat.repr (i + 1)).length ≤ 4 :=
    Nat.repr_length (i + 1) 4 (by decide) (by norm_num; omega)
  apply List.take_of_length_le
  have : (Nat.repr (i + 1)).toList.length = (Nat.repr (i + 1)).length := rfl
  simp only [List.length_append, this]
  have h1 : "$".toList.length = 1 := rfl
  omega

theorem pgsql_INSERT_build_eq (fieldcnt : Nat) (names : List cstr) :
    ∀ (i : Nat) (fields values : cstr), i + names.length = fieldcnt →
      values.length ≤ 1 + 6 * i →
      pgsql_INSERT_build fieldcnt (names.map some) i (fields, values)
        = some (fields ++ join_commas names,
            values ++ join_commas ((List.range' i names.length).map pgsql_INSERT_placeholder)) := by
  induction names with
  | nil =>
    intro i fields values _ _
    simp [pgsql_INSERT_build, join_commas]
  | cons f rest ih =>
    intro i fields values hi hv
    have hph := pgsql_INSERT_placeholder_length i
    simp only [List.length_cons] at hi
    have happ : append_str values (pgsql_INSERT_placeholder i) (6 * fieldcnt)
        = values ++ pgsql_INSERT_placeholder i := by
      unfold append_str
      rw [if_pos (by omega)]
      rw [List.take_of_length_le (by omega)]
    simp only [List.map_cons, pgsql_INSERT_build, happ]
    cases rest with
    | nil =>
      simp only [List.length_nil] at hi
      rw [if_neg (by omega)]
      simp [pgsql_INSERT_build, join_commas, List.range']
    | cons y r =>
      simp only [List.length_cons] at hi
      rw [if_pos (by omega)]
      have := ih (i + 1) (fields ++ f ++ ",".toList)
        (values ++ pgsql_INSERT_placeholder i ++ ",".toList)
        (by simp only [List.length_cons]; omega)
        (by
          simp only [List.length_append]
          have : ",".toList.length = 1 := rfl
          omega)
      rw [this]
      simp only [List.length_cons, List.range', List.map_cons, join_commas, List.append_assoc]

theorem pgsql_INSERT_sql_eq (table : cstr) (names : List cstr) (key : Option cstr) :
    pgsql_INSERT_sql table (names.map some) key
      = some ("INSERT INTO ".toList ++ table ++ " (".toList ++ join_commas names
          ++ ") VALUES (".toList
          ++ join_commas ((List.range' 0 names.length).map pgsql_INSERT_placeholder)
          ++ ")".toList
          ++ (match key with
              | none => []
              | some k => " RETURNING ".toList ++ k)) := by
  unfold pgsql_INSERT_sql
  rw [List.length_map,
    pgsql_INSERT_build_eq names.length names 0 "(".toList "(".toList (by omega) (by decide)]
  cases key <;> simp [List.append_assoc]

theorem pgsql_INSERT_sql_eq_spec (table : cstr) (names : List cstr) (key : Option cstr)
    (h : names.length ≤ 9999) :
    pgsql_INSERT_sql table (names.map some) key = some (spec_INSERT_sql table names key) := by
  rw [pgsql_INSERT_sql_eq]
  have hmap : (List.range' 0 names.length).map pgsql_INSERT_placeholder
      = spec_placeholders names.length := by
    unfold spec_placeholders
    apply List.map_congr_left
    intro i hi
    have := (List.mem_range'_1.mp hi).2
    exact pgsql_INSERT_placeholder_eq i (by omega)
  rw [hmap]
  rfl

theorem pgsql_INSERT_records_events (lib : Libs) (key : Option cstr) (fieldcnt : Nat)
    (field_idx : List Nat) (exec : Nat → ExecAnswer) (recs : List xmlNode) :
    ∀ (n : Nat) (res : List eurephiaVALUES) (evs : List Event),
      ∃ t, (pgsql_INSERT_records lib key fieldcnt field_idx exec recs n res evs).2 = evs ++ t
        ∧ t.all Event.is_exec_prepared = true := by
  induction recs with
  | nil =>
    intro n res evs
    exact ⟨[], by simp [pgsql_INSERT_records], rfl⟩
  | cons ptr_n rest ih =>
    intro n res evs
    unfold pgsql_INSERT_records
    by_cases h1 : ptr_n.type ≠ xmlElementType.XML_ELEMENT_NODE
    · rw [if_pos h1]
      exact ih n res evs
    · rw [if_neg h1]
      cases hv : pgsql_INSERT_values lib fieldcnt field_idx ptr_n.name ptr_n.children 0
          (List.replicate fieldcnt none) with
      | none => exact ⟨[], by simp, rfl⟩
      | some value_ar =>
        simp only
        by_cases h2 : PQresultStatus (exec n).dbres ≠
            (if key.isSome then ExecStatusType.PGRES_TUPLES_OK
              else ExecStatusType.PGRES_COMMAND_OK)
        · rw [if_pos h2]
          exact ⟨[Event.PQexecPrepared value_ar (exec n).dbres], rfl, rfl⟩
        · rw [if_neg h2]
          cases key with
          | some k =>
            obtain ⟨t, ht, hall⟩ := ih (n + 1) (eAdd_value res (some k) (some (exec n).value))
              (evs ++ [Event.PQexecPrepared value_ar (exec n).dbres])
            refine ⟨Event.PQexecPrepared value_ar (exec n).dbres :: t, ?_, ?_⟩
            · simp only [ht, List.append_assoc, List.singleton_append]
            · simp only [List.all_cons, hall, Event.is_exec_prepared, Bool.and_self]
          | none =>
            obtain ⟨t, ht, hall⟩ := ih (n + 1)
              (eAdd_value res (some "oid".toList) (some (fmt_i ((exec n).oid : Int)).toList))
              (evs ++ [Event.PQexecPrepared value_ar (exec n).dbres])
            refine ⟨Event.PQexecPrepared value_ar (exec n).dbres :: t, ?_, ?_⟩
            · simp only [ht, List.append_assoc, List.singleton_append]
            · simp only [List.all_cons, hall, Event.is_exec_prepared, Bool.and_self]

theorem pgsql_INSERT_of_accepted (lib : Libs) (sqlschemaver : Nat) (root_n : xmlNode)
    (env : InsertEnv) (table : cstr) (fields_n recs_n : xmlNode)
    (hacc : sqldata_accepted sqlschemaver root_n table fields_n recs_n) :
    pgsql_INSERT lib sqlschemaver (some root_n) env =
      match pgsql_INSERT_sql table (pgsql_INSERT_field_ar fields_n)
          (xmlGetAttrValue root_n.properties "key".toList) with
      | none => (InsertResult.undefined, [])
      | some sql =>
        if PQresultStatus env.prepare_res ≠ ExecStatusType.PGRES_COMMAND_OK then
          (InsertResult.null,
            [Event.PQprepare sql (element_children fields_n).length env.prepare_res])
        else
          pgsql_INSERT_records lib (xmlGetAttrValue root_n.properties "key".toList)
            (element_children fields_n).length (pgsql_INSERT_field_idx fields_n) env.exec
            recs_n.children 0 (eCreate_value_space 1)
            [Event.PQprepare sql (element_children fields_n).length env.prepare_res] := by
  unfold pgsql_INSERT
  simp only [hacc.root, ne_eq, not_true_eq_false, if_false, hacc.table, hacc.ver_min,
    hacc.ver_max, hacc.fields, hacc.records]

/-- C12 (amended): for an accepted insertion plan with table t, declared
field names f1..fn in declaration order, n at most 9999, and optional key k,
the first call `pgsql_INSERT` makes is `PQprepare` with n parameters of exactly
the statement `INSERT INTO t (f1,...,fn) VALUES ($1,...,$n)`, followed by
` RETURNING k` if and only if the key attribute is present. -/
theorem pgsql_INSERT_prepares_statement (lib : Libs) (sqlschemaver : Nat) (root_n : xmlNode)
    (env : InsertEnv) (table : cstr) (fields_n recs_n : xmlNode) (names : List cstr)
    (hacc : sqldata_accepted sqlschemaver root_n table fields_n recs_n)
    (hnames : pgsql_INSERT_field_ar fields_n = names.map some)
    (hmax : names.length ≤ 9999) :
    (pgsql_INSERT lib sqlschemaver (some root_n) env).2.head?
      = some (Event.PQprepare
          (spec_INSERT_sql table names (xmlGetAttrValue root_n.properties "key".toList))
          names.length env.prepare_res)
    ∧ spec_INSERT_sql table names none
      = "INSERT INTO ".toList ++ table ++ " (".toList ++ join_commas names
          ++ ") VALUES (".toList ++ join_commas (spec_placeholders names.length) ++ ")".toList
    ∧ (∀ k, spec_INSERT_sql table names (some k)
      = "INSERT INTO ".toList ++ table ++ " (".toList ++ join_commas names
          ++ ") VALUES (".toList ++ join_commas (spec_placeholders names.length) ++ ")".toList
          ++ " RETURNING ".toList ++ k) := by
  refine ⟨?_, by simp [spec_INSERT_sql], fun k => by simp [spec_INSERT_sql]⟩
  have hcnt : (element_children fields_n).length = names.length := by
    have := congrArg List.length hnames
    simpa [pgsql_INSERT_field_ar] using this
  rw [pgsql_INSERT_of_accepted lib sqlschemaver root_n env table fields_n recs_n hacc, hnames,
    pgsql_INSERT_sql_eq_spec table names _ hmax, hcnt]
  simp only
  by_cases hp : PQresultStatus env.prepare_res ≠ ExecStatusType.PGRES_COMMAND_OK
  · rw [if_pos hp]
    rfl
  · rw [if_neg hp]
    obtain ⟨t, ht, -⟩ := pgsql_INSERT_records_events lib
      (xmlGetAttrValue root_n.properties "key".toList) names.length
      (pgsql_INSERT_field_idx fields_n) env.exec recs_n.children 0 (eCreate_value_space 1)
      [Event.PQprepare
        (spec_INSERT_sql table names (xmlGetAttrValue root_n.properties "key".toList))
        names.length env.prepare_res]
    rw [ht]
    rfl

theorem pgsql_INSERT_prepares_statement_witness :
    (pgsql_INSERT sample_libs 100 (some (sample_plan [sample_record_ordered]))
        sample_insert_env).2.head?
      = some (Event.PQprepare "INSERT INTO t (a,b) VALUES ($1,$2) RETURNING k".toList 2
          (some ExecStatusType.PGRES_COMMAND_OK)) :=
  (pgsql_INSERT_prepares_statement sample_libs 100 (sample_plan [sample_record_ordered])
    sample_insert_env "t".toList sample_fields
    (xml_element "records" [] [sample_record_ordered]) ["a".toList, "b".toList]
    ⟨by decide, by decide, by decide, by decide, rfl, rfl⟩ rfl (by decide)).1

theorem sample_plan_wide_accepted (n : Nat) :
    sqldata_accepted 100 (sample_plan_wide n) "t".toList (sample_fields_wide n)
      (xml_element "records" [] []) := by
  have h : sqldataGetRequiredSchemaVer true (some (sample_plan_wide n)) = 100 := rfl
  exact ⟨rfl, rfl, by rw [h]; decide, by rw [h]; decide, rfl, rfl⟩

theorem sample_fields_wide_names (n : Nat) :
    pgsql_INSERT_field_ar (sample_fields_wide n) = (List.replicate n "f".toList).map some := by
  simp [pgsql_INSERT_field_ar, element_children, sample_fields_wide, xml_element,
    xmlNode.children, sample_field, xmlNode.type, xmlExtractContent, xml_text, xmlNode.content]

theorem sample_plan_wide_prepare (n : Nat) :
    (pgsql_INSERT sample_libs 100 (some (sample_plan_wide n)) sample_insert_env).2.head?
      = some (Event.PQprepare
          ("INSERT INTO ".toList ++ ("t".toList ++ (" (".toList
            ++ (join_commas (List.replicate n "f".toList) ++ (") VALUES (".toList
            ++ (join_commas ((List.range' 0 n).map pgsql_INSERT_placeholder)
            ++ ")".toList))))))
          n (some ExecStatusType.PGRES_COMMAND_OK)) := by
  have hcnt : (element_children (sample_fields_wide n)).length = n := by
    simp [element_children, sample_fields_wide, xml_element, xmlNode.children, sample_field,
      xmlNode.type]
  rw [pgsql_INSERT_of_accepted sample_libs 100 (sample_plan_wide n) sample_insert_env
    "t".toList _ _ (sample_plan_wide_accepted n), sample_fields_wide_names, pgsql_INSERT_sql_eq,
    hcnt]
  have hkey : xmlGetAttrValue (sample_plan_wide n).properties "key".toList = none := rfl
  simp only [hkey, List.length_replicate]
  simp [sample_insert_env, PQresultStatus, pgsql_INSERT_records, xml_element, xmlNode.children]

theorem spec_INSERT_sql_wide (n : Nat) :
    spec_INSERT_sql "t".toList (List.replicate n "f".toList) none
      = "INSERT INTO ".toList ++ ("t".toList ++ (" (".toList
          ++ (join_commas (List.replicate n "f".toList) ++ (") VALUES (".toList
          ++ (join_commas (spec_placeholders n) ++ ")".toList))))) := by
  simp [spec_INSERT_sql]

theorem placeholders_wide (n : Nat) (h : n ≤ 9999) :
    join_commas ((List.range' 0 (n + 1)).map pgsql_INSERT_placeholder)
        = join_commas (spec_placeholders (n + 1)) →
      pgsql_INSERT_placeholder n = "$".toList ++ (Nat.repr (n + 1)).toList := by
  intro heq
  have h2 : (List.range' 0 n).map pgsql_INSERT_placeholder = spec_placeholders n := by
    unfold spec_placeholders
    apply List.map_congr_left
    intro i hi
    have := (List.mem_range'_1.mp hi).2
    exact pgsql_INSERT_placeholder_eq i (by omega)
  rw [List.range'_1_concat, List.map_append, h2] at heq
  have h3 : spec_placeholders (n + 1)
      = spec_placeholders n ++ ["$".toList ++ (Nat.repr (n + 1)).toList] := by
    unfold spec_placeholders
    rw [List.range'_1_concat, List.map_append]
    simp
  rw [h3] at heq
  by_cases hn : spec_placeholders n = []
  · rw [hn] at heq
    simpa [join_commas] using heq
  · rw [List.map_singleton, join_commas_concat _ _ hn, join_commas_concat _ _ hn] at heq
    simpa using List.append_cancel_left heq

/-- C12 (the claim as stated fails): the place holder is written with
`snprintf(tmp, 6, ..)`, which keeps five bytes.  For a plan with 10000 fields
the last place holder of the prepared statement is `$1000`, not `$10000`. -/
theorem pgsql_INSERT_placeholder_cut :
    (pgsql_INSERT sample_libs 100 (some (sample_plan_wide 10000)) sample_insert_env).2.head?
      ≠ some (Event.PQprepare
          (spec_INSERT_sql "t".toList (List.replicate 10000 "f".toList) none) 10000
          (some ExecStatusType.PGRES_COMMAND_OK))
    ∧ pgsql_INSERT_placeholder 9999 = "$1000".toList := by
  refine ⟨?_, by decide⟩
  rw [sample_plan_wide_prepare, spec_INSERT_sql_wide]
  intro h
  simp only [Option.some.injEq, Event.PQprepare.injEq, and_true] at h
  have h4 := List.append_cancel_right (List.append_cancel_left (List.append_cancel_left
    (List.append_cancel_left (List.append_cancel_left (List.append_cancel_left h)))))
  have h5 := placeholders_wide 9999 (le_refl _) h4
  exact absurd h5 (by decide)

/-! ## The arguments of a record -/

/-- C13 (code defect): `pgsql_INSERT` stores the i-th value node of a record
at `value_ar[field_idx[i]]`; the fid of the value node is read and tested for
being non-negative, but never used to find the position.  With the fields a
(fid 0) and b (fid 1) declared and a record whose cells come as fid 1 = B, then
fid 0 = A, the statement is executed with $1 = B and $2 = A, where the cell
with the fid of the first field holds A.  With the same fields numbered 1 and
2 the second cell is written outside `value_ar`. -/
theorem pgsql_INSERT_arguments_follow_cell_order :
    pgsql_INSERT sample_libs 100 (some (sample_plan [sample_record_swapped])) sample_insert_env
      = (InsertResult.values
          [{ evgid := 1, evid := 0, key := some "k".toList, val := some "17".toList }],
        [Event.PQprepare "INSERT INTO t (a,b) VALUES ($1,$2) RETURNING k".toList 2
            (some ExecStatusType.PGRES_COMMAND_OK),
          Event.PQexecPrepared [some "B".toList, some "A".toList]
            (some ExecStatusType.PGRES_TUPLES_OK)])
    ∧ (pgsql_INSERT sample_libs 100 (some (sample_plan [sample_record_ordered]))
        sample_insert_env).2
      = [Event.PQprepare "INSERT INTO t (a,b) VALUES ($1,$2) RETURNING k".toList 2
            (some ExecStatusType.PGRES_COMMAND_OK),
          Event.PQexecPrepared [some "A".toList, some "B".toList]
            (some ExecStatusType.PGRES_TUPLES_OK)]
    ∧ pgsql_INSERT sample_libs 100 (some sample_plan_fids_from_one) sample_insert_env
      = (InsertResult.undefined,
        [Event.PQprepare "INSERT INTO t (a,b) VALUES ($1,$2) RETURNING k".toList 2
            (some ExecStatusType.PGRES_COMMAND_OK)]) := by
  refine ⟨by decide, by decide, by decide⟩


/-! ## The schema version gate -/

theorem to_int32_range (v : Int) : -2147483648 ≤ to_int32 v ∧ to_int32 v < 2147483648 := by
  unfold to_int32
  have h1 : 0 ≤ v % 4294967296 := Int.emod_nonneg v (by decide)
  have h2 : v % 4294967296 < 4294967296 := Int.emod_lt_of_pos v (by decide)
  simp only
  split_ifs with h <;> omega

theorem sqldataGetRequiredSchemaVer_range (initialised : Bool) (root : Option xmlNode) :
    -2147483648 ≤ sqldataGetRequiredSchemaVer initialised root
      ∧ sqldataGetRequiredSchemaVer initialised root < 2147483648 := by
  unfold sqldataGetRequiredSchemaVer
  cases initialised with
  | false => simp
  | true =>
    cases root with
    | none => simp
    | some root_n =>
      simp only [Bool.not_true, Bool.false_eq_true, if_false]
      by_cases hn : root_n.name ≠ "sqldata".toList
      · rw [if_pos hn]
        decide
      · rw [if_neg hn]
        cases xmlGetAttrValue root_n.properties "schemaver".toList with
        | none => decide
        | some schver =>
          simp only
          by_cases hd : schver.contains '.' = true
          · rw [if_pos hd]
            exact to_int32_range _
          · rw [if_neg hd]
            exact to_int32_range _

theorem takeWhile_before_dot (maj rest : cstr) (h : '.' ∉ maj) :
    (maj ++ '.' :: rest).takeWhile (fun c => decide (c ≠ '.')) = maj
      ∧ ((maj ++ '.' :: rest).dropWhile (fun c => decide (c ≠ '.'))).drop 1 = rest := by
  induction maj with
  | nil => simp
  | cons c cs ih =>
    have hc : c ≠ '.' := fun e => h (by simp [e])
    have hcs : '.' ∉ cs := fun e => h (by simp [e])
    obtain ⟨i1, i2⟩ := ih hcs
    have hd : decide (c ≠ '.') = true := by simp [hc]
    constructor
    · rw [List.cons_append, List.takeWhile_cons, if_pos hd, i1]
    · rw [List.cons_append, List.dropWhile_cons, if_pos hd, i2]

theorem sqldataGetRequiredSchemaVer_of_pos (root_n : xmlNode)
    (h : 0 ≤ sqldataGetRequiredSchemaVer true (some root_n)) :
    root_n.name = "sqldata".toList := by
  by_contra hn
  have : sqldataGetRequiredSchemaVer true (some root_n) = -1 := by
    unfold sqldataGetRequiredSchemaVer
    simp only [Bool.not_true, Bool.false_eq_true, if_false]
    rw [if_pos hn]
  omega

/-- C14: whenever the required schema version of a plan is greater than the
schema version of the gateway connection, `pgsql_INSERT` returns NULL and has
called neither `PQprepare` nor `PQexecPrepared` (it has made no call at all).
The required version is read from the schemaver attribute of the root: 100
when the attribute is absent, major*100 + minor for `major.minor`, and
major*100 + 0 when the attribute holds no dot. -/
theorem pgsql_INSERT_rejects_newer_schema (lib : Libs) (sqlschemaver : Nat) (root_n : xmlNode)
    (env : InsertEnv)
    (h : (sqlschemaver : Int) < sqldataGetRequiredSchemaVer true (some root_n)) :
    pgsql_INSERT lib sqlschemaver (some root_n) env = (InsertResult.null, [])
    ∧ (xmlGetAttrValue root_n.properties "schemaver".toList = none →
        sqldataGetRequiredSchemaVer true (some root_n) = 100)
    ∧ (∀ maj min : cstr, '.' ∉ maj →
        xmlGetAttrValue root_n.properties "schemaver".toList = some (maj ++ '.' :: min) →
        sqldataGetRequiredSchemaVer true (some root_n) = to_int32 (atoi maj * 100 + atoi min))
    ∧ (∀ maj : cstr, '.' ∉ maj →
        xmlGetAttrValue root_n.properties "schemaver".toList = some maj →
        sqldataGetRequiredSchemaVer true (some root_n) = to_int32 (atoi maj * 100 + 0)) := by
  have hname : root_n.name = "sqldata".toList :=
    sqldataGetRequiredSchemaVer_of_pos root_n (by omega)
  have hrange := sqldataGetRequiredSchemaVer_range true (some root_n)
  refine ⟨?_, ?_, ?_, ?_⟩
  · have hgt : ((sqldataGetRequiredSchemaVer true (some root_n)) % 4294967296).toNat
        > sqlschemaver := by
      have e : (sqldataGetRequiredSchemaVer true (some root_n)) % 4294967296
          = sqldataGetRequiredSchemaVer true (some root_n) :=
        Int.emod_eq_of_lt (by omega) (by omega)
      rw [e]
      omega
    unfold pgsql_INSERT
    simp only [hname, ne_eq, not_true_eq_false, if_false]
    cases xmlGetAttrValue root_n.properties "table".toList with
    | none => rfl
    | some table =>
      simp only
      by_cases h100 : ((sqldataGetRequiredSchemaVer true (some root_n)) % 4294967296).toNat < 100
      · rw [if_pos h100]
      · rw [if_neg h100, if_pos hgt]
  · intro hv
    unfold sqldataGetRequiredSchemaVer
    simp only [Bool.not_true, Bool.false_eq_true, if_false, hname, ne_eq, not_true_eq_false, hv]
  · intro maj min hdot hv
    unfold sqldataGetRequiredSchemaVer
    have hc : (maj ++ '.' :: min).contains '.' = true := by simp
    obtain ⟨e1, e2⟩ := takeWhile_before_dot maj min hdot
    simp only [Bool.not_true, Bool.false_eq_true, if_false, hname, ne_eq, not_true_eq_false, hv,
      hc, if_true]
    rw [e1, e2]
  · intro maj hdot hv
    unfold sqldataGetRequiredSchemaVer
    have hc : ¬ (maj.contains '.' = true) := by simpa using hdot
    simp only [Bool.not_true, Bool.false_eq_true, if_false, hname, ne_eq, not_true_eq_false, hv]
    rw [if_neg hc]

theorem pgsql_INSERT_rejects_newer_schema_witness :
    (100 : Int) < sqldataGetRequiredSchemaVer true (some sample_plan_v102)
    ∧ sqldataGetRequiredSchemaVer true (some sample_plan_v102) = 102
    ∧ pgsql_INSERT sample_libs 100 (some sample_plan_v102) sample_insert_env
        = (InsertResult.null, []) :=
  ⟨by decide, by decide,
    (pgsql_INSERT_rejects_newer_schema sample_libs 100 sample_plan_v102 sample_insert_env
      (by decide)).1⟩


/-! ## The result list of an insertion -/

theorem eAdd_value_header (g : Nat) (k v : Option cstr) :
    eAdd_value (eCreate_value_space g) k v = [{ evgid := g, evid := 0, key := k, val := v }] := by
  simp [eAdd_value, eCreate_value_space, eAdd_valuestruct]

theorem eAdd_value_append (hd : eurephiaVALUES) (tl : List eurephiaVALUES) (k v : Option cstr)
    (h : hd.key ≠ none) :
    ∃ x : eurephiaVALUES, eAdd_value (hd :: tl) k v = hd :: (tl ++ [x]) ∧ x.entry = (k, v) := by
  refine ⟨{ evgid := ((hd :: tl).getLast (List.cons_ne_nil hd tl)).evgid,
            evid := eAdd_valuestruct_vid tl 0 + 1, key := k, val := v }, ?_, rfl⟩
  unfold eAdd_value eAdd_valuestruct
  have hc : ¬ (hd.key = none ∧ hd.val = none ∧ tl = [] ∧ hd.evid = 0) := fun c => h c.1
  simp only
  rw [if_neg hc]
  rfl

theorem eAdd_value_foldl (es : List (Option cstr × Option cstr)) :
    ∀ (hd : eurephiaVALUES) (tl : List eurephiaVALUES), hd.key ≠ none →
      (es.foldl (fun acc e => eAdd_value acc e.1 e.2) (hd :: tl)).map eurephiaVALUES.entry
        = (hd :: tl).map eurephiaVALUES.entry ++ es := by
  induction es with
  | nil => intro hd tl _; simp
  | cons e rest ih =>
    intro hd tl h
    obtain ⟨x, hx, hxe⟩ := eAdd_value_append hd tl e.1 e.2 h
    rw [List.foldl_cons, hx, ih hd (tl ++ [x]) h]
    simp [hxe]

theorem pgsql_INSERT_records_values (lib : Libs) (key : Option cstr) (fieldcnt : Nat)
    (field_idx : List Nat) (exec : Nat → ExecAnswer) (recs : List xmlNode) :
    ∀ (n : Nat) (res : List eurephiaVALUES) (evs : List Event) (l : List eurephiaVALUES),
      (pgsql_INSERT_records lib key fieldcnt field_idx exec recs n res evs).1
          = InsertResult.values l →
      l = ((List.range' n
              (recs.filter
                (fun c => decide (c.type = xmlElementType.XML_ELEMENT_NODE))).length).map
            (fun j => result_entry key (exec j))).foldl
            (fun acc e => eAdd_value acc e.1 e.2) res := by
  induction recs with
  | nil =>
    intro n res evs l h
    simp only [pgsql_INSERT_records, InsertResult.values.injEq] at h
    simp [h]
  | cons ptr_n rest ih =>
    intro n res evs l h
    unfold pgsql_INSERT_records at h
    by_cases h1 : ptr_n.type ≠ xmlElementType.XML_ELEMENT_NODE
    · rw [if_pos h1] at h
      have hf : (ptr_n :: rest).filter
          (fun c => decide (c.type = xmlElementType.XML_ELEMENT_NODE))
          = rest.filter (fun c => decide (c.type = xmlElementType.XML_ELEMENT_NODE)) := by
        rw [List.filter_cons_of_neg]
        simpa using h1
      rw [hf]
      exact ih n res evs l h
    · rw [if_neg h1] at h
      have hf : (ptr_n :: rest).filter
          (fun c => decide (c.type = xmlElementType.XML_ELEMENT_NODE))
          = ptr_n :: rest.filter
              (fun c => decide (c.type = xmlElementType.XML_ELEMENT_NODE)) := by
        rw [List.filter_cons_of_pos]
        simpa using h1
      rw [hf, List.length_cons, List.range'_succ, List.map_cons, List.foldl_cons]
      cases hv : pgsql_INSERT_values lib fieldcnt field_idx ptr_n.name ptr_n.children 0
          (List.replicate fieldcnt none) with
      | none =>
        rw [hv] at h
        exact absurd h (by simp)
      | some value_ar =>
        rw [hv] at h
        simp only at h
        by_cases h2 : PQresultStatus (exec n).dbres ≠
            (if key.isSome then ExecStatusType.PGRES_TUPLES_OK
              else ExecStatusType.PGRES_COMMAND_OK)
        · rw [if_pos h2] at h
          exact absurd h (by simp)
        · rw [if_neg h2] at h
          cases key with
          | some k => exact ih (n + 1) _ _ l h
          | none => exact ih (n + 1) _ _ l h

theorem eAdd_value_foldl_header (g : Nat) (e : Option cstr × Option cstr)
    (rest : List (Option cstr × Option cstr)) (h : e.1 ≠ none) :
    (((e :: rest).foldl (fun acc e => eAdd_value acc e.1 e.2)
        (eCreate_value_space g)).map eurephiaVALUES.entry) = e :: rest := by
  rw [List.foldl_cons, eAdd_value_header,
    eAdd_value_foldl rest { evgid := g, evid := 0, key := e.1, val := e.2 } [] h]
  rfl

theorem result_entry_key (key : Option cstr) (ans : ExecAnswer) :
    (result_entry key ans).1 ≠ none := by
  cases key <;> simp [result_entry]

theorem result_entry_eq (key : Option cstr) (ans : ExecAnswer) :
    result_entry key ans
      = match key with
        | some k => (some k, some ans.value)
        | none => (some "oid".toList, some (fmt_i (ans.oid : Int)).toList) := by
  cases key <;> rfl

theorem pgsql_INSERT_values_of_accepted (lib : Libs) (sqlschemaver : Nat) (root_n : xmlNode)
    (env : InsertEnv) (table : cstr) (fields_n recs_n : xmlNode) (l : List eurephiaVALUES)
    (hacc : sqldata_accepted sqlschemaver root_n table fields_n recs_n)
    (hres : (pgsql_INSERT lib sqlschemaver (some root_n) env).1 = InsertResult.values l) :
    l = ((List.range' 0 (element_children recs_n).length).map
          (fun j => result_entry (xmlGetAttrValue root_n.properties "key".toList)
            (env.exec j))).foldl
          (fun acc e => eAdd_value acc e.1 e.2) (eCreate_value_space 1) := by
  rw [pgsql_INSERT_of_accepted lib sqlschemaver root_n env table fields_n recs_n hacc] at hres
  cases hs : pgsql_INSERT_sql table (pgsql_INSERT_field_ar fields_n)
      (xmlGetAttrValue root_n.properties "key".toList) with
  | none =>
    rw [hs] at hres
    exact absurd hres (by simp)
  | some sql =>
    rw [hs] at hres
    simp only at hres
    by_cases hp : PQresultStatus env.prepare_res ≠ ExecStatusType.PGRES_COMMAND_OK
    · rw [if_pos hp] at hres
      exact absurd hres (by simp)
    · rw [if_neg hp] at hres
      exact pgsql_INSERT_records_values lib _ _ _ env.exec recs_n.children 0 _ _ l hres

/-- C15 (amended): whenever `pgsql_INSERT` returns a list for an accepted plan
with r records, then for r at least 1 the list has exactly r elements (eCount
is r) and its entries follow the record order: the i-th entry carries the value
of the key column returned for the i-th record when the plan has a key, and
otherwise the key `oid` with the OID of the inserted row as decimal text; for
r = 0 the list is the single empty header element that `eCreate_value_space`
creates, so eCount is 1. -/
theorem pgsql_INSERT_result_in_record_order (lib : Libs) (sqlschemaver : Nat) (root_n : xmlNode)
    (env : InsertEnv) (table : cstr) (fields_n recs_n : xmlNode) (l : List eurephiaVALUES)
    (hacc : sqldata_accepted sqlschemaver root_n table fields_n recs_n)
    (hres : (pgsql_INSERT lib sqlschemaver (some root_n) env).1 = InsertResult.values l) :
    (1 ≤ (element_children recs_n).length →
      eCount (some l) = (element_children recs_n).length
      ∧ l.map eurephiaVALUES.entry
          = (List.range (element_children recs_n).length).map
              (fun i => result_entry (xmlGetAttrValue root_n.properties "key".toList)
                (env.exec i)))
    ∧ ((element_children recs_n).length = 0 →
        l = [{ evgid := 1, evid := 0, key := none, val := none }] ∧ eCount (some l) = 1) := by
  have hl := pgsql_INSERT_values_of_accepted lib sqlschemaver root_n env table fields_n recs_n l
    hacc hres
  constructor
  · intro hr
    obtain ⟨c, hc⟩ : ∃ c, (element_children recs_n).length = c + 1 :=
      ⟨(element_children recs_n).length - 1, by omega⟩
    have hm : l.map eurephiaVALUES.entry
        = (List.range (element_children recs_n).length).map
            (fun i => result_entry (xmlGetAttrValue root_n.properties "key".toList)
              (env.exec i)) := by
      rw [hl, List.range_eq_range', hc, List.range'_succ, List.map_cons]
      exact eAdd_value_foldl_header 1 _ _ (result_entry_key _ _)
    refine ⟨?_, hm⟩
    have := congrArg List.length hm
    simpa [eCount] using this
  · intro hr
    rw [hr] at hl
    subst hl
    exact ⟨rfl, rfl⟩

theorem pgsql_INSERT_result_in_record_order_witness :
    eCount (some
        [{ evgid := 1, evid := 0, key := some "k".toList, val := some "17".toList },
         { evgid := 1, evid := 1, key := some "k".toList, val := some "18".toList }]) = 2
    ∧ [(some "k".toList, some "17".toList), (some "k".toList, some "18".toList)]
        = (List.range 2).map
            (fun i => result_entry (some "k".toList) (sample_insert_env.exec i)) :=
  have h := (pgsql_INSERT_result_in_record_order sample_libs 100
    (sample_plan [sample_record_ordered, sample_record_swapped]) sample_insert_env "t".toList
    sample_fields (xml_element "records" [] [sample_record_ordered, sample_record_swapped])
    [{ evgid := 1, evid := 0, key := some "k".toList, val := some "17".toList },
     { evgid := 1, evid := 1, key := some "k".toList, val := some "18".toList }]
    ⟨by decide, by decide, by decide, by decide, rfl, rfl⟩ (by decide)).1 (by decide)
  ⟨h.1, h.2⟩

/-- C15 (counterexample): for the accepted plan without records,
`pgsql_INSERT` succeeds: the statement is prepared, nothing is executed, and
the list returned is the empty header element.  The plan has r = 0 records and
eCount of the result is 1. -/
theorem pgsql_INSERT_no_records_count :
    pgsql_INSERT sample_libs 100 (some (sample_plan [])) sample_insert_env
      = (InsertResult.values [{ evgid := 1, evid := 0, key := none, val := none }],
        [Event.PQprepare "INSERT INTO t (a,b) VALUES ($1,$2) RETURNING k".toList 2
            (some ExecStatusType.PGRES_COMMAND_OK)])
    ∧ (element_children (xml_element "records" [] [])).length = 0
    ∧ eCount (some [{ evgid := 1, evid := 0, key := none, val := none }]) = 1
    ∧ eCount (some [{ evgid := 1, evid := 0, key := none, val := none }])
        ≠ (element_children (xml_element "records" [] [])).length := by
  refine ⟨by decide, by decide, by decide, by decide⟩


/-! ## A record the server refuses -/

theorem pgsql_INSERT_records_failure (lib : Libs) (key : Option cstr) (fieldcnt : Nat)
    (field_idx : List Nat) (exec : Nat → ExecAnswer) (recs : List xmlNode) :
    ∀ (n : Nat) (res : List eurephiaVALUES) (evs : List Event) (j : Nat),
      j < (recs.filter (fun c => decide (c.type = xmlElementType.XML_ELEMENT_NODE))).length →
      (∀ rec ∈ (recs.filter
            (fun c => decide (c.type = xmlElementType.XML_ELEMENT_NODE))).take (j + 1),
          pgsql_INSERT_values lib fieldcnt field_idx rec.name rec.children 0
            (List.replicate fieldcnt none) ≠ none) →
      (∀ i, i < j → PQresultStatus (exec (n + i)).dbres =
          (if key.isSome then ExecStatusType.PGRES_TUPLES_OK
            else ExecStatusType.PGRES_COMMAND_OK)) →
      PQresultStatus (exec (n + j)).dbres ≠
          (if key.isSome then ExecStatusType.PGRES_TUPLES_OK
            else ExecStatusType.PGRES_COMMAND_OK) →
      ∃ t, pgsql_INSERT_records lib key fieldcnt field_idx exec recs n res evs
            = (InsertResult.null, evs ++ t)
        ∧ t.length = j + 1
        ∧ t.all Event.is_exec_prepared = true
        ∧ ∃ args, t.getLast? = some (Event.PQexecPrepared args (exec (n + j)).dbres) := by
  induction recs with
  | nil =>
    intro n res evs j hj
    simp at hj
  | cons ptr_n rest ih =>
    intro n res evs j hj hvals hok hfail
    unfold pgsql_INSERT_records
    by_cases h1 : ptr_n.type ≠ xmlElementType.XML_ELEMENT_NODE
    · rw [if_pos h1]
      have hf : (ptr_n :: rest).filter
          (fun c => decide (c.type = xmlElementType.XML_ELEMENT_NODE))
          = rest.filter (fun c => decide (c.type = xmlElementType.XML_ELEMENT_NODE)) := by
        rw [List.filter_cons_of_neg]
        simpa using h1
      rw [hf] at hj hvals
      exact ih n res evs j hj hvals hok hfail
    · rw [if_neg h1]
      have hf : (ptr_n :: rest).filter
          (fun c => decide (c.type = xmlElementType.XML_ELEMENT_NODE))
          = ptr_n :: rest.filter
              (fun c => decide (c.type = xmlElementType.XML_ELEMENT_NODE)) := by
        rw [List.filter_cons_of_pos]
        simpa using h1
      rw [hf] at hj hvals
      cases hv : pgsql_INSERT_values lib fieldcnt field_idx ptr_n.name ptr_n.children 0
          (List.replicate fieldcnt none) with
      | none => exact absurd hv (hvals ptr_n (by simp))
      | some value_ar =>
        simp only
        cases j with
        | zero =>
          rw [if_pos (by simpa using hfail)]
          exact ⟨[Event.PQexecPrepared value_ar (exec n).dbres], rfl, rfl, rfl,
            value_ar, by simp⟩
        | succ j' =>
          have h0 := hok 0 (by omega)
          simp only [Nat.add_zero] at h0
          rw [if_neg (by simpa using h0)]
          have hj2 : j' < (rest.filter
              (fun c => decide (c.type = xmlElementType.XML_ELEMENT_NODE))).length := by
            simp only [List.length_cons] at hj
            omega
          have hvals2 : ∀ rec ∈ (rest.filter
                (fun c => decide (c.type = xmlElementType.XML_ELEMENT_NODE))).take (j' + 1),
              pgsql_INSERT_values lib fieldcnt field_idx rec.name rec.children 0
                (List.replicate fieldcnt none) ≠ none := by
            intro rec hrec
            apply hvals rec
            rw [List.take_succ_cons]
            exact List.mem_cons_of_mem _ hrec
          have hok2 : ∀ i, i < j' → PQresultStatus (exec (n + 1 + i)).dbres =
              (if key.isSome then ExecStatusType.PGRES_TUPLES_OK
                else ExecStatusType.PGRES_COMMAND_OK) := by
            intro i hi
            have := hok (i + 1) (by omega)
            rwa [show n + (i + 1) = n + 1 + i by omega] at this
          have hfail2 : PQresultStatus (exec (n + 1 + j')).dbres ≠
              (if key.isSome then ExecStatusType.PGRES_TUPLES_OK
                else ExecStatusType.PGRES_COMMAND_OK) := by
            rwa [show n + (j' + 1) = n + 1 + j' by omega] at hfail
          have hlast : n + (j' + 1) = n + 1 + j' := by omega
          cases key with
          | some k =>
            obtain ⟨t, ht, hlen, hall, args, hargs⟩ := ih (n + 1)
              (eAdd_value res (some k) (some (exec n).value))
              (evs ++ [Event.PQexecPrepared value_ar (exec n).dbres]) j' hj2 hvals2 hok2 hfail2
            refine ⟨Event.PQexecPrepared value_ar (exec n).dbres :: t, ?_, ?_, ?_, args, ?_⟩
            · simp only [ht, List.append_assoc, List.singleton_append]
            · simp only [List.length_cons, hlen]
            · simp only [List.all_cons, hall, Event.is_exec_prepared, Bool.and_self]
            · cases t with
              | nil => simp at hlen
              | cons a t' =>
                rw [List.getLast?_cons_cons, hargs, hlast]
          | none =>
            obtain ⟨t, ht, hlen, hall, args, hargs⟩ := ih (n + 1)
              (eAdd_value res (some "oid".toList) (some (fmt_i ((exec n).oid : Int)).toList))
              (evs ++ [Event.PQexecPrepared value_ar (exec n).dbres]) j' hj2 hvals2 hok2 hfail2
            refine ⟨Event.PQexecPrepared value_ar (exec n).dbres :: t, ?_, ?_, ?_, args, ?_⟩
            · simp only [ht, List.append_assoc, List.singleton_append]
            · simp only [List.length_cons, hlen]
            · simp only [List.all_cons, hall, Event.is_exec_prepared, Bool.and_self]
            · cases t with
              | nil => simp at hlen
              | cons a t' =>
                rw [List.getLast?_cons_cons, hargs, hlast]

theorem exec_prepared_events_any (l : List Event) (h : l.all Event.is_exec_prepared = true) :
    l.any Event.is_rollback = false ∧ l.any Event.is_commit = false
    ∧ l.any Event.is_begin = false := by
  refine ⟨?_, ?_, ?_⟩ <;>
    exact any_eq_false_of_all _ Event.is_exec_prepared l h
      (by intro e he; cases e <;> first | rfl | cases he)

/-- C16: for an accepted plan whose statement was prepared, if the execution
for the record with index j is refused by the server (the executions for the
records before it having succeeded), `pgsql_INSERT` returns NULL, so the keys
collected for the earlier records are not returned; the calls it has made are
`PQprepare` followed by exactly j + 1 calls of `PQexecPrepared`, the last of
which is the refused one, so no later record is executed; and none of its
calls is a ROLLBACK, a COMMIT or a BEGIN: the executions of the earlier
records stay in the transaction of the caller. -/
theorem pgsql_INSERT_stops_at_refused_record (lib : Libs) (sqlschemaver : Nat)
    (root_n : xmlNode) (env : InsertEnv) (table : cstr) (fields_n recs_n : xmlNode)
    (names : List cstr) (j : Nat)
    (hacc : sqldata_accepted sqlschemaver root_n table fields_n recs_n)
    (hnames : pgsql_INSERT_field_ar fields_n = names.map some)
    (hprep : PQresultStatus env.prepare_res = ExecStatusType.PGRES_COMMAND_OK)
    (hj : j < (element_children recs_n).length)
    (hvals : ∀ rec ∈ (element_children recs_n).take (j + 1),
      pgsql_INSERT_values lib (element_children fields_n).length
        (pgsql_INSERT_field_idx fields_n) rec.name rec.children 0
        (List.replicate (element_children fields_n).length none) ≠ none)
    (hok : ∀ i, i < j → PQresultStatus (env.exec i).dbres =
      (if (xmlGetAttrValue root_n.properties "key".toList).isSome
        then ExecStatusType.PGRES_TUPLES_OK else ExecStatusType.PGRES_COMMAND_OK))
    (hfail : PQresultStatus (env.exec j).dbres ≠
      (if (xmlGetAttrValue root_n.properties "key".toList).isSome
        then ExecStatusType.PGRES_TUPLES_OK else ExecStatusType.PGRES_COMMAND_OK)) :
    ∃ sql t, pgsql_INSERT lib sqlschemaver (some root_n) env
          = (InsertResult.null,
              Event.PQprepare sql (element_children fields_n).length env.prepare_res :: t)
      ∧ t.length = j + 1
      ∧ t.all Event.is_exec_prepared = true
      ∧ (∃ args, t.getLast? = some (Event.PQexecPrepared args (env.exec j).dbres))
      ∧ (pgsql_INSERT lib sqlschemaver (some root_n) env).2.any Event.is_rollback = false
      ∧ (pgsql_INSERT lib sqlschemaver (some root_n) env).2.any Event.is_commit = false
      ∧ (pgsql_INSERT lib sqlschemaver (some root_n) env).2.any Event.is_begin = false := by
  have hsql := pgsql_INSERT_sql_eq table names (xmlGetAttrValue root_n.properties "key".toList)
  have hrun := pgsql_INSERT_of_accepted lib sqlschemaver root_n env table fields_n recs_n hacc
  rw [hnames, hsql] at hrun
  simp only [hprep, ne_eq, not_true_eq_false, if_false] at hrun
  obtain ⟨t, ht, hlen, hall, hlast⟩ := pgsql_INSERT_records_failure lib
    (xmlGetAttrValue root_n.properties "key".toList) (element_children fields_n).length
    (pgsql_INSERT_field_idx fields_n) env.exec recs_n.children 0 (eCreate_value_space 1)
    [Event.PQprepare _ (element_children fields_n).length env.prepare_res] j hj hvals
    (by simpa using hok) (by simpa using hfail)
  rw [ht] at hrun
  obtain ⟨a1, a2, a3⟩ := exec_prepared_events_any t hall
  obtain ⟨args, hargs⟩ := hlast
  rw [Nat.zero_add] at hargs
  refine ⟨_, t, hrun, hlen, hall, ⟨args, hargs⟩, ?_, ?_, ?_⟩
  · rw [hrun]
    simp only [List.singleton_append, List.any_cons, Event.is_rollback, Bool.false_or]
    exact a1
  · rw [hrun]
    simp only [List.singleton_append, List.any_cons, Event.is_commit, Bool.false_or]
    exact a2
  · rw [hrun]
    simp only [List.singleton_append, List.any_cons, Event.is_begin, Bool.false_or]
    exact a3

theorem pgsql_INSERT_stops_at_refused_record_witness :
    ∃ sql t, pgsql_INSERT sample_libs 100
          (some (sample_plan [sample_record_ordered, sample_record_swapped, sample_record_ordered]))
          sample_insert_env_second_fails
          = (InsertResult.null,
              Event.PQprepare sql (element_children sample_fields).length
                sample_insert_env_second_fails.prepare_res :: t)
      ∧ t.length = 1 + 1
      ∧ t.all Event.is_exec_prepared = true
      ∧ (∃ args, t.getLast? = some (Event.PQexecPrepared args
          (sample_insert_env_second_fails.exec 1).dbres))
      ∧ (pgsql_INSERT sample_libs 100
          (some (sample_plan [sample_record_ordered, sample_record_swapped, sample_record_ordered]))
          sample_insert_env_second_fails).2.any Event.is_rollback = false
      ∧ (pgsql_INSERT sample_libs 100
          (some (sample_plan [sample_record_ordered, sample_record_swapped, sample_record_ordered]))
          sample_insert_env_second_fails).2.any Event.is_commit = false
      ∧ (pgsql_INSERT sample_libs 100
          (some (sample_plan [sample_record_ordered, sample_record_swapped, sample_record_ordered]))
          sample_insert_env_second_fails).2.any Event.is_begin = false :=
  pgsql_INSERT_stops_at_refused_record sample_libs 100
    (sample_plan [sample_record_ordered, sample_record_swapped, sample_record_ordered])
    sample_insert_env_second_fails "t".toList sample_fields
    (xml_element "records" [] [sample_record_ordered, sample_record_swapped, sample_record_ordered])
    ["a".toList, "b".toList] 1
    ⟨by decide, by decide, by decide, by decide, rfl, rfl⟩ rfl (by decide) (by decide)
    (by decide) (by decide) (by decide)


/-! ## Cells marked as NULL -/

theorem sqldataExtractContent_null_scalar (lib : Libs) (dbh : xmlNode → Option cstr)
    (parent : cstr) (sql_n : xmlNode)
    (hnull : xmlGetAttrValue sql_n.properties "isnull".toList = some "1".toList)
    (hblob : xmlGetAttrValue sql_n.properties "type".toList ≠ some "xmlblob".toList)
    (harr : xmlGetAttrValue sql_n.properties "type".toList ≠ some "array".toList) :
    sqldataExtractContent lib (some dbh) parent sql_n = none := by
  unfold sqldataExtractContent
  simp only
  by_cases h : sql_n.name ≠ "value".toList ∨ parent ≠ "record".toList
  · rw [if_pos h]
  · rw [if_neg h, if_neg hblob, if_neg harr]
    unfold sqldataValueHash
    rw [if_pos hnull]
    simp

/-- C17 (code defect): `sqldataExtractContent` looks at the isnull attribute
only on the path through `sqldataValueHash`, which cells of type xmlblob and
array do not take.  The array cell `<value fid="0" type="array" isnull="1">`
with the inner value 12 yields a string for every library (`\x7b12\x7d` with the
sample libraries), and the xmlblob cell `<value fid="0" type="xmlblob"
isnull="1"><a/></value>` yields whatever `xmlNodeToString` makes of `<a/>`,
where a cell marked as NULL has to yield NULL.  The scalar cell with
isnull="1" and a payload yields NULL. -/
theorem sqldataExtractContent_null_typed_cell :
    xmlGetAttrValue sample_cell_null_array.properties "isnull".toList = some "1".toList
    ∧ (∀ lib : Libs, sqldataExtractContent lib (some (pgsql_BuildArray lib)) "record".toList
        sample_cell_null_array ≠ none)
    ∧ sqldataExtractContent sample_libs (some (pgsql_BuildArray sample_libs)) "record".toList
        sample_cell_null_array = some "\x7b12\x7d".toList
    ∧ xmlGetAttrValue sample_cell_null_xmlblob.properties "isnull".toList = some "1".toList
    ∧ (∀ lib : Libs, sqldataExtractContent lib (some (pgsql_BuildArray lib)) "record".toList
        sample_cell_null_xmlblob = lib.xmlNodeToString (xml_element "a" [] []))
    ∧ sqldataExtractContent sample_libs (some (pgsql_BuildArray sample_libs)) "record".toList
        sample_cell_null_xmlblob = some "<a/>".toList
    ∧ (∀ lib : Libs, sqldataExtractContent lib (some (pgsql_BuildArray lib)) "record".toList
        sample_cell_null_scalar = none) := by
  refine ⟨by decide, ?_, by decide, by decide, ?_, by decide, ?_⟩
  · intro lib
    have h : sqldataExtractContent lib (some (pgsql_BuildArray lib)) "record".toList
        sample_cell_null_array = pgsql_BuildArray lib sample_cell_null_array := by
      simp [sqldataExtractContent, sample_cell_null_array, xml_element, xmlNode.name,
        xmlNode.properties, xmlGetAttrValue]
    rw [h]
    simp [pgsql_BuildArray]
  · intro lib
    simp [sqldataExtractContent, sample_cell_null_xmlblob, xml_element, xmlNode.name,
      xmlNode.properties, xmlNode.children, xmlNode.type, xmlGetAttrValue]
  · intro lib
    exact sqldataExtractContent_null_scalar lib _ _ _ (by decide) (by decide) (by decide)


/-! ## The array literal -/

theorem pgsql_BuildArray_loop_eq (lib : Libs) (parent : cstr) (vs : List cstr) :
    ∀ (nodes : List xmlNode) (ret : cstr), vs ≠ [] →
      (∀ node ∈ nodes, node.type = xmlElementType.XML_ELEMENT_NODE
        ∧ node.name = "value".toList) →
      nodes.map (sqldataValueHash lib parent) = vs.map some →
      pgsql_BuildArray_loop lib parent nodes ret
        = ret ++ join_commas (vs.map (spec_array_item lib)) ++ ",".toList := by
  induction vs with
  | nil => intro nodes ret h; exact absurd rfl h
  | cons v rest ih =>
    intro nodes ret _ hel hmap
    cases nodes with
    | nil => simp at hmap
    | cons node nodes' =>
      simp only [List.map_cons, List.cons.injEq] at hmap
      obtain ⟨hv, hrest⟩ := hmap
      have hn := hel node (by simp)
      have hc : ¬ (node.type ≠ xmlElementType.XML_ELEMENT_NODE ∨ node.name ≠ "value".toList) := by
        simp [hn.1, hn.2]
      have hstep : pgsql_BuildArray_loop lib parent (node :: nodes') ret
          = pgsql_BuildArray_loop lib parent nodes'
              (ret ++ spec_array_item lib v ++ ",".toList) := by
        rw [pgsql_BuildArray_loop, if_neg hc, hv]
        simp only
        unfold spec_array_item
        by_cases hnum : isNumber lib (some v) = 0
        · rw [if_pos hnum, if_pos hnum]
          simp only [List.append_assoc]
          rfl
        · rw [if_neg hnum, if_neg hnum]
      rw [hstep]
      cases rest with
      | nil =>
        cases nodes' with
        | nil => simp [pgsql_BuildArray_loop, join_commas]
        | cons a b => simp at hrest
      | cons w rest' =>
        rw [ih nodes' _ (by simp) (fun n hn2 => hel n (List.mem_cons_of_mem _ hn2)) hrest]
        simp [join_commas, List.append_assoc]

theorem pgsql_BuildArray_eq_spec (lib : Libs) (sql_n : xmlNode) (vs : List cstr)
    (hvs : vs ≠ [])
    (hel : ∀ node ∈ sql_n.children, node.type = xmlElementType.XML_ELEMENT_NODE
      ∧ node.name = "value".toList)
    (hmap : sql_n.children.map (sqldataValueHash lib sql_n.name) = vs.map some) :
    pgsql_BuildArray lib sql_n = some (spec_array lib vs) := by
  unfold pgsql_BuildArray spec_array
  simp only
  rw [pgsql_BuildArray_loop_eq lib sql_n.name vs sql_n.children _ hvs hel hmap]
  have : (",".toList : cstr) = [','] := rfl
  rw [this, List.dropLast_concat]

/-- C18 (code defect): `pgsql_BuildArray` ends by overwriting the last byte of
the string with the closing brace, "Replace the last comma with a close-array
marker".  For an array cell without inner values there is no comma: the last
byte is the opening brace, and the function returns the one byte `\x7d`, for
every library, where the array literal is `\x7b\x7d`; `sqldataExtractContent`
hands that byte on as the argument of the statement.  For the inner values 12
and ab the function returns `\x7b12,'ab'\x7d`, the literal of the
specification. -/
theorem pgsql_BuildArray_empty_array :
    (∀ lib : Libs, pgsql_BuildArray lib sample_cell_array_empty = some "\x7d".toList)
    ∧ (∀ lib : Libs, spec_array lib [] = "\x7b\x7d".toList)
    ∧ (∀ lib : Libs, pgsql_BuildArray lib sample_cell_array_empty ≠ some (spec_array lib []))
    ∧ sqldataExtractContent sample_libs (some (pgsql_BuildArray sample_libs)) "record".toList
        sample_cell_array_empty = some "\x7d".toList
    ∧ pgsql_BuildArray sample_libs sample_cell_array = some "\x7b12,'ab'\x7d".toList
    ∧ spec_array sample_libs ["12".toList, "ab".toList] = "\x7b12,'ab'\x7d".toList := by
  refine ⟨fun lib => rfl, fun lib => rfl, fun lib => ?_, by decide, by decide, by decide⟩
  have h1 : pgsql_BuildArray lib sample_cell_array_empty = some "\x7d".toList := rfl
  have h2 : spec_array lib [] = "\x7b\x7d".toList := rfl
  rw [h1, h2]
  decide


/-! ## The lookup of the hostname -/

theorem db_register_system_hostname_head_eq (hostname : Option cstr) :
    db_register_system_hostname_head hostname
      = "SELECT syskey FROM systems_hostname WHERE hostname='".toList
          ++ (hostname.getD "(null)".toList).take 256 ++ "'".toList := by
  unfold db_register_system_hostname_head
  apply List.take_of_length_le
  have h1 : ("SELECT syskey FROM systems_hostname WHERE hostname='".toList).length = 52 := rfl
  have h2 : ("'".toList).length = 1 := rfl
  have h3 : ((hostname.getD "(null)".toList).take 256).length ≤ 256 := by
    rw [List.length_take]
    omega
  rw [List.length_append, List.length_append, h1, h2]
  omega

theorem db_register_system_hostname_head_length (hostname : Option cstr) :
    (db_register_system_hostname_head hostname).length ≤ 309 := by
  have h1 : ("SELECT syskey FROM systems_hostname WHERE hostname='".toList).length = 52 := rfl
  have h2 : ("'".toList).length = 1 := rfl
  have h3 : ((hostname.getD "(null)".toList).take 256).length ≤ 256 := by
    rw [List.length_take]
    omega
  rw [db_register_system_hostname_head_eq, List.length_append, List.length_append, h1, h2]
  omega

theorem append_str_of_fits (dest src : cstr) (size : Nat) (h : dest.length + src.length ≤ size) :
    append_str dest src size = dest ++ src := by
  unfold append_str
  rw [if_pos (by omega), List.take_of_length_le (by omega)]

theorem db_register_system_hostname_sql_null (hostname : Option cstr) :
    db_register_system_hostname_sql hostname none
      = "SELECT syskey FROM systems_hostname WHERE hostname='".toList
          ++ (hostname.getD "(null)".toList).take 256
          ++ "'".toList ++ "%s AND ipaddr IS NULL".toList := by
  have hl := db_register_system_hostname_head_length hostname
  have h1 : ("%s AND ipaddr IS NULL".toList).length = 21 := rfl
  unfold db_register_system_hostname_sql
  simp only
  rw [append_str_of_fits _ _ _ (by omega), db_register_system_hostname_head_eq]

theorem db_register_system_hostname_sql_ipaddr (hostname : Option cstr) (ip : cstr) :
    db_register_system_hostname_sql hostname (some ip)
      = "SELECT syskey FROM systems_hostname WHERE hostname='".toList
          ++ (hostname.getD "(null)".toList).take 256
          ++ "'".toList ++ "AND ipaddr='".toList
          ++ db_register_system_ipaddr_sent hostname ip ++ "'".toList := by
  have hl := db_register_system_hostname_head_length hostname
  have h1 : ("AND ipaddr='".toList).length = 12 := rfl
  have h2 : ("'".toList).length = 1 := rfl
  have e1 : append_str (db_register_system_hostname_head hostname) "AND ipaddr='".toList 4028
      = db_register_system_hostname_head hostname ++ "AND ipaddr='".toList :=
    append_str_of_fits _ _ _ (by omega)
  have hl1 : (db_register_system_hostname_head hostname ++ "AND ipaddr='".toList).length
      ≤ 321 := by
    rw [List.length_append, h1]
    omega
  unfold db_register_system_hostname_sql db_register_system_ipaddr_sent
  simp only
  rw [e1]
  have e2 : append_str (db_register_system_hostname_head hostname ++ "AND ipaddr='".toList)
      ip 4092
      = db_register_system_hostname_head hostname ++ "AND ipaddr='".toList
        ++ ip.take (4092 - (db_register_system_hostname_head hostname
            ++ "AND ipaddr='".toList).length) := by
    unfold append_str
    rw [if_pos (by omega)]
  rw [e2]
  have hl2 : (db_register_system_hostname_head hostname ++ "AND ipaddr='".toList
      ++ ip.take (4092 - (db_register_system_hostname_head hostname
          ++ "AND ipaddr='".toList).length)).length ≤ 4092 := by
    rw [List.length_append, List.length_take]
    omega
  rw [append_str_of_fits _ _ _ (by omega), db_register_system_hostname_head_eq]

theorem db_register_system_ipaddr_sent_eq (hostname : Option cstr) (ip : cstr)
    (h : ip.length ≤ 3771) : db_register_system_ipaddr_sent hostname ip = ip := by
  have hl := db_register_system_hostname_head_length hostname
  have h1 : ("AND ipaddr='".toList).length = 12 := rfl
  unfold db_register_system_ipaddr_sent
  rw [append_str_of_fits _ _ _ (by omega)]
  apply List.take_of_length_le
  rw [List.length_append, h1]
  omega

theorem db_register_system_hostname_sql_null_ne (hostname : cstr) :
    db_register_system_hostname_sql (some hostname) none
      ≠ "SELECT syskey FROM systems_hostname WHERE hostname='".toList ++ hostname
          ++ "' AND ipaddr IS NULL".toList := by
  rw [db_register_system_hostname_sql_null]
  simp only [Option.getD_some, List.append_assoc]
  intro h
  have h2 := List.append_cancel_left h
  by_cases hl : hostname.length ≤ 256
  · rw [List.take_of_length_le hl] at h2
    have h3 := List.append_cancel_left h2
    exact absurd h3 (by decide)
  · have hsplit : hostname = hostname.take 256 ++ hostname.drop 256 :=
      (List.take_append_drop 256 hostname).symm
    have hlen := congrArg List.length h2
    simp only [List.length_append, List.length_take] at hlen
    have e1 : ("'".toList : cstr).length = 1 := rfl
    have e2 : ("%s AND ipaddr IS NULL".toList : cstr).length = 21 := rfl
    have e3 : ("' AND ipaddr IS NULL".toList : cstr).length = 20 := rfl
    rw [e1, e2, e3, Nat.min_eq_left (by omega)] at hlen
    have hd : (hostname.drop 256).length = 2 := by
      rw [List.length_drop]
      omega
    rw [hsplit] at h2
    rw [List.take_left' (by rw [List.length_take]; omega), List.append_assoc] at h2
    have h3 := List.append_cancel_left h2
    match hdd : hostname.drop 256, hd with
    | [a, b], _ =>
      rw [hdd] at h3
      have h4 : ("'".toList ++ "%s AND ipaddr IS NULL".toList : cstr)
          = ['\'', '%'] ++ "s AND ipaddr IS NULL".toList := rfl
      rw [h4] at h3
      simp only [List.cons_append, List.nil_append, List.cons.injEq] at h3
      exact absurd h3.2.2 (by decide)

/-- C20 (code defect): for a NULL IP address `db_register_system` completes the
lookup with `append_str(sqlq, "%s AND ipaddr IS NULL", 4096)`, and
`append_str` is `strncat`, which does no formatting: the two bytes `%s` stay in
the text.  For every hostname the query sent is `SELECT syskey FROM
systems_hostname WHERE hostname='<hostname>'%s AND ipaddr IS NULL` (hostname cut
to 256 bytes), which differs from the text `.. WHERE hostname='<hostname>' AND
ipaddr IS NULL`.  With an IP address the query is `.. WHERE
hostname='<hostname>'AND ipaddr='<ipaddr>'`, which selects the rows with that
hostname and that address.  For the registered system of the sample report
without an address the call sends the text with `%s` and returns -1. -/
theorem db_register_system_null_ipaddr_query :
    (∀ hostname : cstr, db_register_system_hostname_sql (some hostname) none
      = "SELECT syskey FROM systems_hostname WHERE hostname='".toList ++ hostname.take 256
          ++ "'%s AND ipaddr IS NULL".toList)
    ∧ (∀ hostname : cstr, db_register_system_hostname_sql (some hostname) none
      ≠ "SELECT syskey FROM systems_hostname WHERE hostname='".toList ++ hostname
          ++ "' AND ipaddr IS NULL".toList)
    ∧ db_register_system_hostname_sql (some "host1".toList) none
      = "SELECT syskey FROM systems_hostname WHERE hostname='host1'%s AND ipaddr IS NULL".toList
    ∧ db_register_system_hostname_sql (some "host1".toList) (some "10.0.0.1".toList)
      = "SELECT syskey FROM systems_hostname WHERE hostname='host1'AND ipaddr='10.0.0.1'".toList
    ∧ db_register_system sample_libs 100 (sample_report "host1".toList none)
        (sample_register_env "8") sample_database_registered
      = (some (-1), sample_database_registered,
        [Event.PQexec_sql "SELECT syskey FROM systems WHERE sysid = '5e1f'".toList
            (some ExecStatusType.PGRES_TUPLES_OK),
          Event.PQexec_sql
            "SELECT syskey FROM systems_hostname WHERE hostname='host1'%s AND ipaddr IS NULL".toList
            (some ExecStatusType.PGRES_FATAL_ERROR)]) := by
  refine ⟨fun hostname => ?_, db_register_system_hostname_sql_null_ne, by decide, by decide,
    by decide⟩
  rw [db_register_system_hostname_sql_null]
  simp only [Option.getD_some, List.append_assoc]
  rfl


/-! ## Registering a system twice -/

theorem pgsql_INSERT_accepted_of_values (lib : Libs) (sqlschemaver : Nat) (root_n : xmlNode)
    (env : InsertEnv) (l : List eurephiaVALUES)
    (h : (pgsql_INSERT lib sqlschemaver (some root_n) env).1 = InsertResult.values l) :
    ∃ table fields_n recs_n, sqldata_accepted sqlschemaver root_n table fields_n recs_n := by
  unfold pgsql_INSERT at h
  simp only at h
  by_cases hn : root_n.name ≠ "sqldata".toList
  · rw [if_pos hn] at h
    exact absurd h (by simp)
  · rw [if_neg hn] at h
    cases ht : xmlGetAttrValue root_n.properties "table".toList with
    | none =>
      rw [ht] at h
      exact absurd h (by simp)
    | some table =>
      rw [ht] at h
      simp only at h
      by_cases h100 : ((sqldataGetRequiredSchemaVer true (some root_n)) % 4294967296).toNat < 100
      · rw [if_pos h100] at h
        exact absurd h (by simp)
      · rw [if_neg h100] at h
        by_cases hmax : ((sqldataGetRequiredSchemaVer true (some root_n)) % 4294967296).toNat
            > sqlschemaver
        · rw [if_pos hmax] at h
          exact absurd h (by simp)
        · rw [if_neg hmax] at h
          cases hf : xmlFindNode (some root_n) "fields".toList with
          | none =>
            rw [hf] at h
            exact absurd h (by simp)
          | some fields_n =>
            cases hr : xmlFindNode (some root_n) "records".toList with
            | none =>
              rw [hf, hr] at h
              exact absurd h (by simp)
            | some recs_n =>
              exact ⟨table, fields_n, recs_n, by simpa using hn, ht, h100, hmax, hf, hr⟩

theorem is_done_of_expected (key : Option cstr) (res : PGresult)
    (h : ¬ PQresultStatus res ≠
      (if key.isSome then ExecStatusType.PGRES_TUPLES_OK
        else ExecStatusType.PGRES_COMMAND_OK)) : res.is_done = true := by
  have h2 : PQresultStatus res = (if key.isSome then ExecStatusType.PGRES_TUPLES_OK
        else ExecStatusType.PGRES_COMMAND_OK) := by simpa using h
  unfold PGresult.is_done
  cases key <;> simp [h2]

theorem pgsql_INSERT_records_success (lib : Libs) (key : Option cstr) (fields_n : xmlNode)
    (exec : Nat → ExecAnswer) (recs : List xmlNode) :
    ∀ (n : Nat) (res : List eurephiaVALUES) (evs : List Event) (l : List eurephiaVALUES),
      (pgsql_INSERT_records lib key (element_children fields_n).length
          (pgsql_INSERT_field_idx fields_n) exec recs n res evs).1 = InsertResult.values l →
      (pgsql_INSERT_records lib key (element_children fields_n).length
          (pgsql_INSERT_field_idx fields_n) exec recs n res evs).2
        = evs ++ record_events lib fields_n exec
            (recs.filter (fun c => decide (c.type = xmlElementType.XML_ELEMENT_NODE))) n
      ∧ ∀ i, i < (recs.filter
            (fun c => decide (c.type = xmlElementType.XML_ELEMENT_NODE))).length →
          (exec (n + i)).dbres.is_done = true := by
  induction recs with
  | nil =>
    intro n res evs l _
    simp [pgsql_INSERT_records, record_events]
  | cons ptr_n rest ih =>
    intro n res evs l h
    unfold pgsql_INSERT_records at h ⊢
    by_cases h1 : ptr_n.type ≠ xmlElementType.XML_ELEMENT_NODE
    · rw [if_pos h1] at h ⊢
      have hf : (ptr_n :: rest).filter
          (fun c => decide (c.type = xmlElementType.XML_ELEMENT_NODE))
          = rest.filter (fun c => decide (c.type = xmlElementType.XML_ELEMENT_NODE)) := by
        rw [List.filter_cons_of_neg]
        simpa using h1
      rw [hf]
      exact ih n res evs l h
    · rw [if_neg h1] at h ⊢
      have hf : (ptr_n :: rest).filter
          (fun c => decide (c.type = xmlElementType.XML_ELEMENT_NODE))
          = ptr_n :: rest.filter
              (fun c => decide (c.type = xmlElementType.XML_ELEMENT_NODE)) := by
        rw [List.filter_cons_of_pos]
        simpa using h1
      rw [hf]
      cases hv : pgsql_INSERT_values lib (element_children fields_n).length
          (pgsql_INSERT_field_idx fields_n) ptr_n.name ptr_n.children 0
          (List.replicate (element_children fields_n).length none) with
      | none =>
        rw [hv] at h
        exact absurd h (by simp)
      | some value_ar =>
        rw [hv] at h
        simp only at h ⊢
        have hrv : (record_values lib fields_n ptr_n).getD [] = value_ar := by
          unfold record_values
          rw [hv]
          rfl
        by_cases h2 : PQresultStatus (exec n).dbres ≠
            (if key.isSome then ExecStatusType.PGRES_TUPLES_OK
              else ExecStatusType.PGRES_COMMAND_OK)
        · rw [if_pos h2] at h
          exact absurd h (by simp)
        · rw [if_neg h2] at h ⊢
          have hdone := is_done_of_expected key (exec n).dbres h2
          have hstep : ∀ res2, (pgsql_INSERT_records lib key (element_children fields_n).length
                (pgsql_INSERT_field_idx fields_n) exec rest (n + 1) res2
                (evs ++ [Event.PQexecPrepared value_ar (exec n).dbres])).1
                  = InsertResult.values l →
              (pgsql_INSERT_records lib key (element_children fields_n).length
                (pgsql_INSERT_field_idx fields_n) exec rest (n + 1) res2
                (evs ++ [Event.PQexecPrepared value_ar (exec n).dbres])).2
                = evs ++ record_events lib fields_n exec
                    (ptr_n :: rest.filter
                      (fun c => decide (c.type = xmlElementType.XML_ELEMENT_NODE))) n
              ∧ ∀ i, i < (ptr_n :: rest.filter
                    (fun c => decide (c.type = xmlElementType.XML_ELEMENT_NODE))).length →
                  (exec (n + i)).dbres.is_done = true := by
            intro res2 hres2
            obtain ⟨i1, i2⟩ := ih (n + 1) res2 _ l hres2
            constructor
            · rw [i1, record_events, hrv, List.append_assoc]
              rfl
            · intro i hi
              cases i with
              | zero => exact hdone
              | succ j =>
                have := i2 j (by simp only [List.length_cons] at hi; omega)
                rwa [show n + 1 + j = n + (j + 1) by omega] at this
          cases key with
          | some k => exact hstep _ h
          | none => exact hstep _ h

theorem pgsql_INSERT_success (lib : Libs) (sqlschemaver : Nat) (root_n : xmlNode)
    (env : InsertEnv) (l : List eurephiaVALUES)
    (h : (pgsql_INSERT lib sqlschemaver (some root_n) env).1 = InsertResult.values l) :
    ∃ table fields_n recs_n sql,
      sqldata_accepted sqlschemaver root_n table fields_n recs_n
      ∧ (pgsql_INSERT lib sqlschemaver (some root_n) env).2
          = Event.PQprepare sql (element_children fields_n).length env.prepare_res
            :: record_events lib fields_n env.exec (element_children recs_n) 0
      ∧ ∀ i, i < (element_children recs_n).length → (env.exec i).dbres.is_done = true := by
  obtain ⟨table, fields_n, recs_n, hacc⟩ :=
    pgsql_INSERT_accepted_of_values lib sqlschemaver root_n env l h
  have hrun := pgsql_INSERT_of_accepted lib sqlschemaver root_n env table fields_n recs_n hacc
  rw [hrun] at h ⊢
  cases hs : pgsql_INSERT_sql table (pgsql_INSERT_field_ar fields_n)
      (xmlGetAttrValue root_n.properties "key".toList) with
  | none =>
    rw [hs] at h
    exact absurd h (by simp)
  | some sql =>
    rw [hs] at h
    simp only at h ⊢
    by_cases hp : PQresultStatus env.prepare_res ≠ ExecStatusType.PGRES_COMMAND_OK
    · rw [if_pos hp] at h
      exact absurd h (by simp)
    · rw [if_neg hp] at h ⊢
      obtain ⟨i1, i2⟩ := pgsql_INSERT_records_success lib _ fields_n env.exec recs_n.children 0 _
        _ l h
      refine ⟨table, fields_n, recs_n, sql, hacc, ?_, ?_⟩
      · rw [i1]
        rfl
      · intro i hi
        have := i2 i hi
        rwa [Nat.zero_add] at this

theorem hostname_rows_record_events (lib : Libs) (fields_n : xmlNode) (exec : Nat → ExecAnswer)
    (field_ar : List (Option cstr)) (rec : xmlNode) (rest : List xmlNode) (n : Nat)
    (hdone : (exec n).dbres.is_done = true) :
    hostname_rows field_ar (record_events lib fields_n exec (rec :: rest) n)
      = { hostname := bound_column field_ar ((record_values lib fields_n rec).getD [])
            "hostname".toList
          ipaddr := bound_column field_ar ((record_values lib fields_n rec).getD [])
            "ipaddr".toList }
        :: hostname_rows field_ar (record_events lib fields_n exec rest (n + 1)) := by
  rw [record_events, hostname_rows, if_pos hdone]

theorem systems_rows_record_events (lib : Libs) (fields_n : xmlNode) (exec : Nat → ExecAnswer)
    (field_ar : List (Option cstr)) (new_syskey : Nat → cstr) (rec : xmlNode) (n m : Nat)
    (hdone : (exec n).dbres.is_done = true) :
    systems_rows field_ar new_syskey (record_events lib fields_n exec [rec] n) m
      = [{ syskey := new_syskey m
           sysid := bound_column field_ar ((record_values lib fields_n rec).getD [])
             "sysid".toList }] := by
  rw [record_events, systems_rows, if_pos hdone]
  rfl

theorem plan_bound_some (lib : Libs) (root_n fields_n recs_n : xmlNode) (col : cstr)
    (v : Option cstr)
    (hf : xmlFindNode (some root_n) "fields".toList = some fields_n)
    (hr : xmlFindNode (some root_n) "records".toList = some recs_n)
    (h : plan_bound lib root_n col = some v) :
    ∃ rec rest args, element_children recs_n = rec :: rest
      ∧ record_values lib fields_n rec = some args
      ∧ bound_column (pgsql_INSERT_field_ar fields_n) args col = v := by
  unfold plan_bound at h
  rw [hf, hr] at h
  simp only at h
  cases he : element_children recs_n with
  | nil =>
    rw [he] at h
    exact absurd h (by simp)
  | cons rec rest =>
    rw [he] at h
    simp only at h
    cases hv : record_values lib fields_n rec with
    | none =>
      rw [hv] at h
      exact absurd h (by simp)
    | some args =>
      rw [hv] at h
      simp only [Option.map_some', Option.some.injEq] at h
      exact ⟨rec, rest, args, rfl, hv, h⟩

theorem hostname_rows_prepare (field_ar : List (Option cstr)) (sql : cstr) (n : Nat)
    (res : PGresult) (rest : List Event) :
    hostname_rows field_ar (Event.PQprepare sql n res :: rest) = hostname_rows field_ar rest := by
  simp [hostname_rows]

theorem systems_rows_prepare (field_ar : List (Option cstr)) (new_syskey : Nat → cstr)
    (sql : cstr) (n : Nat) (res : PGresult) (rest : List Event) (m : Nat) :
    systems_rows field_ar new_syskey (Event.PQprepare sql n res :: rest) m
      = systems_rows field_ar new_syskey rest m := by
  simp [systems_rows]

theorem server_insert_hostname (db : Database) (root_n : xmlNode) (new_syskey : Nat → cstr)
    (evs : List Event)
    (htable : xmlGetAttrValue root_n.properties "table".toList
      = some "systems_hostname".toList) :
    server_insert db (some root_n) new_syskey evs
      = { db with
          systems_hostname :=
            db.systems_hostname ++ hostname_rows (plan_field_ar root_n) evs } := by
  unfold server_insert
  simp only [htable, if_true]
  rw [if_neg (by decide)]

theorem server_insert_systems (db : Database) (root_n : xmlNode) (new_syskey : Nat → cstr)
    (evs : List Event)
    (htable : xmlGetAttrValue root_n.properties "table".toList = some "systems".toList) :
    server_insert db (some root_n) new_syskey evs
      = { db with
          systems := db.systems ++ systems_rows (plan_field_ar root_n) new_syskey evs 0 } := by
  unfold server_insert
  simp only [htable, if_true]

theorem db_register_system_hostname_insert_success (lib : Libs) (sqlschemaver : Nat)
    (env : RegisterEnv) (db : Database) (hostinfo_d : xmlDoc) (root_n : xmlNode) (syskey : Int)
    (evs : List Event) (hostname ipaddr : Option cstr) (k : Int) (db2 : Database)
    (evs2 : List Event)
    (hroot : hostinfo_d.root = some root_n)
    (htable : xmlGetAttrValue root_n.properties "table".toList
      = some "systems_hostname".toList)
    (hbh : plan_bound lib root_n "hostname".toList = some hostname)
    (hbi : plan_bound lib root_n "ipaddr".toList = some ipaddr)
    (h : db_register_system_hostname_insert lib sqlschemaver env db hostinfo_d syskey evs
      = (some k, db2, evs2))
    (hk : k ≠ -1) :
    k = syskey ∧ db2.systems = db.systems
      ∧ ({ hostname := hostname, ipaddr := ipaddr } : HostnameRow) ∈ db2.systems_hostname := by
  unfold db_register_system_hostname_insert at h
  rw [hroot] at h
  simp only at h
  cases hins : (pgsql_INSERT lib sqlschemaver (some root_n) env.hostname_insert).1 with
  | undefined =>
    rw [hins] at h
    simp at h
  | null =>
    rw [hins] at h
    simp only [Prod.mk.injEq, Option.some.injEq] at h
    exact absurd h.1.symm hk
  | values l =>
    rw [hins] at h
    simp only [Prod.mk.injEq, Option.some.injEq] at h
    obtain ⟨hk2, hdb, -⟩ := h
    obtain ⟨table, fields_n, recs_n, sql, hacc, hev, hdone⟩ :=
      pgsql_INSERT_success lib sqlschemaver root_n env.hostname_insert l hins
    obtain ⟨rec, rest, args, he, hv, hb1⟩ :=
      plan_bound_some lib root_n fields_n recs_n _ _ hacc.fields hacc.records hbh
    obtain ⟨rec2, rest2, args2, he2, hv2, hb2⟩ :=
      plan_bound_some lib root_n fields_n recs_n _ _ hacc.fields hacc.records hbi
    rw [he] at he2
    simp only [List.cons.injEq] at he2
    obtain ⟨her, -⟩ := he2
    subst her
    rw [hv] at hv2
    simp only [Option.some.injEq] at hv2
    subst hv2
    have hfa : plan_field_ar root_n = pgsql_INSERT_field_ar fields_n := by
      unfold plan_field_ar
      rw [hacc.fields]
    have hd0 : (env.hostname_insert.exec 0).dbres.is_done = true :=
      hdone 0 (by rw [he]; simp)
    rw [server_insert_hostname db root_n _ _ htable, hev, he] at hdb
    rw [← hdb]
    refine ⟨hk2.symm, rfl, ?_⟩
    simp only
    rw [hostname_rows_prepare, hostname_rows_record_events lib fields_n _ _ rec rest 0 hd0, hv,
      hfa]
    simp only [Option.getD_some, hb1, hb2]
    exact List.mem_append_right _ (List.mem_cons_self _ _)

theorem select_hostname_ne_zero_of_mem (db : Database) (hostname ip : cstr)
    (hm : ({ hostname := some hostname, ipaddr := some ip } : HostnameRow)
      ∈ db.systems_hostname) :
    select_hostname db hostname ip ≠ 0 := by
  unfold select_hostname
  have : ({ hostname := some hostname, ipaddr := some ip } : HostnameRow)
      ∈ db.systems_hostname.filter
        (fun r => decide (r.hostname = some hostname) && decide (r.ipaddr = some ip)) := by
    rw [List.mem_filter]
    exact ⟨hm, by simp⟩
  intro h0
  rw [List.length_eq_zero] at h0
  rw [h0] at this
  exact absurd this (List.not_mem_nil _)

theorem db_register_system_known_success (lib : Libs) (sqlschemaver : Nat)
    (xsltApplyStylesheet : List (cstr × cstr) → Option xmlDoc) (env : RegisterEnv)
    (db : Database) (tuple : cstr) (evs : List Event) (hostinfo_d : xmlDoc) (root_n : xmlNode)
    (hostname : cstr) (ipaddr : Option cstr) (k : Int) (db2 : Database) (evs2 : List Event)
    (hok : hostname_plan_ok lib xsltApplyStylesheet (atoi_nullsafe (some tuple)) hostinfo_d
      root_n hostname ipaddr)
    (h : db_register_system_known lib sqlschemaver xsltApplyStylesheet env db tuple evs
      = (some k, db2, evs2))
    (hk : k ≠ -1) :
    k = atoi_nullsafe (some tuple) ∧ db2.systems = db.systems
      ∧ ∃ ip, ipaddr = some ip ∧ select_hostname db2 hostname ip ≠ 0
        ∧ (select_hostname db hostname ip ≠ 0 →
            db2 = db ∧ ∃ sql res, evs2 = evs ++ [Event.PQexec_sql sql res]) := by
  unfold db_register_system_known at h
  simp only at h
  rw [hok.parsed] at h
  simp only at h
  have hbad : PQresultStatus (some ExecStatusType.PGRES_FATAL_ERROR)
      ≠ ExecStatusType.PGRES_TUPLES_OK := by decide
  have hgood : ¬ PQresultStatus (some ExecStatusType.PGRES_TUPLES_OK)
      ≠ ExecStatusType.PGRES_TUPLES_OK := by decide
  cases hip : ipaddr with
  | none =>
    rw [hip] at h
    have hres : (if env.hostname_select_error = true ∨ (none : Option cstr) = none
        then some ExecStatusType.PGRES_FATAL_ERROR
        else some ExecStatusType.PGRES_TUPLES_OK) = some ExecStatusType.PGRES_FATAL_ERROR :=
      if_pos (Or.inr rfl)
    rw [hres, if_pos hbad] at h
    simp only [Prod.mk.injEq, Option.some.injEq] at h
    exact absurd h.1.symm hk
  | some ip =>
    rw [hip] at h
    by_cases herr : env.hostname_select_error = true
    · have hres : (if env.hostname_select_error = true ∨ some ip = none
          then some ExecStatusType.PGRES_FATAL_ERROR
          else some ExecStatusType.PGRES_TUPLES_OK) = some ExecStatusType.PGRES_FATAL_ERROR :=
        if_pos (Or.inl herr)
      rw [hres, if_pos hbad] at h
      simp only [Prod.mk.injEq, Option.some.injEq] at h
      exact absurd h.1.symm hk
    · have hres : (if env.hostname_select_error = true ∨ some ip = none
          then some ExecStatusType.PGRES_FATAL_ERROR
          else some ExecStatusType.PGRES_TUPLES_OK) = some ExecStatusType.PGRES_TUPLES_OK :=
        if_neg (by simp [herr])
      rw [hres, if_neg hgood] at h
      have e1 : ((some hostname).getD "(null)".toList).take 256 = hostname := by
        rw [Option.getD_some]
        exact List.take_of_length_le hok.hostname_length
      have e2 : db_register_system_ipaddr_sent (some hostname) ((some ip).getD []) = ip := by
        rw [Option.getD_some]
        exact db_register_system_ipaddr_sent_eq _ ip (hok.ipaddr_length ip hip)
      rw [e1, e2] at h
      by_cases hn : select_hostname db hostname ip = 0
      · rw [if_pos hn] at h
        have hbi := hok.bound_ipaddr
        rw [hip] at hbi
        obtain ⟨i1, i2, i3⟩ := db_register_system_hostname_insert_success lib sqlschemaver env db
          hostinfo_d root_n _ _ (some hostname) (some ip) k db2 evs2 hok.root hok.table
          hok.bound_hostname hbi h hk
        exact ⟨i1, i2, ip, rfl, select_hostname_ne_zero_of_mem db2 hostname ip i3,
          fun hc => absurd hn hc⟩
      · rw [if_neg hn] at h
        simp only [Prod.mk.injEq, Option.some.injEq] at h
        obtain ⟨a1, a2, a3⟩ := h
        subst a2
        exact ⟨a1.symm, rfl, ip, rfl, hn, fun _ => ⟨rfl, _, _, a3.symm⟩⟩

theorem db_register_system_hostname_insert_rc (lib : Libs) (sqlschemaver : Nat)
    (env : RegisterEnv) (db : Database) (hostinfo_d : xmlDoc) (syskey : Int) (evs : List Event)
    (k : Int) (db2 : Database) (evs2 : List Event)
    (h : db_register_system_hostname_insert lib sqlschemaver env db hostinfo_d syskey evs
      = (some k, db2, evs2))
    (hk : k ≠ -1) : k = syskey := by
  unfold db_register_system_hostname_insert at h
  simp only at h
  cases hins : (pgsql_INSERT lib sqlschemaver hostinfo_d.root env.hostname_insert).1 with
  | undefined =>
    rw [hins] at h
    simp at h
  | null =>
    rw [hins] at h
    simp only [Prod.mk.injEq, Option.some.injEq] at h
    exact absurd h.1.symm hk
  | values l =>
    rw [hins] at h
    simp only [Prod.mk.injEq, Option.some.injEq] at h
    exact h.1.symm

theorem pgsql_INSERT_single_key_value (lib : Libs) (sqlschemaver : Nat) (root_n : xmlNode)
    (env : InsertEnv) (dbdata : List eurephiaVALUES)
    (hkey : (xmlGetAttrValue root_n.properties "key".toList).isSome = true)
    (hins : (pgsql_INSERT lib sqlschemaver (some root_n) env).1 = InsertResult.values dbdata)
    (hcount : eCount (some dbdata) = 1)
    (hval : (dbdata.head?.bind (fun e => e.val)) ≠ none) :
    ∃ table fields_n recs_n rec sql,
      sqldata_accepted sqlschemaver root_n table fields_n recs_n
      ∧ element_children recs_n = [rec]
      ∧ (pgsql_INSERT lib sqlschemaver (some root_n) env).2
          = Event.PQprepare sql (element_children fields_n).length env.prepare_res
            :: record_events lib fields_n env.exec [rec] 0
      ∧ (env.exec 0).dbres.is_done = true
      ∧ (dbdata.head?.bind (fun e => e.val)) = some (env.exec 0).value := by
  obtain ⟨table, fields_n, recs_n, sql, hacc, hev, hdone⟩ :=
    pgsql_INSERT_success lib sqlschemaver root_n env dbdata hins
  have hl := pgsql_INSERT_values_of_accepted lib sqlschemaver root_n env table fields_n recs_n
    dbdata hacc hins
  obtain ⟨kk, hkk⟩ := Option.isSome_iff_exists.mp hkey
  rw [hkk] at hl
  cases he : element_children recs_n with
  | nil =>
    rw [he] at hl
    simp only [List.length_nil, List.range'_zero, List.map_nil, List.foldl_nil] at hl
    rw [hl] at hval
    exact absurd rfl hval
  | cons rec rest =>
    rw [he, List.length_cons, List.range'_succ, List.map_cons] at hl
    have hm := eAdd_value_foldl_header 1 (result_entry (some kk) (env.exec 0))
      ((List.range' (0 + 1) rest.length).map (fun j => result_entry (some kk) (env.exec j)))
      (result_entry_key _ _)
    rw [← hl] at hm
    have hlen := congrArg List.length hm
    simp only [List.length_map, List.length_cons, List.length_range'] at hlen
    have hc : dbdata.length = 1 := hcount
    have hrest : rest = [] := List.length_eq_zero.mp (by omega)
    subst hrest
    simp only [List.length_nil, List.range'_zero, List.map_nil] at hm
    refine ⟨table, fields_n, recs_n, rec, sql, hacc, he, ?_, hdone 0 (by rw [he]; simp), ?_⟩
    · rw [hev, he]
    · match dbdata, hm with
      | [x], hm =>
        simp only [List.map_cons, List.map_nil, List.cons.injEq, and_true] at hm
        have hx : x.val = some (env.exec 0).value := by
          have := congrArg Prod.snd hm
          simpa [eurephiaVALUES.entry, result_entry] using this
        simp [hx]

theorem db_register_system_new_success (lib : Libs) (sqlschemaver : Nat)
    (xsltApplyStylesheet : List (cstr × cstr) → Option xmlDoc) (env : RegisterEnv)
    (db : Database) (sysinfo_d : xmlDoc) (sys_n : xmlNode) (sysid : cstr) (evs : List Event)
    (hostinfo_d : xmlDoc) (host_n : xmlNode) (hostname : cstr) (ipaddr : Option cstr) (k : Int)
    (db2 : Database) (evs2 : List Event)
    (hsys : systems_plan_ok lib xsltApplyStylesheet sysinfo_d sys_n sysid)
    (hok : hostname_plan_ok lib xsltApplyStylesheet k hostinfo_d host_n hostname ipaddr)
    (h : db_register_system_new lib sqlschemaver xsltApplyStylesheet env db sysinfo_d evs
      = (some k, db2, evs2))
    (hk : k ≠ -1) :
    ∃ t, db2.systems = db.systems ++ [{ syskey := t, sysid := some sysid }]
      ∧ k = atoi_nullsafe (some t)
      ∧ ({ hostname := some hostname, ipaddr := ipaddr } : HostnameRow)
          ∈ db2.systems_hostname := by
  unfold db_register_system_new at h
  simp only at h
  rw [hsys.root] at h
  cases hins : (pgsql_INSERT lib sqlschemaver (some sys_n) env.systems_insert).1 with
  | undefined =>
    rw [hins] at h
    simp at h
  | null =>
    rw [hins] at h
    simp only [Prod.mk.injEq, Option.some.injEq] at h
    exact absurd h.1.symm hk
  | values dbdata =>
    rw [hins] at h
    simp only at h
    by_cases hc : eCount (some dbdata) ≠ 1 ∨ (dbdata.head?.bind (fun e => e.val)) = none
    · rw [if_pos hc] at h
      simp only [Prod.mk.injEq, Option.some.injEq] at h
      exact absurd h.1.symm hk
    · rw [if_neg hc] at h
      have hcount : eCount (some dbdata) = 1 := by
        by_contra hne
        exact hc (Or.inl hne)
      have hval : (dbdata.head?.bind (fun e => e.val)) ≠ none := fun hv => hc (Or.inr hv)
      obtain ⟨table, fields_n, recs_n, rec, sql, hacc, he, hev, hdone, hhead⟩ :=
        pgsql_INSERT_single_key_value lib sqlschemaver sys_n env.systems_insert dbdata hsys.key
          hins hcount hval
      rw [hhead] at h
      cases hh : sqldataGetHostInfo lib true xsltApplyStylesheet
          (atoi_nullsafe (some (env.systems_insert.exec 0).value)) with
      | none =>
        rw [hh] at h
        simp only [Prod.mk.injEq, Option.some.injEq] at h
        exact absurd h.1.symm hk
      | some hi =>
        obtain ⟨hd, hn, hip⟩ := hi
        rw [hh] at h
        simp only at h
        have hks := db_register_system_hostname_insert_rc lib sqlschemaver env _ hd _ _ k db2
          evs2 h hk
        rw [← hks] at hh h
        rw [hok.parsed] at hh
        simp only [Option.some.injEq, Prod.mk.injEq] at hh
        obtain ⟨hd1, -, -⟩ := hh
        subst hd1
        obtain ⟨-, i2, i3⟩ := db_register_system_hostname_insert_success lib sqlschemaver env _
          hostinfo_d host_n k _ (some hostname) ipaddr k db2 evs2 hok.root hok.table
          hok.bound_hostname hok.bound_ipaddr h hk
        obtain ⟨rec2, rest2, args, he2, hv, hb⟩ :=
          plan_bound_some lib sys_n fields_n recs_n _ _ hacc.fields hacc.records hsys.bound
        rw [he] at he2
        simp only [List.cons.injEq] at he2
        obtain ⟨her, -⟩ := he2
        subst her
        have hfa : plan_field_ar sys_n = pgsql_INSERT_field_ar fields_n := by
          unfold plan_field_ar
          rw [hacc.fields]
        refine ⟨(env.systems_insert.exec 0).value, ?_, hks, i3⟩
        rw [i2, server_insert_systems db sys_n _ _ hsys.table, hev, systems_rows_prepare,
          systems_rows_record_events lib fields_n _ _ _ rec 0 0 hdone, hv, hfa]
        simp only [Option.getD_some, hb]
        rfl

theorem db_register_system_of_plan (lib : Libs) (sqlschemaver : Nat)
    (xsltApplyStylesheet : List (cstr × cstr) → Option xmlDoc) (env : RegisterEnv)
    (db : Database) (sysinfo_d : xmlDoc) (sys_n : xmlNode) (sysid : cstr)
    (hsys : systems_plan_ok lib xsltApplyStylesheet sysinfo_d sys_n sysid) :
    db_register_system lib sqlschemaver xsltApplyStylesheet env db
      = if env.systems_select_error = true then
          (some (-1), db,
            [Event.PQexec_sql (db_register_system_sysid_sql sysid)
              (some ExecStatusType.PGRES_FATAL_ERROR)])
        else
          match select_systems db sysid with
          | [] =>
            db_register_system_new lib sqlschemaver xsltApplyStylesheet env db sysinfo_d
              [Event.PQexec_sql (db_register_system_sysid_sql sysid)
                (some ExecStatusType.PGRES_TUPLES_OK)]
          | [tuple] =>
            db_register_system_known lib sqlschemaver xsltApplyStylesheet env db tuple
              [Event.PQexec_sql (db_register_system_sysid_sql sysid)
                (some ExecStatusType.PGRES_TUPLES_OK)]
          | _ =>
            (some (-1), db,
              [Event.PQexec_sql (db_register_system_sysid_sql sysid)
                (some ExecStatusType.PGRES_TUPLES_OK)]) := by
  have hbad : PQresultStatus (some ExecStatusType.PGRES_FATAL_ERROR)
      ≠ ExecStatusType.PGRES_TUPLES_OK := by decide
  have hgood : ¬ PQresultStatus (some ExecStatusType.PGRES_TUPLES_OK)
      ≠ ExecStatusType.PGRES_TUPLES_OK := by decide
  unfold db_register_system
  rw [hsys.parsed]
  simp only
  rw [hsys.value]
  simp only
  rw [List.take_of_length_le hsys.value_length]
  by_cases herr : env.systems_select_error = true
  · rw [if_pos herr, if_pos herr, if_pos hbad]
  · rw [if_neg herr, if_neg herr, if_neg hgood]

theorem select_systems_append (db : Database) (rows : List SystemsRow)
    (hostnames : List HostnameRow) (sysid : cstr) :
    select_systems { systems := db.systems ++ rows, systems_hostname := hostnames } sysid
      = select_systems db sysid
        ++ select_systems { systems := rows, systems_hostname := [] } sysid := by
  simp [select_systems, List.filter_append]

theorem select_systems_of_systems_eq (db db2 : Database) (sysid : cstr)
    (h : db2.systems = db.systems) : select_systems db2 sysid = select_systems db sysid := by
  unfold select_systems
  rw [h]

theorem db_register_system_known_rc (lib : Libs) (sqlschemaver : Nat)
    (xsltApplyStylesheet : List (cstr × cstr) → Option xmlDoc) (env : RegisterEnv)
    (db : Database) (tuple : cstr) (evs : List Event) (k : Int) (db2 : Database)
    (evs2 : List Event)
    (h : db_register_system_known lib sqlschemaver xsltApplyStylesheet env db tuple evs
      = (some k, db2, evs2))
    (hk : k ≠ -1) : k = atoi_nullsafe (some tuple) := by
  unfold db_register_system_known at h
  simp only at h
  cases hh : sqldataGetHostInfo lib true xsltApplyStylesheet (atoi_nullsafe (some tuple)) with
  | none =>
    rw [hh] at h
    simp only [Prod.mk.injEq, Option.some.injEq] at h
    exact absurd h.1.symm hk
  | some hi =>
    obtain ⟨hd, hn, hip⟩ := hi
    rw [hh] at h
    simp only at h
    split_ifs at h <;>
      first
      | exact db_register_system_hostname_insert_rc lib sqlschemaver env db hd _ _ k db2 evs2 h hk
      | (simp only [Prod.mk.injEq, Option.some.injEq] at h
         first
         | exact absurd h.1.symm hk
         | exact h.1.symm)

theorem db_register_system_registered (lib : Libs) (sqlschemaver : Nat)
    (xsltApplyStylesheet : List (cstr × cstr) → Option xmlDoc) (env : RegisterEnv)
    (db : Database) (sysinfo_d : xmlDoc) (sys_n : xmlNode) (sysid : cstr)
    (hostinfo_d : xmlDoc) (host_n : xmlNode) (hostname : cstr) (ipaddr : Option cstr) (k : Int)
    (db2 : Database) (evs2 : List Event)
    (hsys : systems_plan_ok lib xsltApplyStylesheet sysinfo_d sys_n sysid)
    (hok : hostname_plan_ok lib xsltApplyStylesheet k hostinfo_d host_n hostname ipaddr)
    (h : db_register_system lib sqlschemaver xsltApplyStylesheet env db = (some k, db2, evs2))
    (hk : k ≠ -1) :
    ∃ t, select_systems db2 sysid = [t] ∧ k = atoi_nullsafe (some t)
      ∧ ∀ ip, ipaddr = some ip → select_hostname db2 hostname ip ≠ 0 := by
  rw [db_register_system_of_plan lib sqlschemaver xsltApplyStylesheet env db sysinfo_d sys_n
    sysid hsys] at h
  by_cases herr : env.systems_select_error = true
  · rw [if_pos herr] at h
    simp only [Prod.mk.injEq, Option.some.injEq] at h
    exact absurd h.1.symm hk
  · rw [if_neg herr] at h
    match hsel : select_systems db sysid with
    | [] =>
      rw [hsel] at h
      simp only at h
      obtain ⟨t, i1, i2, i3⟩ := db_register_system_new_success lib sqlschemaver
        xsltApplyStylesheet env db sysinfo_d sys_n sysid _ hostinfo_d host_n hostname ipaddr k
        db2 evs2 hsys hok h hk
      refine ⟨t, ?_, i2, ?_⟩
      · have e : db2 = { systems := db.systems ++ [{ syskey := t, sysid := some sysid }]
                         systems_hostname := db2.systems_hostname } := by
          cases db2
          simp only at i1
          rw [i1]
        rw [e, select_systems_append, hsel]
        simp [select_systems]
      · intro ip hip
        rw [hip] at i3
        exact select_hostname_ne_zero_of_mem db2 hostname ip i3
    | [t] =>
      rw [hsel] at h
      simp only at h
      have hkt : k = atoi_nullsafe (some t) :=
        db_register_system_known_rc lib sqlschemaver xsltApplyStylesheet env db t _ k db2 evs2
          h hk
      rw [hkt] at hok
      obtain ⟨-, i2, ip, i3, i4, -⟩ := db_register_system_known_success lib sqlschemaver
        xsltApplyStylesheet env db t _ hostinfo_d host_n hostname ipaddr k db2 evs2 hok h hk
      refine ⟨t, ?_, hkt, ?_⟩
      · rw [select_systems_of_systems_eq db db2 sysid i2, hsel]
      · intro ip2 hip2
        rw [i3] at hip2
        simp only [Option.some.injEq] at hip2
        rw [← hip2]
        exact i4
    | a :: b :: c =>
      rw [hsel] at h
      simp only [Prod.mk.injEq, Option.some.injEq] at h
      exact absurd h.1.symm hk

/-- C19 (amended): for a report whose systems document names the table
systems and a key and gives a sysid of at most 256 bytes, whose
systems_hostname document names the table systems_hostname and gives a
hostname of at most 256 bytes (and an IP address of at most 3771 bytes, if
any), and whose documents give the columns sysid, hostname and ipaddr the
values read from the fields of these names: when `db_register_system` is
called twice in succession with the report, the second call on the tables the
first call left, and both calls succeed, then the second call returns the
syskey of the first, leaves both tables as they were, and neither prepares
nor executes an insertion. -/
theorem db_register_system_twice (lib : Libs) (sqlschemaver : Nat)
    (xsltApplyStylesheet : List (cstr × cstr) → Option xmlDoc) (env1 env2 : RegisterEnv)
    (db : Database) (sysinfo_d : xmlDoc) (sys_n : xmlNode) (sysid : cstr)
    (hostinfo_d : xmlDoc) (host_n : xmlNode) (hostname : cstr) (ipaddr : Option cstr)
    (k1 k2 : Int) (db1 db2 : Database) (evs1 evs2 : List Event)
    (hsys : systems_plan_ok lib xsltApplyStylesheet sysinfo_d sys_n sysid)
    (hok : hostname_plan_ok lib xsltApplyStylesheet k1 hostinfo_d host_n hostname ipaddr)
    (h1 : db_register_system lib sqlschemaver xsltApplyStylesheet env1 db = (some k1, db1, evs1))
    (h2 : db_register_system lib sqlschemaver xsltApplyStylesheet env2 db1
      = (some k2, db2, evs2))
    (hk1 : k1 ≠ -1) (hk2 : k2 ≠ -1) :
    k2 = k1 ∧ db2 = db1 ∧ evs2.any Event.is_prepare = false
      ∧ evs2.any Event.is_exec_prepared = false := by
  obtain ⟨t, hsel, hkt, hhost⟩ := db_register_system_registered lib sqlschemaver
    xsltApplyStylesheet env1 db sysinfo_d sys_n sysid hostinfo_d host_n hostname ipaddr k1 db1
    evs1 hsys hok h1 hk1
  rw [db_register_system_of_plan lib sqlschemaver xsltApplyStylesheet env2 db1 sysinfo_d sys_n
    sysid hsys] at h2
  by_cases herr : env2.systems_select_error = true
  · rw [if_pos herr] at h2
    simp only [Prod.mk.injEq, Option.some.injEq] at h2
    exact absurd h2.1.symm hk2
  · rw [if_neg herr, hsel] at h2
    simp only at h2
    rw [hkt] at hok
    obtain ⟨i1, -, ip, i3, -, i5⟩ := db_register_system_known_success lib sqlschemaver
      xsltApplyStylesheet env2 db1 t _ hostinfo_d host_n hostname ipaddr k2 db2 evs2 hok h2 hk2
    obtain ⟨e1, sql, res, e2⟩ := i5 (hhost ip i3)
    refine ⟨i1.trans hkt.symm, e1, ?_, ?_⟩
    · rw [e2]
      rfl
    · rw [e2]
      rfl

theorem db_register_system_twice_witness :
    db_register_system sample_libs 100 (sample_report "host1".toList (some "10.0.0.1"))
        (sample_register_env "7") sample_database
      = (some 7, sample_database_registered,
          [Event.PQexec_sql "SELECT syskey FROM systems WHERE sysid = '5e1f'".toList
              (some ExecStatusType.PGRES_TUPLES_OK),
            Event.PQprepare
              "INSERT INTO systems (sysid,dmidata) VALUES ($1,$2) RETURNING syskey".toList 2
              (some ExecStatusType.PGRES_COMMAND_OK),
            Event.PQexecPrepared [some "5e1f".toList, some "dmi".toList]
              (some ExecStatusType.PGRES_TUPLES_OK),
            Event.PQprepare
              "INSERT INTO systems_hostname (syskey,hostname,ipaddr) VALUES ($1,$2,$3)".toList 3
              (some ExecStatusType.PGRES_COMMAND_OK),
            Event.PQexecPrepared [some "7".toList, some "host1".toList, some "10.0.0.1".toList]
              (some ExecStatusType.PGRES_COMMAND_OK)])
    ∧ db_register_system sample_libs 100 (sample_report "host1".toList (some "10.0.0.1"))
        (sample_register_env "8") sample_database_registered
      = (some 7, sample_database_registered,
          [Event.PQexec_sql "SELECT syskey FROM systems WHERE sysid = '5e1f'".toList
              (some ExecStatusType.PGRES_TUPLES_OK),
            Event.PQexec_sql
              "SELECT syskey FROM systems_hostname WHERE hostname='host1'AND ipaddr='10.0.0.1'".toList
              (some ExecStatusType.PGRES_TUPLES_OK)])
    ∧ ((7 : Int) = 7 ∧ sample_database_registered = sample_database_registered
      ∧ [Event.PQexec_sql "SELECT syskey FROM systems WHERE sysid = '5e1f'".toList
              (some ExecStatusType.PGRES_TUPLES_OK),
            Event.PQexec_sql
              "SELECT syskey FROM systems_hostname WHERE hostname='host1'AND ipaddr='10.0.0.1'".toList
              (some ExecStatusType.PGRES_TUPLES_OK)].any Event.is_prepare = false
      ∧ [Event.PQexec_sql "SELECT syskey FROM systems WHERE sysid = '5e1f'".toList
              (some ExecStatusType.PGRES_TUPLES_OK),
            Event.PQexec_sql
              "SELECT syskey FROM systems_hostname WHERE hostname='host1'AND ipaddr='10.0.0.1'".toList
              (some ExecStatusType.PGRES_TUPLES_OK)].any Event.is_exec_prepared = false) :=
  have h1 : db_register_system sample_libs 100
      (sample_report "host1".toList (some "10.0.0.1")) (sample_register_env "7") sample_database
      = _ := by decide
  have h2 : db_register_system sample_libs 100
      (sample_report "host1".toList (some "10.0.0.1")) (sample_register_env "8")
      sample_database_registered = _ := by decide
  ⟨h1, h2,
    db_register_system_twice sample_libs 100 (sample_report "host1".toList (some "10.0.0.1"))
      (sample_register_env "7") (sample_register_env "8") sample_database
      { root := some sample_systems_plan } sample_systems_plan "5e1f".toList
      { root := some (sample_hostname_plan "7".toList "host1".toList (some "10.0.0.1")) }
      (sample_hostname_plan "7".toList "host1".toList (some "10.0.0.1")) "host1".toList
      (some "10.0.0.1".toList) 7 7 sample_database_registered sample_database_registered _ _
      ⟨rfl, rfl, by decide, by decide, by decide, by decide, by decide⟩
      ⟨rfl, rfl, by decide, by decide, fun ip h => by cases h; decide, by decide, by decide⟩
      h1 h2 (by decide) (by decide)⟩

set_option maxRecDepth 100000 in
/-- C19 (counterexample): a report from a host whose name has 257 bytes, with
the address 10.0.0.1, registered twice in succession on a server that stores
the hostname as it is given.  The first call inserts the system as syskey 7
and the hostname row and returns 7.  The second call finds the system and
returns 7 as well, but its lookup asks for the first 256 bytes of the hostname
(`%.256s`), finds no row, and inserts the hostname row a second time. -/
theorem db_register_system_long_hostname_twice :
    (db_register_system sample_libs 100 (sample_report sample_long_hostname (some "10.0.0.1"))
        (sample_register_env "7") sample_database).1 = some 7
    ∧ (db_register_system sample_libs 100 (sample_report sample_long_hostname (some "10.0.0.1"))
        (sample_register_env "7") sample_database).2.1 = sample_database_long
    ∧ (db_register_system sample_libs 100 (sample_report sample_long_hostname (some "10.0.0.1"))
        (sample_register_env "8") sample_database_long).1 = some 7
    ∧ (db_register_system sample_libs 100 (sample_report sample_long_hostname (some "10.0.0.1"))
        (sample_register_env "8") sample_database_long).2.1
      = { systems := [{ syskey := "7".toList, sysid := some "5e1f".toList }]
          systems_hostname :=
            [{ hostname := some sample_long_hostname, ipaddr := some "10.0.0.1".toList },
             { hostname := some sample_long_hostname, ipaddr := some "10.0.0.1".toList }] }
    ∧ (db_register_system sample_libs 100 (sample_report sample_long_hostname (some "10.0.0.1"))
        (sample_register_env "8") sample_database_long).2.1 ≠ sample_database_long
    ∧ (db_register_system sample_libs 100 (sample_report sample_long_hostname (some "10.0.0.1"))
        (sample_register_env "8") sample_database_long).2.2.any Event.is_exec_prepared
      = true := by
  refine ⟨by decide, by decide, by decide, by decide, by decide, by decide⟩


/-! ## Registering a run -/

theorem pgsql_INSERT_eCount (lib : Libs) (sqlschemaver : Nat) (root_n : xmlNode)
    (env : InsertEnv) (table : cstr) (fields_n recs_n : xmlNode) (l : List eurephiaVALUES)
    (hacc : sqldata_accepted sqlschemaver root_n table fields_n recs_n)
    (hres : (pgsql_INSERT lib sqlschemaver (some root_n) env).1 = InsertResult.values l) :
    eCount (some l) = max 1 (element_children recs_n).length := by
  have hl := pgsql_INSERT_values_of_accepted lib sqlschemaver root_n env table fields_n recs_n l
    hacc hres
  cases he : (element_children recs_n).length with
  | zero =>
    rw [he] at hl
    subst hl
    rfl
  | succ c =>
    rw [he, List.range'_succ, List.map_cons] at hl
    have hm := eAdd_value_foldl_header 1
      (result_entry (xmlGetAttrValue root_n.properties "key".toList) (env.exec 0))
      ((List.range' (0 + 1) c).map
        (fun j => result_entry (xmlGetAttrValue root_n.properties "key".toList) (env.exec j)))
      (result_entry_key _ _)
    rw [← hl] at hm
    have hlen := congrArg List.length hm
    simp only [List.length_map, List.length_cons, List.length_range'] at hlen
    show l.length = max 1 (c + 1)
    omega

theorem db_register_rtevalrun_plans_rc (lib : Libs) (sqlschemaver : Nat)
    (xsltApplyStylesheet : List (cstr × cstr) → Option xmlDoc) (submid : Nat)
    (syskey rterid : Int) (report_fname : cstr) (env : RunInsertEnv) (k : Int)
    (h : (db_register_rtevalrun_plans lib sqlschemaver xsltApplyStylesheet submid syskey rterid
      report_fname env).1 = some k) :
    k = (db_register_rtevalrun (RunEnv.of_plans lib sqlschemaver xsltApplyStylesheet submid
      syskey rterid report_fname env)).1 := by
  unfold db_register_rtevalrun_plans at h
  unfold RunEnv.of_plans db_register_rtevalrun
  generalize parseToSQLdata true xsltApplyStylesheet
      { table := some "rtevalruns".toList, submid := submid
        syskey := (syskey % 4294967296).toNat, report_filename := some report_fname
        rterid := (rterid % 4294967296).toNat } = p1 at h ⊢
  generalize parseToSQLdata true xsltApplyStylesheet
      { table := some "rtevalruns_details".toList, submid := 0, syskey := 0
        report_filename := none, rterid := (rterid % 4294967296).toNat } = p2 at h ⊢
  cases p1 with
  | none =>
    simp only [Option.some.injEq] at h
    simp [← h]
  | some d =>
    simp only at h ⊢
    generalize (pgsql_INSERT lib sqlschemaver d.root env.run).1 = r1 at h ⊢
    cases r1 with
    | undefined => simp at h
    | null =>
      simp only [Option.some.injEq] at h
      simp [← h]
    | values dbdata =>
      simp only at h ⊢
      by_cases hc : eCount (some dbdata) ≠ 1
      · rw [if_pos hc] at h
        simp only [Option.some.injEq] at h
        simp [← h, hc]
      · rw [if_neg hc] at h
        have hc1 : eCount (some dbdata) = 1 := by simpa using hc
        cases p2 with
        | none =>
          simp only [Option.some.injEq] at h
          simp [← h, hc1]
        | some d2 =>
          simp only at h ⊢
          generalize (pgsql_INSERT lib sqlschemaver d2.root env.dets).1 = r2 at h ⊢
          cases r2 with
          | undefined => simp at h
          | null =>
            simp only [Option.some.injEq] at h
            simp [← h, hc1]
          | values dbdata2 =>
            simp only [Option.some.injEq] at h
            simp [← h, hc1]

/-- C21 (code defect): `db_register_rtevalrun` tests `eCount(dbdata) != 1`
after the rtevalruns insertion, and `eCount` of the list `pgsql_INSERT`
returns for a document without records is 1, as the list then holds the empty
header element alone (`db_register_system` tests `!dbdata->val` as well).  For
the sample report whose rtevalruns document has no records the statement is
prepared and never executed, no row is inserted into rtevalruns, and the
function goes on to the details and returns 1, where the claim has failure.
For two records it returns -1. -/
theorem db_register_rtevalrun_without_run_record :
    (element_children (xml_element "records" [] [])).length = 0
    ∧ db_register_rtevalrun_plans sample_libs 100 (sample_run_report [] [sample_run_record])
        1 5 17 "/var/lib/rteval/reports/h1/report-17.xml".toList sample_run_insert_env
      = (some 1,
          [Event.PQprepare "INSERT INTO rtevalruns (rterid,submid) VALUES ($1,$2)".toList 2
              (some ExecStatusType.PGRES_COMMAND_OK),
            Event.PQprepare
              "INSERT INTO rtevalruns_details (rterid,xmldata) VALUES ($1,$2)".toList 2
              (some ExecStatusType.PGRES_COMMAND_OK),
            Event.PQexecPrepared [some "17".toList, some "x".toList]
              (some ExecStatusType.PGRES_COMMAND_OK)])
    ∧ RunEnv.of_plans sample_libs 100 (sample_run_report [] [sample_run_record])
        1 5 17 "/var/lib/rteval/reports/h1/report-17.xml".toList sample_run_insert_env
      = { rtevalrun_d := true, ins_run := some 1, rtevalrundets_d := true, ins_dets := some 1 }
    ∧ (db_register_rtevalrun
        { rtevalrun_d := true, ins_run := some 1, rtevalrundets_d := true
          ins_dets := some 1 }).1 = 1
    ∧ (db_register_rtevalrun_plans sample_libs 100
        (sample_run_report [sample_run_record, sample_run_record] [sample_run_record])
        1 5 17 "/var/lib/rteval/reports/h1/report-17.xml".toList sample_run_insert_env).1
      = some (-1) := by
  refine ⟨by decide, by decide, by decide, by decide, by decide⟩


/-! ## Registering the measurements -/

/-- C22: `db_register_cyclictest` goes through cyclic_statistics,
cyclic_histogram and cyclic_rawdata in this order and inserts every plan that
is non-empty, up to and including the first one whose insertion fails.  It
returns -1 if and only if the insertion of a non-empty plan fails, and 1
otherwise: also when all three plans are empty, in which case it makes no
insertion. -/
theorem db_register_cyclictest_result (e1 e2 e3 : CyclicTableEnv) :
    ((db_register_cyclictest (e1, e2, e3)).1 = -1 ↔
      (e1.plan_nonempty = true ∧ e1.ins = none)
        ∨ (e2.plan_nonempty = true ∧ e2.ins = none)
        ∨ (e3.plan_nonempty = true ∧ e3.ins = none))
    ∧ ((db_register_cyclictest (e1, e2, e3)).1 ≠ -1 →
        (db_register_cyclictest (e1, e2, e3)).1 = 1)
    ∧ (db_register_cyclictest (e1, e2, e3)).2
        = spec_cyclic_inserts
            [("cyclic_statistics", e1), ("cyclic_histogram", e2), ("cyclic_rawdata", e3)]
    ∧ (e1.plan_nonempty = false → e2.plan_nonempty = false → e3.plan_nonempty = false →
        db_register_cyclictest (e1, e2, e3) = (1, [])) := by
  obtain ⟨n1, i1⟩ := e1
  obtain ⟨n2, i2⟩ := e2
  obtain ⟨n3, i3⟩ := e3
  cases n1 <;> cases n2 <;> cases n3 <;> cases i1 <;> cases i2 <;> cases i3 <;>
    simp [db_register_cyclictest, db_register_cyclictest_loop, cyclictables,
      spec_cyclic_inserts]


/-! ## A run id below 1 -/

/-- C23 (code defect): `db_get_new_rterid` is documented to return a value
above 0 on success and -1 otherwise, and it logs the failure for every value
below 1, but for the sequence value 0 it returns 0, not -1, and
`parse_report` tests `rterid < 0`.  For a negative sequence value the job ends
with `STAT_RTERIDREG` (7) before BEGIN, as claimed; for the value 0 it does
not: BEGIN is sent and `db_register_rtevalrun` is called with rterid 0. -/
theorem db_get_new_rterid_zero_is_returned :
    db_get_new_rterid { dbres := some ExecStatusType.PGRES_TUPLES_OK, ntuples := 1, value := 0 }
      = 0
    ∧ db_get_new_rterid_logs_failure
        (db_get_new_rterid
          { dbres := some ExecStatusType.PGRES_TUPLES_OK, ntuples := 1, value := 0 }) = true
    ∧ db_get_new_rterid { dbres := some ExecStatusType.PGRES_TUPLES_OK, ntuples := 1, value := 0 }
      ≠ -1
    ∧ (parse_report sample_thrdata sample_job sample_env_rterid_zero).1 = STAT_SUCCESS
    ∧ (parse_report sample_thrdata sample_job sample_env_rterid_zero).2.any Event.is_begin
      = true
    ∧ (Event.db_register_rtevalrun 1 5 0 "/var/lib/rteval/reports/h1/report-0.xml".toList)
      ∈ (parse_report sample_thrdata sample_job sample_env_rterid_zero).2
    ∧ (parse_report sample_thrdata sample_job sample_env_rterid_negative).1 = STAT_RTERIDREG
    ∧ (parse_report sample_thrdata sample_job sample_env_rterid_negative).2.any Event.is_begin
      = false
    ∧ (parse_report sample_thrdata sample_job sample_env_rterid_negative).2.any
        Event.is_register_rtevalrun = false := by
  refine ⟨by decide, by decide, by decide, by decide, by decide, by decide, by decide, by decide,
    by decide⟩


/-! ## Waiting for a notification -/

/-- C24 (code defect): after a successful LISTEN, `db_wait_notification` sends
UNLISTEN ("Stop listening when we exit") when the loop is left by `break`: on
a notification, on an interrupted wait with the shutdown flag set, and for an
invalid socket.  When `select` fails without shutdown, and when the
connection is lost and the reset fails, the function jumps to `exit:`, which
lies behind the UNLISTEN: it returns -1 with LISTEN as the only statement
sent, whatever rounds would follow and whatever the server would answer to
UNLISTEN. -/
theorem db_wait_notification_goto_exit_skips_unlisten :
    (∀ (rest : List WaitEnv) (unlisten_res : PGresult),
      db_wait_notification "rteval_submq".toList (some ExecStatusType.PGRES_COMMAND_OK)
          (sample_wait_quiet :: sample_wait_select_fails :: rest) unlisten_res
        = some (-1, [Event.PQexec_sql "LISTEN rteval_submq".toList
            (some ExecStatusType.PGRES_COMMAND_OK)]))
    ∧ (∀ (rest : List WaitEnv) (unlisten_res : PGresult),
      db_wait_notification "rteval_submq".toList (some ExecStatusType.PGRES_COMMAND_OK)
          (sample_wait_quiet :: sample_wait_connection_lost :: rest) unlisten_res
        = some (-1, [Event.PQexec_sql "LISTEN rteval_submq".toList
            (some ExecStatusType.PGRES_COMMAND_OK)]))
    ∧ db_wait_notification "rteval_submq".toList (some ExecStatusType.PGRES_COMMAND_OK)
          [sample_wait_quiet, sample_wait_notified] (some ExecStatusType.PGRES_COMMAND_OK)
        = some (1, [Event.PQexec_sql "LISTEN rteval_submq".toList
              (some ExecStatusType.PGRES_COMMAND_OK),
            Event.PQexec_sql "UNLISTEN rteval_submq".toList
              (some ExecStatusType.PGRES_COMMAND_OK)])
    ∧ db_wait_notification "rteval_submq".toList (some ExecStatusType.PGRES_COMMAND_OK)
          [sample_wait_quiet, sample_wait_shutdown] (some ExecStatusType.PGRES_COMMAND_OK)
        = some (1, [Event.PQexec_sql "LISTEN rteval_submq".toList
              (some ExecStatusType.PGRES_COMMAND_OK),
            Event.PQexec_sql "UNLISTEN rteval_submq".toList
              (some ExecStatusType.PGRES_COMMAND_OK)])
    ∧ db_wait_notification "rteval_submq".toList (some ExecStatusType.PGRES_COMMAND_OK)
          [sample_wait_quiet, sample_wait_no_socket] (some ExecStatusType.PGRES_COMMAND_OK)
        = some (-1, [Event.PQexec_sql "LISTEN rteval_submq".toList
              (some ExecStatusType.PGRES_COMMAND_OK),
            Event.PQexec_sql "UNLISTEN rteval_submq".toList
              (some ExecStatusType.PGRES_COMMAND_OK)]) := by
  refine ⟨fun rest unlisten_res => rfl, fun rest unlisten_res => rfl, by decide, by decide,
    by decide⟩


/-! ## The shutdown messages -/

theorem process_submission_queue_send_accepted (job : parseJob_t) (sends : List SendEnv) :
    ∀ (q : List parseJob_t),
      (∀ s ∈ sends, s.accepted = true ∨ s.full_queue = true) →
      1 ≤ (sends.filter SendEnv.accepted).length →
      ∃ rest, process_submission_queue_send job sends q = some (SendEnd.done, rest, q ++ [job])
        ∧ (∀ s ∈ rest, s.accepted = true ∨ s.full_queue = true)
        ∧ (rest.filter SendEnv.accepted).length + 1
            = (sends.filter SendEnv.accepted).length := by
  induction sends with
  | nil =>
    intro q _ h
    simp at h
  | cons s rest ih =>
    intro q hall hcount
    have hrest : ∀ t ∈ rest, t.accepted = true ∨ t.full_queue = true :=
      fun t ht => hall t (List.mem_cons_of_mem _ ht)
    rw [process_submission_queue_send]
    rcases hall s (List.mem_cons_self _ _) with ha | hf
    · have ha2 := ha
      simp only [SendEnv.accepted, Bool.and_eq_true, decide_eq_true_eq] at ha2
      obtain ⟨h1, h2⟩ := ha2
      have hn : ¬ s.res < 0 := by omega
      simp only [hn, false_and, if_false, h2]
      refine ⟨rest, rfl, hrest, ?_⟩
      rw [List.filter_cons_of_pos ha]
      rfl
    · have hf2 := hf
      simp only [SendEnv.full_queue, Bool.and_eq_true, decide_eq_true_eq, Bool.not_eq_true']
        at hf2
      obtain ⟨⟨h1, h2⟩, h3⟩ := hf2
      have hna : ¬ s.accepted = true := by
        simp only [SendEnv.accepted, Bool.and_eq_true, decide_eq_true_eq]
        intro hc
        omega
      rw [List.filter_cons_of_neg hna] at hcount ⊢
      simp only [h1, h2, ne_eq, not_true_eq_false, and_false, if_false, if_true, h3,
        Bool.false_eq_true]
      exact ih q hrest hcount

theorem process_submission_queue_exit_loop_all (job : parseJob_t) (k : Nat) :
    ∀ (sends : List SendEnv) (q : List parseJob_t),
      (∀ s ∈ sends, s.accepted = true ∨ s.full_queue = true) →
      k ≤ (sends.filter SendEnv.accepted).length →
      process_submission_queue_exit_loop job k sends q = some (q ++ List.replicate k job) := by
  induction k with
  | zero =>
    intro sends q _ _
    simp [process_submission_queue_exit_loop]
  | succ n ih =>
    intro sends q hall hcount
    obtain ⟨rest, h1, h2, h3⟩ := process_submission_queue_send_accepted job sends q hall
      (by omega)
    rw [process_submission_queue_exit_loop, h1]
    simp only
    rw [ih rest (q ++ [job]) h2 (by omega), List.replicate_succ, List.append_assoc]
    rfl

/-- C25 (code defect): the loop that sends a shutdown message repeats while
`errno == EAGAIN`, and reads `errno` after the pause `sleep(10)` that follows
a full queue.  A `sleep` that a signal handler cuts short returns with `EINTR`
in `errno`: the loop is left although the queue has refused the message, and
the `for` loop counts the message as sent.  With one active worker, a full
queue and an interrupted pause, no send fails fatally and no message is
enqueued; with two workers one message is enqueued.  When the pause runs its
whole time the send is repeated and two empty descriptors are enqueued for two
workers. -/
theorem process_submission_queue_exit_interrupted_pause :
    process_submission_queue_exit 0 1 [sample_send_full_interrupted] = some (0, [])
    ∧ process_submission_queue_exit 0 2 [sample_send_full_interrupted, sample_send_accepted]
        = some (0, [empty_job])
    ∧ process_submission_queue_exit 0 2
          [sample_send_full, sample_send_accepted, sample_send_full, sample_send_full,
            sample_send_accepted]
        = some (0, [empty_job, empty_job])
    ∧ empty_job.status = jobStatus.jbNONE := by
  refine ⟨by decide, by decide, by decide, by decide⟩


/-! ## The configuration -/

theorem eGet_value_cons (e : eurephiaVALUES) (rest : List eurephiaVALUES) (k : cstr) :
    eGet_value (some (e :: rest)) (some k)
      = if e.key = some k then e.val else eGet_value (some rest) (some k) := by
  unfold eGet_value eGet_valuestruct
  simp only [List.find?_cons]
  by_cases h : e.key = some k
  · simp [h]
  · simp [h]

theorem eGet_value_nil (k : cstr) : eGet_value (some []) (some k) = none := rfl

theorem eGet_value_append_singleton (l : List eurephiaVALUES) (x : eurephiaVALUES) (k : cstr) :
    eGet_value (some (l ++ [x])) (some k)
      = if (l.any (fun e => decide (e.key = some k))) = true then eGet_value (some l) (some k)
        else if x.key = some k then x.val else none := by
  induction l with
  | nil =>
    simp only [List.nil_append, List.any_nil, Bool.false_eq_true, if_false]
    rw [eGet_value_cons, eGet_value_nil]
  | cons e rest ih =>
    rw [List.cons_append, eGet_value_cons, eGet_value_cons, ih]
    by_cases h : e.key = some k
    · simp [h]
    · simp [h]

theorem eUpdate_valuestruct_loop_get (newval : eurephiaVALUES) (k : cstr)
    (vls : List eurephiaVALUES) :
    ∀ l, eUpdate_valuestruct_loop newval vls = some l →
      eGet_value (some l) (some k)
        = if newval.key = some k then newval.val else eGet_value (some vls) (some k) := by
  induction vls with
  | nil =>
    intro l h
    simp [eUpdate_valuestruct_loop] at h
  | cons ptr rest ih =>
    intro l h
    rw [eUpdate_valuestruct_loop] at h
    by_cases hc : ptr.key ≠ none ∧ newval.key = ptr.key
    · rw [if_pos hc] at h
      simp only [Option.some.injEq] at h
      rw [← h, eGet_value_cons, eGet_value_cons]
      simp only
      by_cases hk : newval.key = some k
      · rw [if_pos hk, if_pos hk]
      · rw [if_neg hk, if_neg hk, if_neg (by rw [← hc.2]; exact hk)]
    · rw [if_neg hc] at h
      cases hl : eUpdate_valuestruct_loop newval rest with
      | none =>
        rw [hl] at h
        simp at h
      | some l2 =>
        rw [hl] at h
        simp only [Option.some.injEq] at h
        rw [← h, eGet_value_cons, eGet_value_cons, ih l2 hl]
        by_cases hp : ptr.key = some k
        · rw [if_pos hp, if_pos hp]
          have hnk : ¬ newval.key = some k := by
            intro hnk
            exact hc ⟨by rw [hp]; simp, by rw [hp, hnk]⟩
          rw [if_neg hnk]
        · rw [if_neg hp, if_neg hp]

theorem eUpdate_valuestruct_loop_none (newval : eurephiaVALUES) (vls : List eurephiaVALUES)
    (hk : newval.key ≠ none) (h : eUpdate_valuestruct_loop newval vls = none) :
    ∀ e ∈ vls, e.key ≠ newval.key := by
  induction vls with
  | nil => intro e he; simp at he
  | cons ptr rest ih =>
    rw [eUpdate_valuestruct_loop] at h
    by_cases hc : ptr.key ≠ none ∧ newval.key = ptr.key
    · rw [if_pos hc] at h
      simp at h
    · rw [if_neg hc] at h
      cases hl : eUpdate_valuestruct_loop newval rest with
      | some l2 =>
        rw [hl] at h
        simp at h
      | none =>
        intro e he
        rcases List.mem_cons.mp he with he1 | he2
        · rw [he1]
          intro heq
          exact hc ⟨by rw [heq]; exact hk, heq.symm⟩
        · exact ih hl e he2

theorem eGet_value_of_no_key (vls : List eurephiaVALUES) (k : cstr)
    (h : ∀ e ∈ vls, e.key ≠ some k) : eGet_value (some vls) (some k) = none := by
  induction vls with
  | nil => rfl
  | cons e rest ih =>
    rw [eGet_value_cons, if_neg (h e (List.mem_cons_self _ _))]
    exact ih (fun x hx => h x (List.mem_cons_of_mem _ hx))

theorem eGet_value_eAdd_valuestruct (vls : List eurephiaVALUES) (newval : eurephiaVALUES)
    (k : cstr) (hne : vls ≠ []) (hno : ∀ e ∈ vls, e.key ≠ newval.key) :
    eGet_value (some (eAdd_valuestruct vls newval)) (some k)
      = if newval.key = some k then newval.val else eGet_value (some vls) (some k) := by
  cases vls with
  | nil => exact absurd rfl hne
  | cons hd tl =>
    unfold eAdd_valuestruct
    simp only
    by_cases hc : hd.key = none ∧ hd.val = none ∧ tl = [] ∧ hd.evid = 0
    · rw [if_pos hc]
      obtain ⟨h1, -, h3, -⟩ := hc
      subst h3
      rw [eGet_value_cons, eGet_value_cons, eGet_value_nil]
      simp only
      by_cases hk : newval.key = some k
      · rw [if_pos hk, if_pos hk]
      · rw [if_neg hk, if_neg hk, if_neg (by rw [h1]; simp)]
    · rw [if_neg hc, eGet_value_append_singleton]
      simp only
      by_cases hk : newval.key = some k
      · have hnone : (hd :: tl).any (fun e => decide (e.key = some k)) = false := by
          rw [List.any_eq_false]
          intro e he
          have := hno e he
          rw [hk] at this
          simpa using this
        rw [hnone, if_pos hk, if_pos hk]
        simp
      · rw [if_neg hk, if_neg hk]
        by_cases ha : (hd :: tl).any (fun e => decide (e.key = some k)) = true
        · rw [if_pos ha]
        · rw [if_neg ha]
          symm
          apply eGet_value_of_no_key
          intro e he
          have hf : (hd :: tl).any (fun e => decide (e.key = some k)) = false := by
            simpa using ha
          rw [List.any_eq_false] at hf
          simpa using hf e he

theorem eGet_value_eUpdate_valuestruct (vls : List eurephiaVALUES) (newval : eurephiaVALUES)
    (k : cstr) (hne : vls ≠ []) (hk : newval.key ≠ none) :
    eGet_value (some (eUpdate_valuestruct vls newval 1)) (some k)
      = if newval.key = some k then newval.val else eGet_value (some vls) (some k) := by
  unfold eUpdate_valuestruct
  cases hl : eUpdate_valuestruct_loop newval vls with
  | some l => exact eUpdate_valuestruct_loop_get newval k vls l hl
  | none =>
    simp only [if_true]
    exact eGet_value_eAdd_valuestruct vls newval k hne
      (eUpdate_valuestruct_loop_none newval vls hk hl)

theorem eUpdate_valuestruct_ne_nil (vls : List eurephiaVALUES) (newval : eurephiaVALUES)
    (hne : vls ≠ []) : eUpdate_valuestruct vls newval 1 ≠ [] := by
  unfold eUpdate_valuestruct
  cases vls with
  | nil => exact absurd rfl hne
  | cons hd tl =>
    cases hl : eUpdate_valuestruct_loop newval (hd :: tl) with
    | some l =>
      simp only
      rw [eUpdate_valuestruct_loop] at hl
      by_cases hc : hd.key ≠ none ∧ newval.key = hd.key
      · rw [if_pos hc] at hl
        simp only [Option.some.injEq] at hl
        rw [← hl]
        simp
      · rw [if_neg hc] at hl
        cases hl2 : eUpdate_valuestruct_loop newval tl with
        | none =>
          rw [hl2] at hl
          simp at hl
        | some l2 =>
          rw [hl2] at hl
          simp only [Option.some.injEq] at hl
          rw [← hl]
          simp
    | none =>
      simp only [if_true]
      unfold eAdd_valuestruct
      simp only
      split_ifs <;> simp

theorem eAdd_value_ne_nil (vls : List eurephiaVALUES) (key val : Option cstr) (hne : vls ≠ []) :
    eAdd_value vls key val ≠ [] := by
  cases vls with
  | nil => exact absurd rfl hne
  | cons hd tl =>
    unfold eAdd_value eAdd_valuestruct
    simp only
    split_ifs <;> simp

theorem eUpdate_value_ne_nil (vls : List eurephiaVALUES) (key : cstr) (newval : Option cstr)
    (addunkn : Int) (hne : vls ≠ []) : eUpdate_value vls key newval addunkn ≠ [] := by
  unfold eUpdate_value
  cases eGet_valuestruct (some vls) (some key) with
  | some _ =>
    simp only
    cases vls with
    | nil => exact absurd rfl hne
    | cons hd tl =>
      rw [eUpdate_value_set]
      split_ifs <;> simp
  | none =>
    simp only
    split_ifs
    · exact eAdd_value_ne_nil vls _ _ hne
    · exact hne

theorem default_cfg_values_copy_ne_nil (args : List eurephiaVALUES) :
    ∀ (cfg c : List eurephiaVALUES), cfg ≠ [] → default_cfg_values_copy args cfg = some c →
      c ≠ [] := by
  induction args with
  | nil =>
    intro cfg c hne h
    simp only [default_cfg_values_copy, Option.some.injEq] at h
    rw [← h]
    exact hne
  | cons ptr rest ih =>
    intro cfg c hne h
    rw [default_cfg_values_copy] at h
    cases hk : ptr.key with
    | none =>
      rw [hk] at h
      simp at h
    | some key =>
      rw [hk] at h
      exact ih _ c (eUpdate_value_ne_nil cfg key ptr.val 1 hne) h

theorem default_cfg_values_ne_nil (prgargs : Option (List eurephiaVALUES))
    (c : List eurephiaVALUES) (h : default_cfg_values prgargs = some c) : c ≠ [] := by
  unfold default_cfg_values at h
  exact default_cfg_values_copy_ne_nil _ _ c (by decide) h

theorem parse_config_line_key (line : cstr) (prm : eurephiaVALUES)
    (h : parse_config_line line = some prm) : prm.key ≠ none := by
  unfold parse_config_line at h
  split_ifs at h
  simp only [Option.some.injEq] at h
  rw [← h]
  simp

theorem read_config_loop_get (sectmatch k : cstr) (lines : List cstr) :
    ∀ (sectfound : Bool) (cfg : List eurephiaVALUES), cfg ≠ [] →
      eGet_value (some (read_config_loop sectmatch lines sectfound cfg)) (some k)
        = match spec_file_value sectmatch k lines sectfound with
          | some v => v
          | none => eGet_value (some cfg) (some k) := by
  induction lines with
  | nil =>
    intro sectfound cfg _
    rfl
  | cons buf rest ih =>
    intro sectfound cfg hne
    rw [read_config_loop, spec_file_value]
    by_cases hb : buf.head? = some '['
    · rw [if_pos hb, if_pos hb]
      exact ih _ cfg hne
    · rw [if_neg hb, if_neg hb]
      cases sectfound with
      | false =>
        simp only [Bool.false_eq_true, if_false]
        rw [ih false cfg hne]
        cases spec_file_value sectmatch k rest false <;> rfl
      | true =>
        simp only [if_true]
        cases hp : parse_config_line buf with
        | none =>
          simp only
          rw [ih true cfg hne]
          cases spec_file_value sectmatch k rest true <;> rfl
        | some prm =>
          simp only
          rw [ih true _ (eUpdate_valuestruct_ne_nil cfg prm hne)]
          cases spec_file_value sectmatch k rest true with
          | some v => rfl
          | none =>
            simp only
            rw [eGet_value_eUpdate_valuestruct cfg prm k hne (parse_config_line_key buf prm hp)]
            by_cases hk : prm.key = some k
            · rw [if_pos hk, if_pos hk]
            · rw [if_neg hk, if_neg hk]

theorem eGet_value_eUpdate_value_set (key k : cstr) (newval : Option cstr)
    (vls : List eurephiaVALUES) (h : ∃ e ∈ vls, e.key = some key) :
    eGet_value (some (eUpdate_value_set key newval vls)) (some k)
      = if key = k then newval else eGet_value (some vls) (some k) := by
  induction vls with
  | nil =>
    obtain ⟨e, he, -⟩ := h
    simp at he
  | cons e rest ih =>
    rw [eUpdate_value_set]
    by_cases hk : e.key = some key
    · rw [if_pos hk, eGet_value_cons, eGet_value_cons]
      simp only [hk, Option.some.injEq]
      by_cases hkk : key = k
      · rw [if_pos hkk, if_pos hkk]
      · rw [if_neg hkk, if_neg hkk, if_neg hkk]
    · rw [if_neg hk, eGet_value_cons, eGet_value_cons]
      have hrest : ∃ x ∈ rest, x.key = some key := by
        obtain ⟨x, hx, hxk⟩ := h
        rcases List.mem_cons.mp hx with h1 | h2
        · rw [h1] at hxk
          exact absurd hxk hk
        · exact ⟨x, h2, hxk⟩
      rw [ih hrest]
      by_cases hkk : key = k
      · subst hkk
        rw [if_neg hk, if_pos rfl, if_pos rfl]
      · rw [if_neg hkk, if_neg hkk]

theorem eGet_value_eUpdate_value (vls : List eurephiaVALUES) (key k : cstr)
    (newval : Option cstr) (hne : vls ≠ []) :
    eGet_value (some (eUpdate_value vls key newval 1)) (some k)
      = if key = k then newval else eGet_value (some vls) (some k) := by
  unfold eUpdate_value
  cases hg : eGet_valuestruct (some vls) (some key) with
  | some x =>
    simp only
    apply eGet_value_eUpdate_value_set
    unfold eGet_valuestruct at hg
    simp only at hg
    have hm := List.mem_of_find?_eq_some hg
    have hp := List.find?_some hg
    exact ⟨x, hm, by simpa using hp⟩
  | none =>
    simp only [if_true]
    unfold eGet_valuestruct at hg
    simp only [List.find?_eq_none, decide_eq_true_eq] at hg
    cases vls with
    | nil => exact absurd rfl hne
    | cons hd tl =>
      unfold eAdd_value
      simp only
      rw [eGet_value_eAdd_valuestruct (hd :: tl) _ k hne (fun e he => by simpa using hg e he)]
      simp only [Option.some.injEq]

theorem default_cfg_values_copy_get (k : cstr) (args : List eurephiaVALUES) :
    ∀ (cfg c : List eurephiaVALUES), cfg ≠ [] → default_cfg_values_copy args cfg = some c →
      eGet_value (some c) (some k)
        = match spec_args_value k args with
          | some v => v
          | none => eGet_value (some cfg) (some k) := by
  induction args with
  | nil =>
    intro cfg c _ h
    simp only [default_cfg_values_copy, Option.some.injEq] at h
    rw [← h]
    rfl
  | cons ptr rest ih =>
    intro cfg c hne h
    rw [default_cfg_values_copy] at h
    cases hk : ptr.key with
    | none =>
      rw [hk] at h
      simp at h
    | some key =>
      rw [hk] at h
      simp only at h
      rw [ih _ c (eUpdate_value_ne_nil cfg key ptr.val 1 hne) h, spec_args_value]
      cases spec_args_value k rest with
      | some v => rfl
      | none =>
        simp only
        rw [eGet_value_eUpdate_value cfg key k ptr.val hne, hk]
        by_cases hkk : key = k
        · rw [if_pos hkk, if_pos (by rw [hkk])]
        · rw [if_neg hkk, if_neg (by simpa using hkk)]

/-! ## C26: which source of a setting wins in `read_config` -/

/-- C26 (amended): in the settings `read_config` returns, a key holds the
value of the last line of the section of the config file that sets it; only a
key the section does not set holds the value of the command line (the last
argument that sets it), and a key neither of them sets keeps its built-in
value.  File values override command line values. -/
theorem read_config_precedence (prgargs : Option (List eurephiaVALUES)) (sect : cstr)
    (env : ConfigFileEnv) (cfg : List eurephiaVALUES) (key : cstr)
    (hcfg : read_config prgargs sect env = some cfg) :
    eGet_value (some cfg) (some key)
      = match spec_file_value ("[".toList ++ sect ++ "]".toList) key env.lines false with
        | some v => v
        | none =>
          match spec_args_value key (prgargs.getD []) with
          | some v => v
          | none => eGet_value (default_cfg_values none) (some key) := by
  unfold read_config at hcfg
  cases hs : env.stat_ok with
  | false => simp [hs] at hcfg
  | true =>
    cases hf : env.fopen_ok with
    | false => simp [hs, hf] at hcfg
    | true =>
      cases hd : default_cfg_values prgargs with
      | none => simp [hs, hf, hd] at hcfg
      | some c =>
        simp only [hs, hf, hd, Bool.not_true, Bool.false_eq_true, if_false,
          Option.some.injEq] at hcfg
        rw [← hcfg, read_config_loop_get _ key env.lines false c
          (default_cfg_values_ne_nil prgargs c hd)]
        cases spec_file_value ("[".toList ++ sect ++ "]".toList) key env.lines false with
        | some v => rfl
        | none =>
          simp only
          unfold default_cfg_values at hd
          simp only at hd
          rw [default_cfg_values_copy_get key _ _ c (by decide) hd]
          rfl

/-- C26 (amended), at the arguments of `-t 8` and a config file whose section
sets `threads = 2`: the settings hold the file's value. -/
theorem read_config_precedence_witness :
    read_config (some sample_prgargs) "xmlrpc_parser".toList sample_config_file
        = some (read_config_loop "[xmlrpc_parser]".toList sample_config_file.lines false
            ((default_cfg_values (some sample_prgargs)).getD []))
      ∧ eGet_value (some (read_config_loop "[xmlrpc_parser]".toList
            sample_config_file.lines false
            ((default_cfg_values (some sample_prgargs)).getD []))) (some "threads".toList)
          = match spec_file_value ("[".toList ++ "xmlrpc_parser".toList ++ "]".toList)
              "threads".toList sample_config_file.lines false with
            | some v => v
            | none =>
              match spec_args_value "threads".toList ((some sample_prgargs).getD []) with
              | some v => v
              | none => eGet_value (default_cfg_values none) (some "threads".toList) :=
  ⟨by decide,
   read_config_precedence (some sample_prgargs) "xmlrpc_parser".toList sample_config_file _
     "threads".toList (by decide)⟩

/-- C26 (counterexample): the command line gives `threads` the value 8 and
the section `[xmlrpc_parser]` of the config file sets `threads = 2`; the
settings `read_config` returns hold 2, the file's value, not the command
line's. -/
theorem read_config_file_overrides_arguments :
    eGet_value (some sample_prgargs) (some "threads".toList) = some "8".toList
      ∧ spec_file_value "[xmlrpc_parser]".toList "threads".toList
          sample_config_file.lines false = some (some "2".toList)
      ∧ eGet_value (read_config (some sample_prgargs) "xmlrpc_parser".toList
          sample_config_file) (some "threads".toList) = some "2".toList
      ∧ eGet_value (read_config (some sample_prgargs) "xmlrpc_parser".toList
          sample_config_file) (some "threads".toList) ≠ some "8".toList := by
  decide

/-! ## C27: the path of the archived report -/

theorem fmt_i_length (r : Int) (h0 : 0 ≤ r) (h1 : r ≤ 2 ^ 31 - 1) :
    (fmt_i r).toList = (Nat.repr r.toNat).toList ∧ (fmt_i r).toList.length ≤ 10 := by
  obtain ⟨n, rfl⟩ := Int.eq_ofNat_of_zero_le h0
  have hn : n < 10 ^ 10 := by
    have : (n : Int) < 10 ^ 10 := by omega
    exact_mod_cast this
  refine ⟨rfl, ?_⟩
  have := Nat.repr_length n 10 (by decide) hn
  simpa [fmt_i] using this

/-- C27: for every report directory, every client id and every run id r with
0 ≤ r ≤ 2^31 − 1, `get_destination_path` returns exactly
`<destdir>/<clientid>/report-<r>.xml` with r in decimal: the length given to
`snprintf` never cuts the path.  For a negative r it returns NULL. -/
theorem get_destination_path_exact (destdir : cstr) (job : parseJob_t) (r : Int)
    (h0 : 0 ≤ r) (h1 : r ≤ 2 ^ 31 - 1) :
    get_destination_path destdir (some job) r
        = some (destdir ++ "/".toList ++ job.clientid ++ "/report-".toList
            ++ (Nat.repr r.toNat).toList ++ ".xml".toList)
      ∧ ∀ (neg : Int), neg < 0 → get_destination_path destdir (some job) neg = none := by
  refine ⟨?_, ?_⟩
  · obtain ⟨hrepr, hlen⟩ := fmt_i_length r h0 h1
    unfold get_destination_path
    simp only
    rw [if_neg (by omega), hrepr]
    rw [hrepr] at hlen
    rw [List.take_of_length_le]
    simp only [List.length_append]
    have e1 : "/".toList.length = 1 := rfl
    have e2 : "/report-".toList.length = 8 := rfl
    have e3 : ".xml".toList.length = 4 := rfl
    rw [e1, e2, e3]
    omega
  · intro neg hneg
    unfold get_destination_path
    simp only
    rw [if_pos hneg]

/-- C27, at the largest run id: the path of run 2147483647 of client h1 has
all ten digits and the suffix. -/
theorem get_destination_path_exact_witness :
    (0 : Int) ≤ 2147483647 ∧ (2147483647 : Int) ≤ 2 ^ 31 - 1
      ∧ get_destination_path sample_thrdata.destdir (some sample_job) 2147483647
          = some (sample_thrdata.destdir ++ "/".toList ++ sample_job.clientid
              ++ "/report-".toList ++ (Nat.repr (2147483647 : Int).toNat).toList
              ++ ".xml".toList)
      ∧ get_destination_path sample_thrdata.destdir (some sample_job) (-1) = none :=
  ⟨by decide, by decide,
   (get_destination_path_exact sample_thrdata.destdir sample_job 2147483647
     (by decide) (by decide)).1,
   (get_destination_path_exact sample_thrdata.destdir sample_job 2147483647
     (by decide) (by decide)).2 (-1) (by decide)⟩

/-! ## C28: the check of the rtevalruns_details insertion -/

/-- C28 (code defect): after the rtevalruns_details insertion
`db_register_rtevalrun` tests `eCount(dbdata) != 1` and sets `ret = -1`, and
the next statement but one is an unconditional `ret = 1`, so the check never
decides the result.  For the sample report whose details document has two
records both are inserted, the list returned has two elements, and the
function returns 1, where the claim has -1; it returns 1 for every count the
details insertion reports. -/
theorem db_register_rtevalrun_details_check_overridden :
    RunEnv.of_plans sample_libs 100
        (sample_run_report [sample_run_record] [sample_run_record, sample_run_record])
        1 5 17 "/var/lib/rteval/reports/h1/report-17.xml".toList sample_run_insert_env
      = { rtevalrun_d := true, ins_run := some 1, rtevalrundets_d := true, ins_dets := some 2 }
    ∧ db_register_rtevalrun_plans sample_libs 100
        (sample_run_report [sample_run_record] [sample_run_record, sample_run_record])
        1 5 17 "/var/lib/rteval/reports/h1/report-17.xml".toList sample_run_insert_env
      = (some 1,
          [Event.PQprepare "INSERT INTO rtevalruns (rterid,submid) VALUES ($1,$2)".toList 2
              (some ExecStatusType.PGRES_COMMAND_OK),
            Event.PQexecPrepared [some "17".toList, some "x".toList]
              (some ExecStatusType.PGRES_COMMAND_OK),
            Event.PQprepare
              "INSERT INTO rtevalruns_details (rterid,xmldata) VALUES ($1,$2)".toList 2
              (some ExecStatusType.PGRES_COMMAND_OK),
            Event.PQexecPrepared [some "17".toList, some "x".toList]
              (some ExecStatusType.PGRES_COMMAND_OK),
            Event.PQexecPrepared [some "17".toList, some "x".toList]
              (some ExecStatusType.PGRES_COMMAND_OK)])
    ∧ ∀ (n : Nat),
        db_register_rtevalrun
            { rtevalrun_d := true, ins_run := some 1, rtevalrundets_d := true
              ins_dets := some n }
          = (1, [Event.pgsql_INSERT "rtevalruns", Event.pgsql_INSERT "rtevalruns_details"]) := by
  refine ⟨by decide, by decide, ?_⟩
  intro n
  rfl

/-! ## C29: the system-registration mutex on the paths of `parse_report` -/

theorem mtx_sysreg_foldl_of_no_mutex (l : List Event) :
    ∀ (b : Bool), l.any Event.is_sysreg_mutex = false → l.foldl mtx_sysreg_step b = b := by
  induction l with
  | nil => intro b _; rfl
  | cons e t ih =>
    intro b h
    simp only [List.any_cons, Bool.or_eq_false_iff] at h
    rw [List.foldl_cons]
    have he : mtx_sysreg_step b e = b := by
      cases e <;> first | rfl | exact absurd h.1 (by decide)
    rw [he]
    exact ih b h.2

theorem parse_report_transaction_mtx_sysreg (job : parseJob_t) (env : ParseEnv)
    (syskey rterid : Int) (d : cstr) (evs : List Event) :
    mtx_sysreg_held (parse_report_transaction job env syskey rterid d evs).2
      = mtx_sysreg_held evs := by
  have hi : ∀ l : List Event, l.all Event.is_insert = true →
      l.any Event.is_sysreg_mutex = false := fun l hl =>
    any_eq_false_of_all _ Event.is_insert l hl (by intro e he; cases e <;> first | rfl | cases he)
  have hm : ∀ l : List Event, l.all Event.is_mkdir = true →
      l.any Event.is_sysreg_mutex = false := fun l hl =>
    any_eq_false_of_all _ Event.is_mkdir l hl (by intro e he; cases e <;> first | rfl | cases he)
  have r := fun b => mtx_sysreg_foldl_of_no_mutex _ b (hi _ (db_register_rtevalrun_events env.run))
  have c := fun b =>
    mtx_sysreg_foldl_of_no_mutex _ b (hi _ (db_register_cyclictest_events env.cyclic))
  have m := fun b =>
    mtx_sysreg_foldl_of_no_mutex _ b (hm _ (make_report_dir_events (some d) env.dirs))
  simp only [parse_report_transaction, mtx_sysreg_held]
  split_ifs <;>
    simp only [List.foldl_append, List.foldl_cons, List.foldl_nil, r, c, m, mtx_sysreg_step]

/-- C29 (code defect): `parse_report` locks `mtx_sysreg` before
`db_register_system` and unlocks it only after `db_get_new_rterid` succeeded;
the two failure branches in between leave through `goto exit`, where nothing
is unlocked.  So the worker still holds the mutex when `parse_report` returns
exactly on the outcomes STAT_SYSREG (6) and STAT_RTERIDREG (7), where the
claim has it released on every outcome: for the sample job whose system
registration fails, and for the one whose run-id query is refused, the last
mutex call is the lock; for the sample job that succeeds it is the unlock. -/
theorem parse_report_returns_with_sysreg_locked (thrdata : threadData_t) (job : parseJob_t)
    (env : ParseEnv) :
    (mtx_sysreg_held (parse_report thrdata job env).2 = true
      ↔ ((parse_report thrdata job env).1 = STAT_SYSREG
          ∨ (parse_report thrdata job env).1 = STAT_RTERIDREG))
    ∧ parse_report sample_thrdata sample_job sample_env_sysreg_fails
        = (STAT_SYSREG,
            [Event.stat "/tmp/r.xml".toList, Event.xmlParseFile "/tmp/r.xml".toList,
              Event.mutex_lock_sysreg, Event.db_register_system (-1), Event.xmlFreeDoc])
    ∧ mtx_sysreg_held (parse_report sample_thrdata sample_job sample_env_sysreg_fails).2 = true
    ∧ parse_report sample_thrdata sample_job sample_env_nextval_fails
        = (STAT_RTERIDREG,
            [Event.stat "/tmp/r.xml".toList, Event.xmlParseFile "/tmp/r.xml".toList,
              Event.mutex_lock_sysreg, Event.db_register_system 5,
              Event.PQexec SqlCmd.NEXTVAL_RTERID (some ExecStatusType.PGRES_FATAL_ERROR),
              Event.xmlFreeDoc])
    ∧ mtx_sysreg_held (parse_report sample_thrdata sample_job sample_env_nextval_fails).2 = true
    ∧ (parse_report sample_thrdata sample_job sample_env).1 = STAT_SUCCESS
    ∧ mtx_sysreg_held (parse_report sample_thrdata sample_job sample_env).2 = false := by
  refine ⟨?_, by decide, by decide, by decide, by decide, by decide, by decide⟩
  simp only [parse_report]
  split_ifs
  · simp [mtx_sysreg_held, mtx_sysreg_step, STAT_FTOOBIG, STAT_SYSREG, STAT_RTERIDREG]
  · simp [mtx_sysreg_held, mtx_sysreg_step, STAT_XMLFAIL, STAT_SYSREG, STAT_RTERIDREG]
  · simp [mtx_sysreg_held, mtx_sysreg_step]
  · simp [mtx_sysreg_held, mtx_sysreg_step]
  · simp [mtx_sysreg_held, mtx_sysreg_step, STAT_GENDB, STAT_SYSREG, STAT_RTERIDREG]
  · split
    · simp [mtx_sysreg_held, mtx_sysreg_step, STAT_UNKNFAIL, STAT_SYSREG, STAT_RTERIDREG]
    · rename_i d _
      rw [parse_report_transaction_mtx_sysreg]
      rcases parse_report_transaction_status job env env.syskey (db_get_new_rterid env.nextval) d
        [Event.stat job.filename, Event.xmlParseFile job.filename, Event.mutex_lock_sysreg,
          Event.db_register_system env.syskey,
          Event.PQexec SqlCmd.NEXTVAL_RTERID env.nextval.dbres, Event.mutex_unlock_sysreg,
          Event.PQexec SqlCmd.BEGIN env.begin_res]
        with h | h | h | h <;> rw [h] <;>
        simp [mtx_sysreg_held, mtx_sysreg_step, STAT_RTEVRUNS, STAT_CYCLIC, STAT_REPMOVE,
          STAT_SUCCESS, STAT_SYSREG, STAT_RTERIDREG]

/-! ## C30: the statuses `parse_report` can return -/

theorem parse_report_status_mem (thrdata : threadData_t) (job : parseJob_t) (env : ParseEnv) :
    (parse_report thrdata job env).1 ∈
      [STAT_SUCCESS, STAT_XMLFAIL, STAT_SYSREG, STAT_RTERIDREG, STAT_GENDB, STAT_RTEVRUNS,
        STAT_CYCLIC, STAT_REPMOVE, STAT_FTOOBIG] := by
  simp only [parse_report]
  split_ifs with h1 h2 h3 h4 h5
  · simp
  · simp
  · simp
  · simp
  · simp
  · split
    · rename_i hnone
      obtain ⟨d, hd⟩ := get_destination_path_isSome thrdata.destdir job _ h4
      rw [hd] at hnone
      cases hnone
    · rename_i d _
      rcases parse_report_transaction_status job env env.syskey (db_get_new_rterid env.nextval) d
        [Event.stat job.filename, Event.xmlParseFile job.filename, Event.mutex_lock_sysreg,
          Event.db_register_system env.syskey,
          Event.PQexec SqlCmd.NEXTVAL_RTERID env.nextval.dbres, Event.mutex_unlock_sysreg,
          Event.PQexec SqlCmd.BEGIN env.begin_res]
        with h | h | h | h <;> rw [h] <;> simp

theorem db_update_submissionqueue_sql_of_mem (submid : Nat) (rc : Int)
    (h : rc ∈ [STAT_SUCCESS, STAT_XMLFAIL, STAT_SYSREG, STAT_RTERIDREG, STAT_GENDB,
      STAT_RTEVRUNS, STAT_CYCLIC, STAT_REPMOVE, STAT_FTOOBIG]) :
    db_update_submissionqueue_sql submid rc ≠ none := by
  simp only [List.mem_cons, List.mem_singleton, List.not_mem_nil, or_false] at h
  rcases h with h | h | h | h | h | h | h | h | h <;> rw [h] <;>
    simp [db_update_submissionqueue_sql, STAT_SUCCESS, STAT_XMLFAIL, STAT_SYSREG,
      STAT_RTERIDREG, STAT_GENDB, STAT_RTEVRUNS, STAT_CYCLIC, STAT_REPMOVE, STAT_FTOOBIG,
      STAT_ASSIGNED, STAT_INPROG, STAT_UNKNFAIL]

/-- C30: for every job and every behaviour of the collaborators, the status
`parse_report` returns is one of STAT_SUCCESS (3), STAT_XMLFAIL (5),
STAT_SYSREG (6), STAT_RTERIDREG (7), STAT_GENDB (8), STAT_RTEVRUNS (9),
STAT_CYCLIC (10), STAT_REPMOVE (11), STAT_FTOOBIG (12).  It is never the
initial value -1, never STAT_NEW, STAT_ASSIGNED or STAT_INPROG, and never
STAT_UNKNFAIL (4): `get_destination_path` gives a name for every run id that
passed the test `rterid < 0`.  So `db_update_submissionqueue` has a statement
for the status and does not return 0, the value for an invalid status. -/
theorem parse_report_status_set (thrdata : threadData_t) (job : parseJob_t) (env : ParseEnv)
    (res : PGresult) :
    (parse_report thrdata job env).1 ∈ ([3, 5, 6, 7, 8, 9, 10, 11, 12] : List Int)
    ∧ [STAT_SUCCESS, STAT_XMLFAIL, STAT_SYSREG, STAT_RTERIDREG, STAT_GENDB, STAT_RTEVRUNS,
        STAT_CYCLIC, STAT_REPMOVE, STAT_FTOOBIG] = ([3, 5, 6, 7, 8, 9, 10, 11, 12] : List Int)
    ∧ (parse_report thrdata job env).1 ≠ -1
    ∧ (parse_report thrdata job env).1 ≠ STAT_NEW
    ∧ (parse_report thrdata job env).1 ≠ STAT_ASSIGNED
    ∧ (parse_report thrdata job env).1 ≠ STAT_INPROG
    ∧ (parse_report thrdata job env).1 ≠ STAT_UNKNFAIL
    ∧ db_update_submissionqueue_sql job.submid (parse_report thrdata job env).1 ≠ none
    ∧ (db_update_submissionqueue job.submid (parse_report thrdata job env).1 res).1 ≠ 0 := by
  have hmem := parse_report_status_mem thrdata job env
  have hsql := db_update_submissionqueue_sql_of_mem job.submid _ hmem
  have hnum : (parse_report thrdata job env).1 ∈ ([3, 5, 6, 7, 8, 9, 10, 11, 12] : List Int) :=
    hmem
  refine ⟨hnum, rfl, ?_, ?_, ?_, ?_, ?_, hsql, ?_⟩
  · intro h
    rw [h] at hnum
    exact absurd hnum (by decide)
  · intro h
    rw [h] at hnum
    exact absurd hnum (by decide)
  · intro h
    rw [h] at hnum
    exact absurd hnum (by decide)
  · intro h
    rw [h] at hnum
    exact absurd hnum (by decide)
  · intro h
    rw [h] at hnum
    exact absurd hnum (by decide)
  · unfold db_update_submissionqueue
    cases hq : db_update_submissionqueue_sql job.submid (parse_report thrdata job env).1 with
    | none => exact absurd hq hsql
    | some sql =>
      simp only
      cases res with
      | none => simp
      | some st =>
        simp only
        split_ifs <;> simp

end RtevalParserd
